import Mathlib

/-!
# Graficas-A01337202 — a verification development

Shallow embedding of two programs of the repository:

* `Tareas/Tarea 4 - ThreeJS Game/11_GameCubes/threejsInteraction.js`
  (namespace `Game`): the click game, its registry `objectList`, the scene
  children, the pointer handlers, the animation `update`, the frame loop and
  the score.
* `Tareas/Tarea 2 - WebGL 3D/3d_cube.js` (namespace `Cube3D`): the per-shape
  `update` closures (rotation by elapsed time, the octahedron's bobbing), the
  frame loop, and the vertex and colour tables of the five shape builders.

JavaScript objects are references (`Ref`), mutable fields are maps from
references, and every handler is a function from state to state.  The
library calls the sources make (`Object3D.add/remove`, `Color.setHex`,
`mat4.rotate`) are embedded after the library code they call.
-/

namespace Graficas

/-- A JavaScript object identity (a three.js `Object3D` or a material). -/
abbrev Ref := Nat

/-- Rounding of a rational to the nearest integer, a tie going to the even
neighbour. -/
def roundHalfEven (t : ℚ) : ℤ :=
  let f := ⌊t⌋
  if t - f < 1 / 2 then f
  else if t - f > 1 / 2 then f + 1
  else if f % 2 = 0 then f else f + 1

/-- IEEE 754 rounding to nearest, ties to even, into the binary format with
`p` significant bits and least normal exponent `emin`: `q` is rounded to a
multiple of the spacing `2 ^ (e - (p - 1))` of its binade
`2 ^ e ≤ |q| < 2 ^ (e + 1)`, and to a multiple of the subnormal spacing below
`2 ^ emin`.  Finite JavaScript numbers are the rationals this function
fixes; the overflow to an infinity is outside the model. -/
def roundBinary (p : ℕ) (emin : ℤ) (q : ℚ) : ℚ :=
  let e := max (Int.log 2 |q|) emin
  let ulp : ℚ := 2 ^ (e - ((p : ℤ) - 1))
  roundHalfEven (q / ulp) * ulp

/-- The JavaScript number (a binary64 double) nearest to `q`: what a numeric
literal denotes and what every arithmetic operation on numbers returns. -/
def toDouble (q : ℚ) : ℚ :=
  roundBinary 53 (-1022) q

/-- The value a store into a `Float32Array` keeps (`Math.fround`): the
binary32 float nearest to `q`. -/
def fround (q : ℚ) : ℚ :=
  roundBinary 24 (-126) q

namespace Game

/-- The `scene` object itself (it is an `Object3D`, so it can be a parent). -/
def sceneRef : Ref := 0

/-- The directional light added by `createScene`. -/
def lightRef : Ref := 1

/-- The floor mesh added by `createScene`. -/
def floorRef : Ref := 2

/-- The module-level variables of `threejsInteraction.js` together with the
fields of the three.js objects the program reads or writes.

* `parent`, `sceneChildren`: `Object3D.parent` and `scene.children`;
* `name`, `posX`, `posY`: `object.name`, `object.position.x/y`
  (`posX` only ever holds `±250` moved by steps of `1`, which doubles
  represent exactly; `posY` is the rational value of the double);
* `material`, `emissive`, `currentHex`: `mesh.material` (a material
  identity), the hex value of `material.emissive` and the ad-hoc
  `currentHex` field (`none` while it is `undefined`);
* `pending`: the `index` arguments of the `loadObj` calls whose `await` has
  not resumed yet;
* `nextRef`: the next unused object identity. -/
structure State where
  parent : Ref → Option Ref
  sceneChildren : List Ref
  objectList : List Ref
  name : Ref → String
  posX : Ref → Int
  posY : Ref → ℚ
  material : Ref → Ref
  emissive : Ref → Nat
  currentHex : Ref → Option Nat
  INTERSECTED : Option Ref
  CLICKED : Option Ref
  points : Int
  clickedObjects : Int
  lostObjects : Option Int
  continueGame : Bool
  pending : List Nat
  nextRef : Ref

/-- Source `countPoints` (lines 222-229): `lostObjects = objectList.length -
clickedObjects; points = clickedObjects - lostObjects`.  The name
`lostObjects` is assigned without a declaration (line 14 declares
`lostOjbects`), which in a classic script creates the global; the write to
the `contador` element shows `points` and changes no program variable. -/
def countPoints (s : State) : State :=
  let lostObjects : Int := (s.objectList.length : Int) - s.clickedObjects
  { s with lostObjects := some lostObjects, points := s.clickedObjects - lostObjects }

/-- three.js `Color.setHex(hex)` on the emissive colour of material `m`.
The library floors the argument and extracts the channels with bit
operations, so an `undefined` argument (a `currentHex` never assigned)
yields black, `0`. -/
def setHex (s : State) (m : Ref) (hex : Option Nat) : State :=
  { s with emissive := Function.update s.emissive m (hex.getD 0) }

/-- three.js `scene.remove(object)`: `indexOf` the object in `scene.children`;
when found, clear its `parent` and splice it out; otherwise (also for
`null`) do nothing. -/
def sceneRemove (s : State) (object : Option Ref) : State :=
  match object with
  | none => s
  | some o =>
    if o ∈ s.sceneChildren then
      { s with parent := Function.update s.parent o none,
               sceneChildren := s.sceneChildren.erase o }
    else s

/-- three.js `scene.add(object)`: detach the object from its current parent
if it has one (splicing it out of `scene.children` when that parent is the
scene), set `parent = scene`, push onto `scene.children`. -/
def sceneAdd (s : State) (o : Ref) : State :=
  let s1 := if s.parent o = some sceneRef then sceneRemove s (some o) else s
  { s1 with parent := Function.update s1.parent o (some sceneRef),
            sceneChildren := s1.sceneChildren ++ [o] }

/-- Source `loadObj` up to its `await` (lines 44-49): the call only starts
the load; `index` is captured by the suspended body. -/
def loadObj (s : State) (index : Nat) : State :=
  { s with pending := s.pending ++ [index] }

/-- Parent of the part with identity `r` inside a freshly loaded object whose
root group is `root`.  `shape` describes the loaded tree: part `i + 1` hangs
below part `shape[i]` (clamped to an earlier part, `0` being the root). -/
def loadedParent (root : Ref) (shape : List Nat) (r : Ref) : Ref :=
  root + min (shape.getD (r - root - 1) 0) (r - root - 1)

/-- Source `loadObj` after its `await` resumes (lines 51-71), for the `k`-th
pending load.  The loader hands over a new object tree (`shape`), the two
`Math.random()` draws are the inputs `chosenNegative` and `y`.  The body
names the object `'Object' + index`, places it at `x = ∓250`, pushes it on
`objectList` and adds it to the scene. -/
def loadObjResolve (s : State) (k : Nat) (shape : List Nat) (chosenNegative : Bool)
    (y : ℚ) : State :=
  match s.pending.get? k with
  | none => s
  | some index =>
    let object := s.nextRef
    let chosenValue : Int := if chosenNegative then -250 else 250
    let s1 : State :=
      { s with
        pending := s.pending.eraseIdx k
        nextRef := object + shape.length + 1
        parent := fun r =>
          if r = object then none
          else if object < r ∧ r ≤ object + shape.length then
            some (loadedParent object shape r)
          else s.parent r
        name := Function.update s.name object ("Object" ++ toString index)
        posX := Function.update s.posX object chosenValue
        posY := Function.update s.posY object y
        objectList := s.objectList ++ [object] }
    sceneAdd s1 object

/-- Source `loadObj`, the `catch` branch (lines 74-76): a rejected load only
logs the error. -/
def loadObjReject (s : State) (k : Nat) : State :=
  { s with pending := s.pending.eraseIdx k }

/-- First half of an iteration of the loop of source `update` (lines 81-87):
move `x` one unit towards `0`, or remove the object from the scene when it
is there. -/
def updateObjectX (s : State) (object : Ref) : State :=
  if s.posX object > 0 then
    { s with posX := Function.update s.posX object (s.posX object - 1) }
  else if s.posX object < 0 then
    { s with posX := Function.update s.posX object (s.posX object + 1) }
  else if s.posX object = 0 then
    sceneRemove s (some object)
  else s

/-- Second half of an iteration of the loop of source `update` (lines 89-93):
`y -= 0.05` or `y += 0.05`, in double arithmetic: the literal is the double
nearest to `0.05` and the difference or sum is rounded to a double. -/
def updateObjectY (s : State) (object : Ref) : State :=
  if s.posY object > 0 then
    { s with posY :=
        Function.update s.posY object (toDouble (s.posY object - toDouble (5 / 100))) }
  else if s.posY object < 0 then
    { s with posY :=
        Function.update s.posY object (toDouble (s.posY object + toDouble (5 / 100))) }
  else s

/-- One iteration of the loop of source `update` (lines 80-94). -/
def updateObject (s : State) (object : Ref) : State :=
  updateObjectY (updateObjectX s object) object

/-- Source `update` (lines 79-96): `for (object of objectList)`. -/
def update (s : State) : State :=
  s.objectList.foldl updateObject s

/-- The statement `if (X) X.material.emissive.setHex(X.currentHex);` of both
pointer handlers (lines 169-173, 182-183, 215-216). -/
def restoreEmissive (s : State) (x : Option Ref) : State :=
  match x with
  | some i => setHex s (s.material i) (s.currentHex i)
  | none => s

/-- Lines 175-177 of `onDocumentMouseMove`: make `target` the hovered
object, save its emissive in `currentHex`, paint it red. -/
def highlight (s : State) (target : Ref) : State :=
  let s2 : State := { s with INTERSECTED := some target }
  let s3 : State :=
    { s2 with currentHex :=
        Function.update s2.currentHex target (some (s2.emissive (s2.material target))) }
  setHex s3 (s3.material target) (some 0xff0000)

/-- Source `onDocumentMouseMove` (lines 150-187); `intersects` is the list
of `.object`s of the intersections the raycaster returned. -/
def onDocumentMouseMove (s : State) (intersects : List Ref) : State :=
  if intersects.length > 0 then
    let closer := intersects.length - 1
    match intersects.get? closer with
    | none => s
    | some target =>
      if s.INTERSECTED ≠ some target then
        highlight (restoreEmissive s s.INTERSECTED) target
      else s
  else
    { restoreEmissive s s.INTERSECTED with INTERSECTED := none }

/-- Source `onDocumentMouseDown` (lines 189-220). -/
def onDocumentMouseDown (s : State) (intersects : List Ref) : State :=
  if intersects.length > 0 then
    match intersects.get? (intersects.length - 1) with
    | none => s
    | some clicked =>
      let s1 : State := { s with CLICKED := some clicked }
      let s2 : State := sceneRemove s1 (s1.parent clicked)
      let s3 : State := { s2 with clickedObjects := s2.clickedObjects + 1 }
      if s3.continueGame then loadObj s3 s3.objectList.length else s3
  else
    { restoreEmissive s s.CLICKED with CLICKED := none }

/-- The loop of source `stopGame` (lines 234-236):
`while (scene.children.length > 0) scene.remove(scene.children[0])`.
Every iteration removes the head of `scene.children`, which shortens the
list, so the recursion is well founded. -/
def stopGameLoop (s : State) : State :=
  if _h : s.sceneChildren.length > 0 then
    stopGameLoop (sceneRemove s s.sceneChildren.head?)
  else s
termination_by s.sceneChildren.length
decreasing_by
  cases hc : s.sceneChildren with
  | nil => simp_all
  | cons c cs => simp [sceneRemove, hc]

/-- Source `stopGame` (lines 231-237). -/
def stopGame (s : State) : State :=
  stopGameLoop { s with continueGame := false }

/-- The state `createScene` leaves behind (lines 98-141): the scene holds the
light and the floor, ten loads with indices `0..9` are in flight, nothing is
registered yet.  `material` and `emissive` describe the materials the
meshes of the program carry. -/
def createScene (material : Ref → Ref) (emissive : Ref → Nat) : State :=
  { parent := fun r => if r = lightRef ∨ r = floorRef then some sceneRef else none
    sceneChildren := [lightRef, floorRef]
    objectList := []
    name := fun _ => ""
    posX := fun _ => 0
    posY := fun _ => 0
    material := material
    emissive := emissive
    currentHex := fun _ => none
    INTERSECTED := none
    CLICKED := none
    points := 0
    clickedObjects := 0
    lostObjects := none
    continueGame := true
    pending := List.range 10
    nextRef := 3 }

/-- What can happen to the game after `createScene`: a load resolves or is
rejected, the pointer moves or is pressed, a frame runs `update`, the score
is recomputed, the game is stopped. -/
inductive Event where
  | loaded (k : Nat) (shape : List Nat) (chosenNegative : Bool) (y : ℚ)
  | loadFailed (k : Nat)
  | mouseMove (intersects : List Ref)
  | mouseDown (intersects : List Ref)
  | frame
  | score
  | stop

/-- Effect of one event. -/
def step (s : State) : Event → State
  | .loaded k shape neg y => loadObjResolve s k shape neg y
  | .loadFailed k => loadObjReject s k
  | .mouseMove xs => onDocumentMouseMove s xs
  | .mouseDown xs => onDocumentMouseDown s xs
  | .frame => update s
  | .score => countPoints s
  | .stop => stopGame s

/-- Effect of a sequence of events, oldest first. -/
def run (s : State) (es : List Event) : State :=
  es.foldl step s

/-- Ten completed initial loads (each a group with one mesh below it), then
four pointer-downs that each hit the mesh of a live object, the replacement
load requested by each of the first three resolving before the next press. -/
def fourClicksTrace : List Event :=
  List.replicate 10 (Event.loaded 0 [0] false 0) ++
  [ .mouseDown [4], .loaded 0 [0] false 0,
    .mouseDown [6], .loaded 0 [0] true 0,
    .mouseDown [8], .loaded 0 [0] false 0,
    .mouseDown [10] ]

/-- Number of pointer-down events of a trace that hit something. -/
def hitCount : List Event → Nat
  | [] => 0
  | .mouseDown xs :: es => (if xs.length > 0 then 1 else 0) + hitCount es
  | _ :: es => hitCount es

/-- Events of a running game in which no load fails. -/
def Event.playing : Event → Bool
  | .loadFailed _ => false
  | .stop => false
  | _ => true

/-- Events of a running game: anything but a call of `stopGame`; loads may
complete or be rejected. -/
def Event.running : Event → Bool
  | .stop => false
  | _ => true

/-- Ten initial loads of which the first is rejected and nine complete, a
pointer-down that hits object 3 and whose replacement load completes, then
three more pointer-downs that hit: ten objects are registered, four
pointer-downs have hit, three replacement loads are in flight. -/
def rejectedLoadTrace : List Event :=
  [Event.loadFailed 0] ++ List.replicate 9 (Event.loaded 0 [0] false 0) ++
  [ .mouseDown [4], .loaded 0 [0] false 0,
    .mouseDown [6], .mouseDown [8], .mouseDown [10] ]

/-- Bookkeeping invariant of a running game in which no load failed:
`n` pointer-downs have hit so far. -/
def Running (s : State) (n : Nat) : Prop :=
  s.continueGame = true ∧ s.clickedObjects = n ∧
  s.objectList.length + s.pending.length = 10 + n

/-- Bookkeeping invariant of a running game in which loads may have been
rejected: `n` pointer-downs have hit so far. -/
def RunningAtMost (s : State) (n : Nat) : Prop :=
  s.continueGame = true ∧ s.clickedObjects = n ∧
  s.objectList.length + s.pending.length ≤ 10 + n

/-- The hover invariant relative to the state `s0` before the pointer-move
sequence: materials are not reassigned, every material other than the one
of the hovered object shows its baseline emissive, and the hovered object
is red with its baseline saved in `currentHex`. -/
def HoverInv (s0 s : State) : Prop :=
  s.material = s0.material ∧
  (∀ m, (∀ o, s.INTERSECTED = some o → s.material o ≠ m) → s.emissive m = s0.emissive m) ∧
  (∀ o, s.INTERSECTED = some o →
    s.emissive (s.material o) = 0xff0000 ∧
    s.currentHex o = some (s0.emissive (s.material o)))

/-- The ancestor of `r` (or `r` itself) that is a direct child of the scene,
found by following `parent` at most `fuel` times: the topmost owning group
of a part.  `none` when the chain ends at an object without parent, so the
part is not reachable from the scene. -/
def topmostOwner (s : State) : Nat → Ref → Option Ref
  | 0, _ => none
  | fuel + 1, r =>
    match s.parent r with
    | none => none
    | some p => if p = sceneRef then some r else topmostOwner s fuel p

/-- A part is reachable from the scene when its topmost owner is one of
`scene.children`. -/
def inScene (s : State) (fuel : Nat) (r : Ref) : Bool :=
  match topmostOwner s fuel r with
  | none => false
  | some g => decide (g ∈ s.sceneChildren)

/-- The scene after one load has delivered a group (object 3) holding a
sub-group (object 4) that holds the leaf mesh (object 5). -/
def nestedScene : State :=
  loadObjResolve (createScene id (fun _ => 0)) 0 [0, 1] false 0

/-- The scene after one load has delivered a group (object 3) with two
meshes (objects 4 and 5) directly below it. -/
def flatScene : State :=
  loadObjResolve (createScene id (fun _ => 0)) 0 [0, 0] false 0

/-- One step of `x` towards `0`, as `update` performs it. -/
def towardZero (x : Int) : Int :=
  if x > 0 then x - 1 else if x < 0 then x + 1 else x

/-- One step of `y` towards `0`, as `update` performs it: the double nearest
to `y` minus (or plus) the double nearest to `0.05`. -/
def towardZeroY (y : ℚ) : ℚ :=
  if y > 0 then toDouble (y - toDouble (5 / 100))
  else if y < 0 then toDouble (y + toDouble (5 / 100))
  else y

/-- Ten initial loads complete, two pointer-downs hit live objects before
either replacement load has resumed, then both replacement loads resume. -/
def doubleClickTrace : List Event :=
  List.replicate 10 (Event.loaded 0 [0] false 0) ++
  [ .mouseDown [4], .mouseDown [6], .loaded 0 [0] false 0, .loaded 0 [0] true 0 ]

/-- Object identities are handed out in increasing order and registered at
most once. -/
def FreshRefs (s : State) : Prop :=
  s.objectList.Nodup ∧ ∀ o ∈ s.objectList, o < s.nextRef

/-- One completed load of a flat object, then a pointer-down on its mesh:
object 3 is registered but no longer a child of the scene. -/
def clickedAwayTrace : List Event :=
  [ .loaded 0 [0] false 0, .mouseDown [4] ]

/-- Lines 153-154 of `onDocumentMouseMove`:
`mouse.x = ( event.clientX / window.innerWidth ) * 2 - 1;`
`mouse.y = - ( event.clientY / window.innerHeight ) * 2 + 1;`
over the exact values of the doubles. -/
def mouseMoveCoords {α : Type} [LinearOrderedField α]
    (clientX clientY innerWidth innerHeight : α) : α × α :=
  ((clientX / innerWidth) * 2 - 1, -(clientY / innerHeight) * 2 + 1)

/-- Lines 191-192 of `onDocumentMouseDown`, the same two assignments. -/
def mouseDownCoords {α : Type} [LinearOrderedField α]
    (clientX clientY innerWidth innerHeight : α) : α × α :=
  ((clientX / innerWidth) * 2 - 1, -(clientY / innerHeight) * 2 + 1)

/-- The floor is hovered, then pressed, then the pointer is pressed where
the ray meets nothing, then a pointer-move reports the floor again. -/
def staleHoverTrace : List Event :=
  [ .mouseMove [floorRef], .mouseDown [floorRef], .mouseDown [], .mouseMove [floorRef] ]

/-- Two loaded objects whose meshes 4 and 6 use one material (material 4,
baseline `0x111111`), mesh 4 being hovered. -/
def sharedMaterialScene : State :=
  run (createScene (fun r => if r = 6 then 4 else r) (fun _ => 0x111111))
    [ .loaded 0 [0] false 0, .loaded 0 [0] true 0, .mouseMove [4] ]

/-- One entry of an intersection list: the hit `distance` along the ray and
the `object` hit. -/
structure Intersection where
  distance : ℚ
  object : Ref

/-- Modelled from the spec: the picking step, `raycaster.intersectObjects`,
is code of the three.js library, which is not among the sources; the
handlers only call it (lines 160 and 197).  After section 4.3 of the spec:
for every object handed over, test the ray against it (`raycast` gives the
distances of the hits on an object, none when the ray misses), collect all
hits, and return them sorted ascending by distance. -/
def intersectObjects (raycast : Ref → List ℚ) (objects : List Ref) : List Intersection :=
  (objects.flatMap fun o =>
    (raycast o).map fun d => ({ distance := d, object := o } : Intersection)).insertionSort
    (fun a b => a.distance ≤ b.distance)

/-- A probe ray that meets object 3 at distance 5, object 5 at distance 2
and object 7 at distance 8, and nothing else. -/
def probeRay (o : Ref) : List ℚ :=
  if o = 3 then [5] else if o = 5 then [2] else if o = 7 then [8] else []

/-- The three things an invocation of the frame loop does. -/
inductive FrameStep where
  | reregister
  | update
  | render
  deriving DecidableEq

/-- What one invocation of the frame loop leaves behind: the program state,
the steps it performed in order, and what `render()` drew (the children of
the scene with their `x`). -/
structure FrameResult where
  state : State
  steps : List FrameStep
  rendered : List (Ref × Int)

/-- Source `run` of `threejsInteraction.js` (lines 258-267):
`requestAnimationFrame( run ); update(); render();`.  The name `run` is the
trace runner above, so the frame loop is `runFrame`. -/
def runFrame (s : State) : FrameResult :=
  let steps1 : List FrameStep := [FrameStep.reregister]
  let s1 : State := update s
  let steps2 : List FrameStep := steps1 ++ [FrameStep.update]
  let rendered : List (Ref × Int) := s1.sceneChildren.map fun o => (o, s1.posX o)
  { state := s1, steps := steps2 ++ [FrameStep.render], rendered := rendered }

/-- The scene holds no object twice and only objects already handed out. -/
def SceneFresh (s : State) : Prop :=
  s.sceneChildren.Nodup ∧ ∀ o ∈ s.sceneChildren, o < s.nextRef

/-- A state the game reaches from `createScene` by some sequence of events. -/
def Reachable (s : State) : Prop :=
  ∃ (material : Ref → Ref) (emissive : Ref → Nat) (es : List Event),
    s = run (createScene material emissive) es

/-- The loop of source `stopGame` (lines 234-236) run for at most `fuel`
iterations: `none` when the fuel is used up while the loop condition
`scene.children.length > 0` still holds. -/
def stopGameLoopFuel : Nat → State → Option State
  | 0, s => if s.sceneChildren.length > 0 then none else some s
  | fuel + 1, s =>
    if s.sceneChildren.length > 0 then
      stopGameLoopFuel fuel (sceneRemove s s.sceneChildren.head?)
    else some s

/-- The scene after two loads of flat objects: light, floor, groups 3 and 5,
with one pointer-down hit counted. -/
def stoppingScene : State :=
  run (createScene id (fun _ => 0))
    [ .loaded 0 [0] false 0, .loaded 0 [0] true 0, .mouseDown [floorRef] ]

end Game

namespace Cube3D

/-! ## Tarea 2 — 3d_cube.js

Numbers are elements of an ordered field `α` (the exact values the doubles
stand for); `Math.PI`, `Math.sin`, `Math.cos` and `Math.hypot` are the
fields of `JsMath`.  The bobbing step of the octahedron is embedded a second
time on the numbers as they are stored (`octaedroBobbing`: doubles, and
floats inside the `Float32Array` `modelViewMatrix`). -/

/-- The functions of the JavaScript `Math` object the program reaches. -/
structure JsMath (α : Type) where
  PI : α
  sin : α → α
  cos : α → α
  hypot : α → α → α → α

/-- A glMatrix `vec3`. -/
structure Vec3 (α : Type) where
  x : α
  y : α
  z : α

/-- A glMatrix `mat4`: sixteen numbers, `mi` is element `[i]`. -/
@[ext]
structure Mat4 (α : Type) where
  m0 : α
  m1 : α
  m2 : α
  m3 : α
  m4 : α
  m5 : α
  m6 : α
  m7 : α
  m8 : α
  m9 : α
  m10 : α
  m11 : α
  m12 : α
  m13 : α
  m14 : α
  m15 : α

variable {α : Type} [LinearOrderedField α]

/-- Source line 8: `let duration = 10000; // ms`. -/
def duration : α := 10000

/-- The constant `glMatrix.EPSILON = 0.000001`. -/
def EPSILON : α := 1 / 1000000

/-- The call `mat4.create()`: the identity matrix. -/
def mat4_create : Mat4 α :=
  { m0 := 1, m1 := 0, m2 := 0, m3 := 0,
    m4 := 0, m5 := 1, m6 := 0, m7 := 0,
    m8 := 0, m9 := 0, m10 := 1, m11 := 0,
    m12 := 0, m13 := 0, m14 := 0, m15 := 1 }

/-- The call `mat4.translate(a, a, v)` (output and input the same matrix):
only the last column changes. -/
def mat4_translate (a : Mat4 α) (v : Vec3 α) : Mat4 α :=
  { a with
    m12 := a.m0 * v.x + a.m4 * v.y + a.m8 * v.z + a.m12
    m13 := a.m1 * v.x + a.m5 * v.y + a.m9 * v.z + a.m13
    m14 := a.m2 * v.x + a.m6 * v.y + a.m10 * v.z + a.m14
    m15 := a.m3 * v.x + a.m7 * v.y + a.m11 * v.z + a.m15 }

/-- The call `mat4.rotate(a, a, rad, axis)`.  The library returns `null`
(here `none`) and writes nothing when the axis is shorter than `EPSILON`;
otherwise it normalises the axis, builds the rotation `b` from
`s = sin rad`, `c = cos rad`, `t = 1 - c` and multiplies the upper three
columns of `a` by it, leaving elements 12 to 15 alone. -/
def mat4_rotate (M : JsMath α) (a : Mat4 α) (rad : α) (axis : Vec3 α) : Option (Mat4 α) :=
  let len := M.hypot axis.x axis.y axis.z
  if len < EPSILON then none
  else
    let len := 1 / len
    let x := axis.x * len
    let y := axis.y * len
    let z := axis.z * len
    let s := M.sin rad
    let c := M.cos rad
    let t := 1 - c
    let b00 := x * x * t + c
    let b01 := y * x * t + z * s
    let b02 := z * x * t - y * s
    let b10 := x * y * t - z * s
    let b11 := y * y * t + c
    let b12 := z * y * t + x * s
    let b20 := x * z * t + y * s
    let b21 := y * z * t - x * s
    let b22 := z * z * t + c
    some
      { m0 := a.m0 * b00 + a.m4 * b01 + a.m8 * b02
        m1 := a.m1 * b00 + a.m5 * b01 + a.m9 * b02
        m2 := a.m2 * b00 + a.m6 * b01 + a.m10 * b02
        m3 := a.m3 * b00 + a.m7 * b01 + a.m11 * b02
        m4 := a.m0 * b10 + a.m4 * b11 + a.m8 * b12
        m5 := a.m1 * b10 + a.m5 * b11 + a.m9 * b12
        m6 := a.m2 * b10 + a.m6 * b11 + a.m10 * b12
        m7 := a.m3 * b10 + a.m7 * b11 + a.m11 * b12
        m8 := a.m0 * b20 + a.m4 * b21 + a.m8 * b22
        m9 := a.m1 * b20 + a.m5 * b21 + a.m9 * b22
        m10 := a.m2 * b20 + a.m6 * b21 + a.m10 * b22
        m11 := a.m3 * b20 + a.m7 * b21 + a.m11 * b22
        m12 := a.m12
        m13 := a.m13
        m14 := a.m14
        m15 := a.m15 }

/-- What `this.modelViewMatrix` holds after the statement
`mat4.rotate(this.modelViewMatrix, this.modelViewMatrix, angle, axis)`. -/
def rotateInPlace (M : JsMath α) (a : Mat4 α) (rad : α) (axis : Vec3 α) : Mat4 α :=
  (mat4_rotate M a rad axis).getD a

/-- The animated part of the record the shape builders return:
`modelViewMatrix` and `currentTime`. -/
structure Shape (α : Type) where
  modelViewMatrix : Mat4 α
  currentTime : α

/-- The first statement of every `update` (line 183 and its copies):
`let deltat = now - this.currentTime`, the elapsed time the tick uses. -/
def deltat (currentTime now : α) : α :=
  now - currentTime

/-- The first lines of every `update` (180-186): `deltat = now -
this.currentTime; fract = deltat / duration; angle = Math.PI * 2 * fract`. -/
def rotationAngle (M : JsMath α) (currentTime now : α) : α :=
  let deltat := deltat currentTime now
  let fract := deltat / duration
  M.PI * 2 * fract

/-- Source `createCube` (lines 173-178), animated part: identity translated
by `translation`, `currentTime = Date.now()`. -/
def createCube (translation : Vec3 α) (now : α) : Shape α :=
  { modelViewMatrix := mat4_translate mat4_create translation, currentTime := now }

/-- Source `cube.update` (lines 180-194); `now` is the value of
`Date.now()`. -/
def cubeUpdate (M : JsMath α) (rotationAxis : Vec3 α) (cube : Shape α) (now : α) : Shape α :=
  let angle := rotationAngle M cube.currentTime now
  { modelViewMatrix := rotateInPlace M cube.modelViewMatrix angle rotationAxis
    currentTime := now }

/-- Source `createPyramid` (lines 276-281), animated part. -/
def createPyramid (translation : Vec3 α) (now : α) : Shape α :=
  { modelViewMatrix := mat4_translate mat4_create translation, currentTime := now }

/-- Source `pyramid.update` (lines 283-297). -/
def pyramidUpdate (M : JsMath α) (rotationAxis : Vec3 α) (pyramid : Shape α) (now : α) :
    Shape α :=
  let angle := rotationAngle M pyramid.currentTime now
  { modelViewMatrix := rotateInPlace M pyramid.modelViewMatrix angle rotationAxis
    currentTime := now }

/-- Source `createPyramidPentagon` (lines 403-409), animated part. -/
def createPyramidPentagon (translation : Vec3 α) (now : α) : Shape α :=
  { modelViewMatrix := mat4_translate mat4_create translation, currentTime := now }

/-- Source `ph.update` (lines 413-429). -/
def phUpdate (M : JsMath α) (rotationAxis : Vec3 α) (ph : Shape α) (now : α) : Shape α :=
  let angle := rotationAngle M ph.currentTime now
  { modelViewMatrix := rotateInPlace M ph.modelViewMatrix angle rotationAxis
    currentTime := now }

/-- Source `createDodecaedro` (lines 820-825), animated part. -/
def createDodecaedro (translation : Vec3 α) (now : α) : Shape α :=
  { modelViewMatrix := mat4_translate mat4_create translation, currentTime := now }

/-- Source `dodecaedro.update` (lines 827-844): two rotations by the same
angle, about `rotationAxis[0]` and then `rotationAxis[1]`. -/
def dodecaedroUpdate (M : JsMath α) (rotationAxis0 rotationAxis1 : Vec3 α)
    (dodecaedro : Shape α) (now : α) : Shape α :=
  let angle := rotationAngle M dodecaedro.currentTime now
  let m1 := rotateInPlace M dodecaedro.modelViewMatrix angle rotationAxis0
  { modelViewMatrix := rotateInPlace M m1 angle rotationAxis1
    currentTime := now }

/-- The closure variable `flag` of `createOctaedro`: `"bottom"` or `"top"`. -/
inductive Flag where
  | bottom
  | top
  deriving DecidableEq

/-- The octahedron record together with what its `update` closure captures
and mutates: the caller's `translation` array and `flag`. -/
structure Octaedro (α : Type) where
  modelViewMatrix : Mat4 α
  currentTime : α
  translation : Vec3 α
  flag : Flag

/-- Source `createOctaedro` (lines 541-548), animated part; `flag` starts as
`"bottom"`. -/
def createOctaedro (translation : Vec3 α) (now : α) : Octaedro α :=
  { modelViewMatrix := mat4_translate mat4_create translation
    currentTime := now
    translation := translation
    flag := Flag.bottom }

/-- Source `octaedro.update` (lines 550-580), on exact values: the sums
`translation[1] ± 0.5` and `modelViewMatrix[13] ± 0.25` are not rounded.
`octaedroBobbing` is the bobbing step with the rounding of the stores. -/
def octaedroUpdate (M : JsMath α) (rotationAxis : Vec3 α) (octaedro : Octaedro α) (now : α) :
    Octaedro α :=
  let angle := rotationAngle M octaedro.currentTime now
  let flag : Flag :=
    if octaedro.translation.y = 12 then Flag.top
    else if octaedro.translation.y = -12 then Flag.bottom
    else octaedro.flag
  let translation1 : α :=
    match flag with
    | Flag.bottom => octaedro.translation.y + 1 / 2
    | Flag.top => octaedro.translation.y - 1 / 2
  let m13 : α :=
    match flag with
    | Flag.bottom => octaedro.modelViewMatrix.m13 + 1 / 4
    | Flag.top => octaedro.modelViewMatrix.m13 - 1 / 4
  let moved : Mat4 α := { octaedro.modelViewMatrix with m13 := m13 }
  { modelViewMatrix := rotateInPlace M moved angle rotationAxis
    currentTime := now
    translation := { octaedro.translation with y := translation1 }
    flag := flag }

/-- The angles a shape's `update` applies over a run of ticks, given the
elapsed time of each tick: the clock read by a tick is the stored
`currentTime` plus its elapsed time. -/
def appliedAngles (M : JsMath α) (rotationAxis : Vec3 α) (cube : Shape α) : List α → List α
  | [] => []
  | elapsed :: rest =>
    rotationAngle M cube.currentTime (cube.currentTime + elapsed) ::
      appliedAngles M rotationAxis
        (cubeUpdate M rotationAxis cube (cube.currentTime + elapsed)) rest

/-- The cube after a run of ticks, given the elapsed time of each tick: the
clock read by a tick is the stored `currentTime` plus its elapsed time. -/
def cubeTicks (M : JsMath α) (rotationAxis : Vec3 α) (cube : Shape α) : List α → Shape α
  | [] => cube
  | elapsed :: rest =>
    cubeTicks M rotationAxis (cubeUpdate M rotationAxis cube (cube.currentTime + elapsed)) rest

/-- The octahedron after a run of ticks at the clock readings `nows`. -/
def octaedroRun (M : JsMath α) (rotationAxis : Vec3 α) (octaedro : Octaedro α)
    (nows : List α) : Octaedro α :=
  nows.foldl (octaedroUpdate M rotationAxis) octaedro

/-- A stand-in `Math` over the rationals, enough to run the parts of
`update` that do not depend on trigonometry. -/
def ratMath : JsMath ℚ :=
  { PI := 355 / 113, sin := fun _ => 0, cos := fun _ => 1, hypot := fun _ _ _ => 1 }

/-- The elapsed times a shape's `update` computes over a run of ticks at the
clock readings `nows`; `currentTime` reads the record's field and `update`
is the shape's `update` with the clock value it reads. -/
def elapsedValues {σ : Type} (currentTime : σ → α) (update : σ → α → σ) (shape : σ) :
    List α → List α
  | [] => []
  | now :: rest =>
    deltat (currentTime shape) now :: elapsedValues currentTime update (update shape now) rest

/-- An element of the array `objs` handed to `draw` and `run`: one of the
five records, with the axis (or axes) its `update` closure captured. -/
inductive Obj (α : Type) where
  | cube (rotationAxis : Vec3 α) (record : Shape α)
  | pyramid (rotationAxis : Vec3 α) (record : Shape α)
  | ph (rotationAxis : Vec3 α) (record : Shape α)
  | octaedro (rotationAxis : Vec3 α) (record : Octaedro α)
  | dodecaedro (rotationAxis0 rotationAxis1 : Vec3 α) (record : Shape α)

/-- The field `obj.modelViewMatrix` that `draw` uploads (line 924). -/
def Obj.modelViewMatrix : Obj α → Mat4 α
  | .cube _ r => r.modelViewMatrix
  | .pyramid _ r => r.modelViewMatrix
  | .ph _ r => r.modelViewMatrix
  | .octaedro _ r => r.modelViewMatrix
  | .dodecaedro _ _ r => r.modelViewMatrix

/-- The call `objs[i].update()` (line 946), with the clock value it reads. -/
def Obj.update (M : JsMath α) (now : α) : Obj α → Obj α
  | .cube a r => .cube a (cubeUpdate M a r now)
  | .pyramid a r => .pyramid a (pyramidUpdate M a r now)
  | .ph a r => .ph a (phUpdate M a r now)
  | .octaedro a r => .octaedro a (octaedroUpdate M a r now)
  | .dodecaedro a0 a1 r => .dodecaedro a0 a1 (dodecaedroUpdate M a0 a1 r now)

/-- The three things an invocation of the frame loop does. -/
inductive FrameStep where
  | reregister
  | update
  | render
  deriving DecidableEq

/-- What one invocation of the frame loop leaves behind: the objects, the
steps it performed in order, and the matrices `draw` uploaded. -/
structure FrameResult (α : Type) where
  objs : List (Obj α)
  steps : List FrameStep
  drawn : List (Mat4 α)

/-- Source `run` of `3d_cube.js` (lines 936-947):
`requestAnimationFrame(...)`, then `draw(gl, objs)`, then
`objs[i].update()` for every `i`; `now i` is the clock the `i`-th update
reads. -/
def run (M : JsMath α) (objs : List (Obj α)) (now : Nat → α) : FrameResult α :=
  let steps1 : List FrameStep := [FrameStep.reregister]
  let drawn : List (Mat4 α) := objs.map Obj.modelViewMatrix
  let steps2 : List FrameStep := steps1 ++ [FrameStep.render]
  let updated : List (Obj α) := objs.enum.map fun io => io.2.update M (now io.1)
  { objs := updated
    steps := steps2 ++ objs.map (fun _ => FrameStep.update)
    drawn := drawn }

/-! ### Vertex and colour tables of the shape builders -/

/-- The count fields of the record a shape builder returns. -/
structure Counts where
  vertSize : Nat
  nVerts : Nat
  colorSize : Nat
  nColors : Nat
  nIndices : Nat

/-- The colour the vertex shader receives for vertex `v`: `draw` binds the
colour buffer with `colorSize = 4` floats per vertex, stride and offset `0`
(line 919), so vertex `v` reads elements `4 v .. 4 v + 3`. -/
def vertexColor (vertexColors : List ℚ) (v : Nat) : List ℚ :=
  (vertexColors.drop (4 * v)).take 4

/-- One RGBA colour per vertex, face by face: the colour array has
`4 * nVerts` elements, `nColors = nVerts` is the number of vertex triples of
`verts`, and every vertex receives the entry of `faceColors` of the face it
belongs to. -/
abbrev ColourPerVertex (verts vertexColors : List ℚ) (faceColors : List (List ℚ))
    (counts : Counts) (faceOfVertex : Nat → Nat) : Prop :=
  vertexColors.length = 4 * counts.nVerts ∧
  counts.nColors = counts.nVerts ∧
  3 * counts.nVerts = verts.length ∧
  ∀ v, v < counts.nVerts →
    some (vertexColor vertexColors v) = faceColors.get? (faceOfVertex v)

/-- Source `createCube`, the array `verts` (lines 84-120), three numbers per
vertex, the vertices of a face together. -/
def createCube_verts : List ℚ :=
  [ -1.0, -1.0, 1.0,
    1.0, -1.0, 1.0,
    1.0, 1.0, 1.0,
    -1.0, 1.0, 1.0,
    -1.0, -1.0, -1.0,
    -1.0, 1.0, -1.0,
    1.0, 1.0, -1.0,
    1.0, -1.0, -1.0,
    -1.0, 1.0, -1.0,
    -1.0, 1.0, 1.0,
    1.0, 1.0, 1.0,
    1.0, 1.0, -1.0,
    -1.0, -1.0, -1.0,
    1.0, -1.0, -1.0,
    1.0, -1.0, 1.0,
    -1.0, -1.0, 1.0,
    1.0, -1.0, -1.0,
    1.0, 1.0, -1.0,
    1.0, 1.0, 1.0,
    1.0, -1.0, 1.0,
    -1.0, -1.0, -1.0,
    -1.0, -1.0, 1.0,
    -1.0, 1.0, 1.0,
    -1.0, 1.0, -1.0 ]

/-- Source `createCube`, the array `faceColors` (lines 130-137), one RGBA
colour per face in the order of the faces of `verts`. -/
def createCube_faceColors : List (List ℚ) :=
  [ [1.0, 0.0, 0.0, 1.0],
    [0.0, 1.0, 0.0, 1.0],
    [0.0, 0.0, 1.0, 1.0],
    [1.0, 1.0, 0.0, 1.0],
    [1.0, 0.0, 1.0, 1.0],
    [0.0, 1.0, 1.0, 1.0] ]

/-- Source `createCube`, the array `vertexColors` as the loop builds it
(lines 141-150: every face colour is pushed four times (`j = 0 .. 3`)). -/
def createCube_vertexColors : List ℚ :=
  createCube_faceColors.flatMap fun color => (List.range 4).flatMap fun _ => color

/-- Source `createCube`, the counts of the record: `vertSize:3, nVerts:24,
colorSize:4, nColors:24, nIndices:36`. -/
def createCube_counts : Counts :=
  { vertSize := 3, nVerts := 24, colorSize := 4, nColors := 24, nIndices := 36 }

/-- The face of `createCube` that vertex `v` of `verts` belongs to
(four vertices per face). -/
def createCube_faceOfVertex (v : Nat) : Nat :=
  v / 4

/-- Source `createPyramid`, the array `verts` (lines 206-226), three numbers per
vertex, the vertices of a face together. -/
def createPyramid_verts : List ℚ :=
  [ 0.0, 1.0, 0.0,
    -1.0, 0.0, 1.0,
    1.0, 0.0, 1.0,
    0.0, 1.0, 0.0,
    1.0, 0.0, 1.0,
    0.0, 0.0, -1.0,
    0.0, 1.0, 0.0,
    -1.0, 0.0, 1.0,
    0.0, 0.0, -1.0,
    0.0, 0.0, -1.0,
    -1.0, 0.0, 1.0,
    1.0, 0.0, 1.0 ]

/-- Source `createPyramid`, the array `faceColors` (lines 236-241), one RGBA
colour per face in the order of the faces of `verts`. -/
def createPyramid_faceColors : List (List ℚ) :=
  [ [1.0, 0.0, 0.0, 1.0],
    [0.0, 1.0, 0.0, 1.0],
    [0.0, 0.0, 1.0, 1.0],
    [1.0, 1.0, 0.0, 1.0] ]

/-- Source `createPyramid`, the array `vertexColors` as the loop builds it
(lines 245-254: every face colour is pushed four times (`j = 0 .. 3`)). -/
def createPyramid_vertexColors : List ℚ :=
  createPyramid_faceColors.flatMap fun color => (List.range 4).flatMap fun _ => color

/-- Source `createPyramid`, the counts of the record: `vertSize:3, nVerts:12,
colorSize:4, nColors:12, nIndices:12`. -/
def createPyramid_counts : Counts :=
  { vertSize := 3, nVerts := 12, colorSize := 4, nColors := 12, nIndices := 12 }

/-- The face of `createPyramid` that vertex `v` of `verts` belongs to
(three vertices per face). -/
def createPyramid_faceOfVertex (v : Nat) : Nat :=
  v / 3

/-- Source `createPyramidPentagon`, the array `verts` (lines 309-342), three numbers per
vertex, the vertices of a face together. -/
def createPyramidPentagon_verts : List ℚ :=
  [ 0.0, 0.0, 0.0,
    2.0, 0.0, 0.0,
    2.62, 1.9, 0.0,
    1.0, 3.08, 0.0,
    -0.62, 1.9, 0.0,
    0.0, 0.0, 0.0,
    2.0, 0.0, 0.0,
    1.0, 1.5, 2.0,
    2.0, 0.0, 0.0,
    2.62, 1.9, 0.0,
    1.0, 1.5, 2.0,
    0.0, 0.0, 0.0,
    -0.62, 1.9, 0.0,
    1.0, 1.5, 2.0,
    2.62, 1.9, 0.0,
    1.0, 3.08, 0.0,
    1.0, 1.5, 2.0,
    1.0, 3.08, 0.0,
    -0.62, 1.9, 0.0,
    1.0, 1.5, 2.0 ]

/-- Source `createPyramidPentagon`, the array `faceColors` (lines 351-360), one RGBA
colour per face in the order of the faces of `verts`. -/
def createPyramidPentagon_faceColors : List (List ℚ) :=
  [ [1.0, 0.0, 0.0, 1.0],
    [0.0, 1.0, 0.0, 1.0],
    [0.0, 0.0, 1.0, 1.0],
    [1.0, 1.0, 0.0, 1.0],
    [0.0, 1.0, 1.0, 1.0],
    [0.5, 1.0, 0.5, 1.0] ]

/-- Source `createPyramidPentagon`, the array `vertexColors` as the loop builds it
(lines 364-380: `faceColors[0]` is pushed five times (`i = 0 .. 4`), then every
face colour, `faceColors[0]` included, three times (`j = 1 .. 3`)). -/
def createPyramidPentagon_vertexColors : List ℚ :=
  ((List.range 5).flatMap fun _ => createPyramidPentagon_faceColors.getD 0 []) ++
    createPyramidPentagon_faceColors.flatMap fun color => (List.range' 1 3).flatMap fun _ => color

/-- Source `createPyramidPentagon`, the counts of the record: `vertSize:3, nVerts:20,
colorSize:4, nColors:20, nIndices:24`. -/
def createPyramidPentagon_counts : Counts :=
  { vertSize := 3, nVerts := 20, colorSize := 4, nColors := 20, nIndices := 24 }

/-- The face of `createPyramidPentagon` that vertex `v` of `verts` belongs to
(five vertices for the base, then three per side face). -/
def createPyramidPentagon_faceOfVertex (v : Nat) : Nat :=
  if v < 5 then 0 else (v - 5) / 3 + 1

/-- Source `createOctaedro`, the array `verts` (lines 441-482), three numbers per
vertex, the vertices of a face together. -/
def createOctaedro_verts : List ℚ :=
  [ 0.0, 1.0, 0.0,
    -1.0, 0.0, 1.0,
    1.0, 0.0, 1.0,
    0.0, 1.0, 0.0,
    1.0, 0.0, 1.0,
    1.0, 0.0, -1.0,
    0.0, 1.0, 0.0,
    -1.0, 0.0, 1.0,
    -1.0, 0.0, -1.0,
    0.0, 1.0, 0.0,
    -1.0, 0.0, -1.0,
    1.0, 0.0, -1.0,
    0.0, -1.0, 0.0,
    -1.0, 0.0, 1.0,
    1.0, 0.0, 1.0,
    0.0, -1.0, 0.0,
    1.0, 0.0, 1.0,
    1.0, 0.0, -1.0,
    0.0, -1.0, 0.0,
    -1.0, 0.0, 1.0,
    -1.0, 0.0, -1.0,
    0.0, -1.0, 0.0,
    -1.0, 0.0, -1.0,
    1.0, 0.0, -1.0 ]

/-- Source `createOctaedro`, the array `faceColors` (lines 491-502), one RGBA
colour per face in the order of the faces of `verts`. -/
def createOctaedro_faceColors : List (List ℚ) :=
  [ [1.0, 0.0, 0.0, 1.0],
    [0.0, 1.0, 0.0, 1.0],
    [0.0, 0.0, 1.0, 1.0],
    [1.0, 1.0, 0.0, 1.0],
    [0.5, 0.0, 1.0, 1.0],
    [0.0, 0.5, 1.0, 1.0],
    [0.0, 1.0, 0.5, 1.0],
    [0.5, 1.0, 0.0, 1.0] ]

/-- Source `createOctaedro`, the array `vertexColors` as the loop builds it
(lines 506-515: every face colour is pushed three times (`j = 0 .. 2`)). -/
def createOctaedro_vertexColors : List ℚ :=
  createOctaedro_faceColors.flatMap fun color => (List.range 3).flatMap fun _ => color

/-- Source `createOctaedro`, the counts of the record: `vertSize:3, nVerts:24,
colorSize:4, nColors:36, nIndices:24`. -/
def createOctaedro_counts : Counts :=
  { vertSize := 3, nVerts := 24, colorSize := 4, nColors := 36, nIndices := 24 }

/-- The face of `createOctaedro` that vertex `v` of `verts` belongs to
(three vertices per face). -/
def createOctaedro_faceOfVertex (v : Nat) : Nat :=
  v / 3

/-- Source `createDodecaedro`, the array `verts` (lines 619-716), three numbers per
vertex, the vertices of a face together. -/
def createDodecaedro_verts : List ℚ :=
  [ 0.0, 0.0, 0.0,
    2.0, 0.0, 0.0,
    2.62, 1.9, 0.0,
    1.0, 3.08, 0.0,
    -0.62, 1.9, 0.0,
    0.0, 0.0, 0.0,
    2.0, 0.0, 0.0,
    2.62, -0.85, 1.7,
    1.0, -1.38, 2.75,
    -0.62, -0.85, 1.7,
    2.0, 0.0, 0.0,
    2.62, 1.9, 0.0,
    3.62, 2.23, 1.7,
    3.62, 0.53, 2.75,
    2.62, -0.85, 1.7,
    -0.62, 1.9, 0.0,
    0.0, 0.0, 0.0,
    -0.62, -0.85, 1.7,
    -1.62, 0.53, 2.75,
    -1.62, 2.23, 1.7,
    1.0, 3.08, 0.0,
    2.62, 1.9, 0.0,
    3.62, 2.23, 1.7,
    2.62, 3.6, 2.75,
    1.0, 4.13, 1.7,
    -0.62, 1.9, 0.0,
    1.0, 3.08, 0.0,
    1.0, 4.13, 1.7,
    -0.62, 3.6, 2.75,
    -1.62, 2.23, 1.7,
    1.0, -1.38, 2.75,
    2.62, -0.85, 1.7,
    3.62, 0.53, 2.75,
    2.62, 0.85, 4.45,
    1.0, -0.32, 4.45,
    -1.62, 0.53, 2.75,
    -0.62, -0.85, 1.7,
    1.0, -1.38, 2.75,
    1.0, -0.32, 4.45,
    -0.62, 0.85, 4.45,
    2.62, 3.6, 2.75,
    3.62, 2.23, 1.7,
    3.62, 0.53, 2.75,
    2.62, 0.85, 4.45,
    2.0, 2.75, 4.45,
    -0.62, 3.6, 2.75,
    1.0, 4.13, 1.7,
    2.62, 3.6, 2.75,
    2.0, 2.75, 4.45,
    0, 2.75, 4.45,
    -1.62, 0.53, 2.75,
    -1.62, 2.23, 1.7,
    -0.62, 3.6, 2.75,
    0, 2.75, 4.45,
    -0.62, 0.85, 4.45,
    -0.62, 0.85, 4.45,
    1.0, -0.32, 4.45,
    2.62, 0.85, 4.45,
    2.0, 2.75, 4.45,
    0, 2.75, 4.45 ]

/-- Source `createDodecaedro`, the array `faceColors` (lines 724-741), one RGBA
colour per face in the order of the faces of `verts`. -/
def createDodecaedro_faceColors : List (List ℚ) :=
  [ [1.0, 0.0, 0.0, 1.0],
    [0.0, 1.0, 0.0, 1.0],
    [0.0, 0.0, 1.0, 1.0],
    [1.0, 1.0, 0.0, 1.0],
    [0.5, 0.0, 0.0, 1.0],
    [0.0, 0.5, 0.0, 1.0],
    [0.6, 0.2, 0.2, 1.0],
    [0.0, 0.5, 1.0, 1.0],
    [0.0, 0.75, 0.5, 1.0],
    [0.75, 0.5, 0.0, 1.0],
    [0.0, 1.0, 1.0, 1.0],
    [0.0, 1.0, 0.5, 1.0] ]

/-- Source `createDodecaedro`, the array `vertexColors` as the loop builds it
(lines 745-754: every face colour is pushed five times (`j = 0 .. 4`)). -/
def createDodecaedro_vertexColors : List ℚ :=
  createDodecaedro_faceColors.flatMap fun color => (List.range 5).flatMap fun _ => color

/-- Source `createDodecaedro`, the counts of the record: `vertSize:3, nVerts:60,
colorSize:4, nColors:60, nIndices:108`. -/
def createDodecaedro_counts : Counts :=
  { vertSize := 3, nVerts := 60, colorSize := 4, nColors := 60, nIndices := 108 }

/-- The face of `createDodecaedro` that vertex `v` of `verts` belongs to
(five vertices per face). -/
def createDodecaedro_faceOfVertex (v : Nat) : Nat :=
  v / 5

/-! ### Index tables of the shape builders -/

/-- The call `new Uint16Array(indices)`: every element is stored modulo
`2^16`. -/
def uint16Array (indices : List Nat) : List Nat :=
  indices.map fun i => i % 65536

/-- Source `createCube`, the array `cubeIndices` (lines 159-166), three indices
per triangle, one face per row. -/
def createCube_cubeIndices : List Nat :=
  [ 0, 1, 2,   0, 2, 3,
    4, 5, 6,   4, 6, 7,
    8, 9, 10,   8, 10, 11,
    12, 13, 14,   12, 14, 15,
    16, 17, 18,   16, 18, 19,
    20, 21, 22,   20, 22, 23 ]

/-- Source `createCube`: the element buffer `draw` reads,
`new Uint16Array(cubeIndices)`. -/
def createCube_indexBuffer : List Nat :=
  uint16Array createCube_cubeIndices

/-- Source `createPyramid`, the array `pyramidIndices` (lines 263-269), three indices
per triangle, one face per row. -/
def createPyramid_pyramidIndices : List Nat :=
  [ 0, 1, 2,
    3, 4, 5,
    6, 7, 8,
    9, 10, 11 ]

/-- Source `createPyramid`: the element buffer `draw` reads,
`new Uint16Array(pyramidIndices)`. -/
def createPyramid_indexBuffer : List Nat :=
  uint16Array createPyramid_pyramidIndices

/-- Source `createPyramidPentagon`, the array `phIndices` (lines 389-396), three indices
per triangle, one face per row. -/
def createPyramidPentagon_phIndices : List Nat :=
  [ 0, 4, 3,   0, 1, 3,   1, 2, 3,
    5, 6, 7,
    8, 9, 10,
    11, 12, 13,
    14, 15, 16,
    17, 18, 19 ]

/-- Source `createPyramidPentagon`: the element buffer `draw` reads,
`new Uint16Array(phIndices)`. -/
def createPyramidPentagon_indexBuffer : List Nat :=
  uint16Array createPyramidPentagon_phIndices

/-- Source `createOctaedro`, the array `octIndices` (lines 524-534), three indices
per triangle, one face per row. -/
def createOctaedro_octIndices : List Nat :=
  [ 0, 1, 2,
    3, 4, 5,
    6, 7, 8,
    9, 10, 11,
    12, 13, 14,
    15, 16, 17,
    18, 19, 20,
    21, 22, 23 ]

/-- Source `createOctaedro`: the element buffer `draw` reads,
`new Uint16Array(octIndices)`. -/
def createOctaedro_indexBuffer : List Nat :=
  uint16Array createOctaedro_octIndices

/-- Source `createDodecaedro`, the array `dodeIndices` (lines 764-813), three indices
per triangle, one face per row. -/
def createDodecaedro_dodeIndices : List Nat :=
  [ 0, 1, 3,   0, 4, 3,   1, 2, 3,
    5, 6, 8,   5, 8, 9,   6, 7, 8,
    10, 11, 13,   10, 13, 14,   11, 12, 13,
    15, 16, 18,   15, 18, 19,   16, 17, 18,
    20, 21, 23,   20, 24, 23,   21, 22, 23,
    25, 26, 28,   26, 27, 28,   25, 28, 29,
    30, 31, 34,   31, 32, 33,   31, 33, 34,
    35, 36, 39,   36, 37, 39,   37, 38, 39,
    40, 41, 44,   41, 42, 43,   41, 43, 44,
    45, 46, 49,   46, 47, 48,   46, 49, 48,
    50, 51, 54,   51, 52, 53,   51, 53, 54,
    55, 56, 59,   56, 57, 58,   56, 58, 59 ]

/-- Source `createDodecaedro`: the element buffer `draw` reads,
`new Uint16Array(dodeIndices)`. -/
def createDodecaedro_indexBuffer : List Nat :=
  uint16Array createDodecaedro_dodeIndices

/-- The vertex `draw` fetches for the index `i`: `vertSize = 3` numbers from
the vertex buffer and `colorSize = 4` numbers from the colour buffer, both
bound with stride and offset `0` (lines 915-919); `none` when element `i`
lies outside one of the two buffers. -/
def fetchVertex (verts vertexColors : List ℚ) (i : Nat) : Option (List ℚ × List ℚ) :=
  if 3 * i + 3 ≤ verts.length ∧ 4 * i + 4 ≤ vertexColors.length then
    some ((verts.drop (3 * i)).take 3, vertexColor vertexColors i)
  else none

/-- Source `draw` for one object (line 932):
`gl.drawElements(obj.primtype, obj.nIndices, gl.UNSIGNED_SHORT, 0)` reads the
first `nIndices` elements of the element buffer and fetches the vertex each
of them addresses; `none` marks a read outside a buffer. -/
def drawElements (verts vertexColors : List ℚ) (indexBuffer : List Nat) (nIndices : Nat) :
    List (Option (List ℚ × List ℚ)) :=
  (List.range nIndices).map fun k => indexBuffer[k]?.bind (fetchVertex verts vertexColors)

/-- The index table agrees with the vertex table: `nIndices` is the length
of the index array and a multiple of 3, `nVerts` is the number of vertex
triples of `verts`, every index is smaller than `nVerts`, and the three
indices of every triangle belong to one face. -/
abbrev IndexConsistent (verts : List ℚ) (indices : List Nat) (counts : Counts)
    (faceOfVertex : Nat → Nat) : Prop :=
  counts.nIndices = indices.length ∧
  counts.nIndices % 3 = 0 ∧
  3 * counts.nVerts = verts.length ∧
  (∀ i ∈ indices, i < counts.nVerts) ∧
  ∀ t, t < counts.nIndices / 3 →
    faceOfVertex (indices.getD (3 * t) 0) = faceOfVertex (indices.getD (3 * t + 1) 0) ∧
    faceOfVertex (indices.getD (3 * t + 1) 0) = faceOfVertex (indices.getD (3 * t + 2) 0)

/-- The numbers the bobbing statements of `octaedro.update` read and write,
as they are stored: `translation[1]` is an element of a plain array (a
double), `modelViewMatrix[13]` an element of the `Float32Array` that
`mat4.create()` returns, `flag` the closure variable. -/
structure Bobbing where
  translation1 : ℚ
  m13 : ℚ
  flag : Flag

/-- The numbers `createOctaedro` (lines 541-548) leaves stored when the
caller's `translation[1]` is the double `y`: `mat4.translate` on the identity
computes `0 * x + 1 * y + 0 * z + 0 = y` for element 13 and the
`Float32Array` keeps the float nearest to it; `flag` starts as `"bottom"`. -/
def createOctaedroBobbing (y : ℚ) : Bobbing :=
  { translation1 := y, m13 := fround y, flag := Flag.bottom }

/-- Lines 559-571 of `octaedro.update` on the stored numbers: `12`, `0.5` and
`0.25` are doubles, each sum is rounded to a double, and the store into
`modelViewMatrix` rounds that double to a float.  `octaedroUpdate` is the
same step on exact values; the two agree while the sums are representable. -/
def octaedroBobbing (b : Bobbing) : Bobbing :=
  let flag : Flag :=
    if b.translation1 = 12 then Flag.top
    else if b.translation1 = -12 then Flag.bottom
    else b.flag
  let translation1 : ℚ :=
    match flag with
    | Flag.bottom => toDouble (b.translation1 + 1 / 2)
    | Flag.top => toDouble (b.translation1 - 1 / 2)
  let m13 : ℚ :=
    match flag with
    | Flag.bottom => fround (toDouble (b.m13 + 1 / 4))
    | Flag.top => fround (toDouble (b.m13 - 1 / 4))
  { translation1 := translation1, m13 := m13, flag := flag }

end Cube3D

/-! ## Theorems -/

/-! ### Rounding to doubles and floats -/

theorem roundHalfEven_intCast (z : ℤ) : roundHalfEven (z : ℚ) = z := by
  simp [roundHalfEven]

theorem roundHalfEven_of_near (t : ℚ) (m : ℤ) (h : |t - m| < 1 / 2) :
    roundHalfEven t = m := by
  have h1 := (abs_lt.mp h).1
  have h2 := (abs_lt.mp h).2
  by_cases hge : (m : ℚ) ≤ t
  · have hf : ⌊t⌋ = m := Int.floor_eq_iff.mpr ⟨hge, by linarith⟩
    have hlt : t - (m : ℚ) < 1 / 2 := h2
    simp only [roundHalfEven, hf, hlt, if_true]
  · have hf : ⌊t⌋ = m - 1 :=
      Int.floor_eq_iff.mpr ⟨by push_cast; linarith, by push_cast; linarith⟩
    have hn1 : ¬ (t - ((m - 1 : ℤ) : ℚ) < 1 / 2) := by push_cast; linarith
    have hn2 : t - ((m - 1 : ℤ) : ℚ) > 1 / 2 := by push_cast; linarith
    simp only [roundHalfEven, hf, hn1, hn2, if_true, if_false]
    ring

theorem log_eq_of_binade (q : ℚ) (E : ℤ) (h1 : (2 : ℚ) ^ E ≤ |q|)
    (h2 : |q| < (2 : ℚ) ^ (E + 1)) : Int.log 2 |q| = E := by
  have hpos : (0 : ℚ) < |q| := lt_of_lt_of_le (by positivity) h1
  have ha : E ≤ Int.log 2 |q| :=
    (Int.zpow_le_iff_le_log (by norm_num) hpos).mp (by exact_mod_cast h1)
  have hb : Int.log 2 |q| < E + 1 :=
    (Int.lt_zpow_iff_log_lt (by norm_num) hpos).mp (by exact_mod_cast h2)
  omega

/-- A value in the binade of `2 ^ E` that lies within half a spacing of the
multiple `m` of the spacing rounds to that multiple. -/
theorem roundBinary_of_near (p : ℕ) (emin : ℤ) (q : ℚ) (E m : ℤ)
    (h1 : (2 : ℚ) ^ E ≤ |q|) (h2 : |q| < (2 : ℚ) ^ (E + 1))
    (hm : |q / (2 : ℚ) ^ (max E emin - ((p : ℤ) - 1)) - m| < 1 / 2) :
    roundBinary p emin q = m * (2 : ℚ) ^ (max E emin - ((p : ℤ) - 1)) := by
  simp only [roundBinary, log_eq_of_binade q E h1 h2, roundHalfEven_of_near _ m hm]

/-- A number `k * 2 ^ j` with fewer than `p` significant bits, `j` not below
the least exponent of the format, is representable: rounding returns it. -/
theorem roundBinary_exact (p : ℕ) (emin : ℤ) (k j : ℤ) (hk : |k| < 2 ^ p)
    (hj : emin - ((p : ℤ) - 1) ≤ j) :
    roundBinary p emin ((k : ℚ) * (2 : ℚ) ^ j) = (k : ℚ) * (2 : ℚ) ^ j := by
  by_cases hk0 : k = 0
  · subst hk0
    simp [roundBinary, roundHalfEven]
  have h2 : (0 : ℚ) < 2 := by norm_num
  have hqpos : (0 : ℚ) < |(k : ℚ) * (2 : ℚ) ^ j| := by
    rw [abs_pos]
    exact mul_ne_zero (by exact_mod_cast hk0) (zpow_ne_zero _ (by norm_num))
  have hE : Int.log 2 |(k : ℚ) * (2 : ℚ) ^ j| < (p : ℤ) + j := by
    apply (Int.lt_zpow_iff_log_lt (by norm_num) hqpos).mp
    rw [abs_mul, abs_of_pos (zpow_pos h2 j)]
    push_cast
    rw [zpow_add₀ (by norm_num : (2 : ℚ) ≠ 0)]
    apply mul_lt_mul_of_pos_right _ (zpow_pos h2 j)
    rw [zpow_natCast]
    have : ((|k| : ℤ) : ℚ) < ((2 ^ p : ℤ) : ℚ) := by exact_mod_cast hk
    simpa using this
  obtain ⟨n, hn⟩ : ∃ n : ℕ,
      j - (max (Int.log 2 |(k : ℚ) * (2 : ℚ) ^ j|) emin - ((p : ℤ) - 1)) = n := by
    apply Int.eq_ofNat_of_zero_le
    rcases max_cases (Int.log 2 |(k : ℚ) * (2 : ℚ) ^ j|) emin with ⟨h, _⟩ | ⟨h, _⟩ <;>
      rw [h] <;> omega
  have ht : (k : ℚ) * (2 : ℚ) ^ j /
      (2 : ℚ) ^ (max (Int.log 2 |(k : ℚ) * (2 : ℚ) ^ j|) emin - ((p : ℤ) - 1)) =
      ((k * 2 ^ n : ℤ) : ℚ) := by
    rw [mul_div_assoc, ← zpow_sub₀ (by norm_num : (2 : ℚ) ≠ 0), hn]
    push_cast
    rw [zpow_natCast]
  simp only [roundBinary]
  rw [ht, roundHalfEven_intCast, ← ht]
  field_simp

theorem roundHalfEven_of_tie (f : ℤ) :
    roundHalfEven ((f : ℚ) + 1 / 2) = if f % 2 = 0 then f else f + 1 := by
  have hf : ⌊(f : ℚ) + 1 / 2⌋ = f :=
    Int.floor_eq_iff.mpr ⟨by linarith, by linarith⟩
  have h1 : ¬ ((f : ℚ) + 1 / 2 - (f : ℚ) < 1 / 2) := by norm_num
  have h2 : ¬ ((f : ℚ) + 1 / 2 - (f : ℚ) > 1 / 2) := by norm_num
  simp only [roundHalfEven, hf, h1, h2, if_false]

/-- A value in the binade of `2 ^ E` that lies half way between the
multiples `f` and `f + 1` of the spacing rounds to the even one. -/
theorem roundBinary_of_tie (p : ℕ) (emin : ℤ) (q : ℚ) (E f : ℤ)
    (h1 : (2 : ℚ) ^ E ≤ |q|) (h2 : |q| < (2 : ℚ) ^ (E + 1))
    (hm : q / (2 : ℚ) ^ (max E emin - ((p : ℤ) - 1)) = (f : ℚ) + 1 / 2) :
    roundBinary p emin q =
      ((if f % 2 = 0 then f else f + 1 : ℤ) : ℚ) * (2 : ℚ) ^ (max E emin - ((p : ℤ) - 1)) := by
  simp only [roundBinary, log_eq_of_binade q E h1 h2, hm, roundHalfEven_of_tie]

namespace Game

/-! ### The score -/

/-- C1: `countPoints` recomputes the score from `clickedObjects` and
`objectList.length` alone, as `points = c - (n - c)` with `remaining = n - c`,
and changes neither `clickedObjects` nor `objectList`. -/
theorem countPoints_score (s : State) :
    (countPoints s).lostObjects = some ((s.objectList.length : Int) - s.clickedObjects) ∧
    (countPoints s).points =
      s.clickedObjects - ((s.objectList.length : Int) - s.clickedObjects) ∧
    (countPoints s).clickedObjects = s.clickedObjects ∧
    (countPoints s).objectList = s.objectList :=
  ⟨rfl, rfl, rfl, rfl⟩

/-! ### Library-level facts -/

theorem get?_length_pred {α : Type} (xs : List α) (h : xs.length > 0) :
    xs.get? (xs.length - 1) = some (xs.getLast (List.ne_nil_of_length_pos h)) := by
  rw [List.get?_eq_getElem?, ← List.getLast?_eq_getElem?, List.getLast?_eq_getLast]

theorem restoreEmissive_eq (s : State) (x : Option Ref) :
    restoreEmissive s x = { s with emissive := (restoreEmissive s x).emissive } := by
  cases x <;> rfl

@[simp]
theorem restoreEmissive_objectList (s : State) (x : Option Ref) :
    (restoreEmissive s x).objectList = s.objectList := by rw [restoreEmissive_eq]

@[simp]
theorem restoreEmissive_pending (s : State) (x : Option Ref) :
    (restoreEmissive s x).pending = s.pending := by rw [restoreEmissive_eq]

@[simp]
theorem restoreEmissive_clickedObjects (s : State) (x : Option Ref) :
    (restoreEmissive s x).clickedObjects = s.clickedObjects := by rw [restoreEmissive_eq]

@[simp]
theorem restoreEmissive_continueGame (s : State) (x : Option Ref) :
    (restoreEmissive s x).continueGame = s.continueGame := by rw [restoreEmissive_eq]

@[simp]
theorem restoreEmissive_material (s : State) (x : Option Ref) :
    (restoreEmissive s x).material = s.material := by rw [restoreEmissive_eq]

@[simp]
theorem restoreEmissive_currentHex (s : State) (x : Option Ref) :
    (restoreEmissive s x).currentHex = s.currentHex := by rw [restoreEmissive_eq]

@[simp]
theorem restoreEmissive_sceneChildren (s : State) (x : Option Ref) :
    (restoreEmissive s x).sceneChildren = s.sceneChildren := by rw [restoreEmissive_eq]

@[simp]
theorem restoreEmissive_parent (s : State) (x : Option Ref) :
    (restoreEmissive s x).parent = s.parent := by rw [restoreEmissive_eq]

@[simp]
theorem restoreEmissive_posX (s : State) (x : Option Ref) :
    (restoreEmissive s x).posX = s.posX := by rw [restoreEmissive_eq]

@[simp]
theorem sceneRemove_objectList (s : State) (o : Option Ref) :
    (sceneRemove s o).objectList = s.objectList := by
  unfold sceneRemove; split
  · rfl
  · split <;> rfl

@[simp]
theorem sceneRemove_pending (s : State) (o : Option Ref) :
    (sceneRemove s o).pending = s.pending := by
  unfold sceneRemove; split
  · rfl
  · split <;> rfl

@[simp]
theorem sceneRemove_clickedObjects (s : State) (o : Option Ref) :
    (sceneRemove s o).clickedObjects = s.clickedObjects := by
  unfold sceneRemove; split
  · rfl
  · split <;> rfl

@[simp]
theorem sceneRemove_continueGame (s : State) (o : Option Ref) :
    (sceneRemove s o).continueGame = s.continueGame := by
  unfold sceneRemove; split
  · rfl
  · split <;> rfl

@[simp]
theorem sceneRemove_posX (s : State) (o : Option Ref) :
    (sceneRemove s o).posX = s.posX := by
  unfold sceneRemove; split
  · rfl
  · split <;> rfl

@[simp]
theorem sceneRemove_posY (s : State) (o : Option Ref) :
    (sceneRemove s o).posY = s.posY := by
  unfold sceneRemove; split
  · rfl
  · split <;> rfl

/-! ### The bookkeeping of each handler: `objectList`, `pending`,
`clickedObjects`, `continueGame` -/

theorem mouseDown_hit_clickedObjects (s : State) (xs : List Ref) (h : xs.length > 0) :
    (onDocumentMouseDown s xs).clickedObjects = s.clickedObjects + 1 := by
  simp only [onDocumentMouseDown, h, if_true, get?_length_pred xs h]
  split <;> simp [loadObj]

theorem mouseDown_objectList (s : State) (xs : List Ref) :
    (onDocumentMouseDown s xs).objectList = s.objectList := by
  unfold onDocumentMouseDown
  by_cases h : xs.length > 0
  · simp only [h, if_true, get?_length_pred xs h]
    split <;> simp [loadObj]
  · simp [h]

theorem mouseDown_continueGame (s : State) (xs : List Ref) :
    (onDocumentMouseDown s xs).continueGame = s.continueGame := by
  unfold onDocumentMouseDown
  by_cases h : xs.length > 0
  · simp only [h, if_true, get?_length_pred xs h]
    split <;> simp [loadObj]
  · simp [h]

theorem mouseDown_hit_pending (s : State) (xs : List Ref) (h : xs.length > 0) :
    (onDocumentMouseDown s xs).pending =
      if s.continueGame then s.pending ++ [s.objectList.length] else s.pending := by
  simp only [onDocumentMouseDown, h, if_true, get?_length_pred xs h, sceneRemove_continueGame]
  split <;> simp [loadObj]

theorem mouseDown_miss (s : State) (xs : List Ref) (h : ¬ xs.length > 0) :
    (onDocumentMouseDown s xs).pending = s.pending ∧
    (onDocumentMouseDown s xs).clickedObjects = s.clickedObjects := by
  simp [onDocumentMouseDown, h]


theorem sceneAdd_fields (s : State) (o : Ref) :
    (sceneAdd s o).objectList = s.objectList ∧ (sceneAdd s o).pending = s.pending ∧
    (sceneAdd s o).clickedObjects = s.clickedObjects ∧
    (sceneAdd s o).continueGame = s.continueGame := by
  unfold sceneAdd
  split <;> simp

theorem loadObjResolve_fields (s : State) (k : Nat) (shape : List Nat) (neg : Bool) (y : ℚ) :
    (loadObjResolve s k shape neg y).objectList.length +
        (loadObjResolve s k shape neg y).pending.length =
      s.objectList.length + s.pending.length ∧
    (loadObjResolve s k shape neg y).clickedObjects = s.clickedObjects ∧
    (loadObjResolve s k shape neg y).continueGame = s.continueGame := by
  unfold loadObjResolve
  cases hk : s.pending.get? k with
  | none => simp
  | some index =>
    have hlt : k < s.pending.length := by
      by_contra hge
      rw [List.get?_eq_none.mpr (by omega)] at hk
      exact Option.noConfusion hk
    simp only [(sceneAdd_fields _ _).1, (sceneAdd_fields _ _).2.1, (sceneAdd_fields _ _).2.2.1,
      (sceneAdd_fields _ _).2.2.2, List.length_append, List.length_singleton,
      List.length_eraseIdx, hlt, if_true]
    exact ⟨by omega, trivial, trivial⟩

theorem mouseMove_fields (s : State) (xs : List Ref) :
    (onDocumentMouseMove s xs).objectList = s.objectList ∧
    (onDocumentMouseMove s xs).pending = s.pending ∧
    (onDocumentMouseMove s xs).clickedObjects = s.clickedObjects ∧
    (onDocumentMouseMove s xs).continueGame = s.continueGame := by
  unfold onDocumentMouseMove
  by_cases h : xs.length > 0
  · simp only [h, if_true, get?_length_pred xs h]
    split
    · simp [highlight, setHex]
    · exact ⟨rfl, rfl, rfl, rfl⟩
  · simp [h]

theorem updateObjectX_fields (s : State) (o : Ref) :
    (updateObjectX s o).objectList = s.objectList ∧
    (updateObjectX s o).pending = s.pending ∧
    (updateObjectX s o).clickedObjects = s.clickedObjects ∧
    (updateObjectX s o).continueGame = s.continueGame := by
  unfold updateObjectX
  split_ifs <;> simp

theorem updateObjectY_fields (s : State) (o : Ref) :
    (updateObjectY s o).objectList = s.objectList ∧
    (updateObjectY s o).pending = s.pending ∧
    (updateObjectY s o).clickedObjects = s.clickedObjects ∧
    (updateObjectY s o).continueGame = s.continueGame := by
  unfold updateObjectY
  split_ifs <;> exact ⟨rfl, rfl, rfl, rfl⟩

theorem updateObject_fields (s : State) (o : Ref) :
    (updateObject s o).objectList = s.objectList ∧
    (updateObject s o).pending = s.pending ∧
    (updateObject s o).clickedObjects = s.clickedObjects ∧
    (updateObject s o).continueGame = s.continueGame := by
  obtain ⟨h1, h2, h3, h4⟩ := updateObjectY_fields (updateObjectX s o) o
  obtain ⟨g1, g2, g3, g4⟩ := updateObjectX_fields s o
  exact ⟨h1.trans g1, h2.trans g2, h3.trans g3, h4.trans g4⟩

theorem foldl_updateObject_fields (os : List Ref) (s : State) :
    (os.foldl updateObject s).objectList = s.objectList ∧
    (os.foldl updateObject s).pending = s.pending ∧
    (os.foldl updateObject s).clickedObjects = s.clickedObjects ∧
    (os.foldl updateObject s).continueGame = s.continueGame := by
  induction os generalizing s with
  | nil => exact ⟨rfl, rfl, rfl, rfl⟩
  | cons o os ih =>
    obtain ⟨h1, h2, h3, h4⟩ := ih (updateObject s o)
    obtain ⟨g1, g2, g3, g4⟩ := updateObject_fields s o
    exact ⟨h1.trans g1, h2.trans g2, h3.trans g3, h4.trans g4⟩

theorem step_running (s : State) (e : Event) (n : Nat) (he : e.playing = true)
    (h : Running s n) : Running (step s e) (n + hitCount [e]) := by
  obtain ⟨hc, hk, hl⟩ := h
  cases e with
  | loaded k shape neg y =>
    obtain ⟨g1, g2, g3⟩ := loadObjResolve_fields s k shape neg y
    exact ⟨g3.trans hc, by simpa [hitCount, step] using g2.trans hk,
      by simpa [hitCount, step] using g1.trans hl⟩
  | loadFailed k => simp [Event.playing] at he
  | stop => simp [Event.playing] at he
  | mouseMove xs =>
    obtain ⟨g1, g2, g3, g4⟩ := mouseMove_fields s xs
    refine ⟨g4.trans hc, by simpa [hitCount, step] using g3.trans hk, ?_⟩
    simp only [step, g1, g2, hitCount]; omega
  | frame =>
    obtain ⟨g1, g2, g3, g4⟩ := foldl_updateObject_fields s.objectList s
    refine ⟨g4.trans hc, by simpa [hitCount, step, update] using g3.trans hk, ?_⟩
    simp only [step, update, g1, g2, hitCount]; omega
  | score =>
    refine ⟨hc, by simpa [hitCount, step, countPoints] using hk, ?_⟩
    simp only [step, countPoints, hitCount]; omega
  | mouseDown xs =>
    by_cases hx : xs.length > 0
    · refine ⟨(mouseDown_continueGame s xs).trans hc, ?_, ?_⟩
      · simp only [step, mouseDown_hit_clickedObjects s xs hx, hk, hitCount, hx, if_true]
        push_cast; ring
      · simp only [step, mouseDown_objectList, mouseDown_hit_pending s xs hx, hc, if_true,
          List.length_append, List.length_singleton, hitCount, hx]
        omega
    · obtain ⟨g1, g2⟩ := mouseDown_miss s xs hx
      refine ⟨(mouseDown_continueGame s xs).trans hc, ?_, ?_⟩
      · simp only [step, g2, hk, hitCount, hx, if_false]; simp
      · simp only [step, mouseDown_objectList, g1, hitCount, hx, if_false]; omega

theorem hitCount_cons (e : Event) (es : List Event) :
    hitCount (e :: es) = hitCount [e] + hitCount es := by
  cases e <;> simp [hitCount]

theorem run_running (es : List Event) (s : State) (n : Nat)
    (hes : ∀ e ∈ es, e.playing = true) (h : Running s n) :
    Running (run s es) (n + hitCount es) := by
  induction es generalizing s n with
  | nil => simpa [run, hitCount] using h
  | cons e es ih =>
    have h1 := step_running s e n (hes e (List.mem_cons_self _ _)) h
    have h2 := ih (step s e) (n + hitCount [e])
      (fun e' he' => hes e' (List.mem_cons_of_mem _ he')) h1
    rw [hitCount_cons, ← Nat.add_assoc]
    exact h2

theorem createScene_running (material : Ref → Ref) (emissive : Ref → Nat) :
    Running (createScene material emissive) 0 :=
  ⟨rfl, rfl, by simp [createScene]⟩


/-- C2, as stated, fails: ten initial loads have completed, then four
pointer-downs each hit a live object while the game runs, three of the
replacement loads completing in between; right after the fourth press
`objectList.length` is 13 and `countPoints` computes `4 - (13 - 4) = -5`,
not `-2`. -/
theorem fourClicks_score_counterexample :
    (run (createScene id (fun _ => 0)) (fourClicksTrace.take 10)).objectList.length = 10 ∧
    (run (createScene id (fun _ => 0)) (fourClicksTrace.take 10)).pending = [] ∧
    hitCount (fourClicksTrace.drop 10) = 4 ∧
    (run (createScene id (fun _ => 0)) fourClicksTrace).continueGame = true ∧
    (run (createScene id (fun _ => 0)) fourClicksTrace).clickedObjects = 4 ∧
    (run (createScene id (fun _ => 0)) fourClicksTrace).objectList.length = 13 ∧
    (countPoints (run (createScene id (fun _ => 0)) fourClicksTrace)).points = -5 ∧
    (countPoints (run (createScene id (fun _ => 0)) fourClicksTrace)).points ≠ -2 := by
  decide

theorem step_runningAtMost (s : State) (e : Event) (n : Nat) (he : e.running = true)
    (h : RunningAtMost s n) : RunningAtMost (step s e) (n + hitCount [e]) := by
  obtain ⟨hc, hk, hl⟩ := h
  cases e with
  | loaded k shape neg y =>
    obtain ⟨g1, g2, g3⟩ := loadObjResolve_fields s k shape neg y
    refine ⟨g3.trans hc, by simpa [hitCount, step] using g2.trans hk, ?_⟩
    simp only [step, hitCount]; omega
  | loadFailed k =>
    refine ⟨hc, by simpa [hitCount, step, loadObjReject] using hk, ?_⟩
    simp only [step, loadObjReject, hitCount, List.length_eraseIdx]
    split <;> omega
  | stop => simp [Event.running] at he
  | mouseMove xs =>
    obtain ⟨g1, g2, g3, g4⟩ := mouseMove_fields s xs
    refine ⟨g4.trans hc, by simpa [hitCount, step] using g3.trans hk, ?_⟩
    simp only [step, g1, g2, hitCount]; omega
  | frame =>
    obtain ⟨g1, g2, g3, g4⟩ := foldl_updateObject_fields s.objectList s
    refine ⟨g4.trans hc, by simpa [hitCount, step, update] using g3.trans hk, ?_⟩
    simp only [step, update, g1, g2, hitCount]; omega
  | score =>
    refine ⟨hc, by simpa [hitCount, step, countPoints] using hk, ?_⟩
    simp only [step, countPoints, hitCount]; omega
  | mouseDown xs =>
    by_cases hx : xs.length > 0
    · refine ⟨(mouseDown_continueGame s xs).trans hc, ?_, ?_⟩
      · simp only [step, mouseDown_hit_clickedObjects s xs hx, hk, hitCount, hx, if_true]
        push_cast; ring
      · simp only [step, mouseDown_objectList, mouseDown_hit_pending s xs hx, hc, if_true,
          List.length_append, List.length_singleton, hitCount, hx]
        omega
    · obtain ⟨g1, g2⟩ := mouseDown_miss s xs hx
      refine ⟨(mouseDown_continueGame s xs).trans hc, ?_, ?_⟩
      · simp only [step, g2, hk, hitCount, hx, if_false]; simp
      · simp only [step, mouseDown_objectList, g1, hitCount, hx, if_false]; omega

theorem run_runningAtMost (es : List Event) (s : State) (n : Nat)
    (hes : ∀ e ∈ es, e.running = true) (h : RunningAtMost s n) :
    RunningAtMost (run s es) (n + hitCount es) := by
  induction es generalizing s n with
  | nil => simpa [run, hitCount] using h
  | cons e es ih =>
    have h1 := step_runningAtMost s e n (hes e (List.mem_cons_self _ _)) h
    have h2 := ih (step s e) (n + hitCount [e])
      (fun e' he' => hes e' (List.mem_cons_of_mem _ he')) h1
    rw [hitCount_cons, ← Nat.add_assoc]
    exact h2

theorem createScene_runningAtMost (material : Ref → Ref) (emissive : Ref → Nat) :
    RunningAtMost (createScene material emissive) 0 :=
  ⟨rfl, rfl, by simp [createScene]⟩

/-- C2 amended: in every state reached from `createScene` by a running game
(`stopGame` has not been called; loads may have completed or been rejected)
in which at least ten objects are registered and four pointer-downs have
hit, `countPoints` computes `4 - (n - 4)` for the registry size
`n = objectList.length`; `n` is at most 14 minus the number of loads still in
flight, and exactly that when no load was rejected; the score lies between
`-6` and `-2` and is `-2` exactly when `n = 10`. -/
theorem fourClicks_score (material : Ref → Ref) (emissive : Ref → Nat) (es : List Event)
    (hrun : ∀ e ∈ es, e.running = true) (hhits : hitCount es = 4)
    (hten : 10 ≤ (run (createScene material emissive) es).objectList.length) :
    (run (createScene material emissive) es).continueGame = true ∧
    (run (createScene material emissive) es).clickedObjects = 4 ∧
    (run (createScene material emissive) es).objectList.length +
      (run (createScene material emissive) es).pending.length ≤ 14 ∧
    ((∀ e ∈ es, e.playing = true) →
      (run (createScene material emissive) es).objectList.length +
        (run (createScene material emissive) es).pending.length = 14) ∧
    (countPoints (run (createScene material emissive) es)).points =
      4 - (((run (createScene material emissive) es).objectList.length : Int) - 4) ∧
    -6 ≤ (countPoints (run (createScene material emissive) es)).points ∧
    (countPoints (run (createScene material emissive) es)).points ≤ -2 ∧
    ((countPoints (run (createScene material emissive) es)).points = -2 ↔
      (run (createScene material emissive) es).objectList.length = 10) := by
  have h := run_runningAtMost es (createScene material emissive) 0 hrun
    (createScene_runningAtMost material emissive)
  rw [hhits] at h
  obtain ⟨hc, hk, hl⟩ := h
  have hk4 : (run (createScene material emissive) es).clickedObjects = 4 := by
    rw [hk]; rfl
  have hp : (countPoints (run (createScene material emissive) es)).points =
      4 - (((run (createScene material emissive) es).objectList.length : Int) - 4) := by
    simp only [countPoints, hk4]
  refine ⟨hc, hk4, by omega, ?_, hp, ?_, ?_, ?_⟩
  · intro hplay
    have h2 := run_running es (createScene material emissive) 0 hplay
      (createScene_running material emissive)
    rw [hhits] at h2
    exact h2.2.2
  · rw [hp]; omega
  · rw [hp]; omega
  · rw [hp]; omega

/-- C2 amended, at a trace with a rejected load: ten objects are registered,
four pointer-downs have hit, three loads are in flight, and the score is
`4 - (10 - 4) = -2`. -/
theorem fourClicks_score_witness :
    (run (createScene id (fun _ => 0)) rejectedLoadTrace).objectList.length = 10 ∧
    (run (createScene id (fun _ => 0)) rejectedLoadTrace).pending.length = 3 ∧
    (countPoints (run (createScene id (fun _ => 0)) rejectedLoadTrace)).points = -2 :=
  ⟨by decide, by decide,
    (fourClicks_score id (fun _ => 0) rejectedLoadTrace (by decide) (by decide)
      (by decide)).2.2.2.2.2.2.2.mpr (by decide)⟩

/-- C7: a pointer-down whose intersection list is non-empty increases
`clickedObjects` by exactly 1, requests a replacement spawn (`loadObj` with
`index = objectList.length`) if and only if `continueGame` is true, and does
not itself change `objectList`. -/
theorem mouseDown_hit_effect (s : State) (intersects : List Ref)
    (h : intersects.length > 0) :
    (onDocumentMouseDown s intersects).clickedObjects = s.clickedObjects + 1 ∧
    (s.continueGame = true →
      (onDocumentMouseDown s intersects).pending = s.pending ++ [s.objectList.length]) ∧
    (s.continueGame = false → (onDocumentMouseDown s intersects).pending = s.pending) ∧
    ((onDocumentMouseDown s intersects).pending ≠ s.pending ↔ s.continueGame = true) ∧
    (onDocumentMouseDown s intersects).objectList = s.objectList := by
  have hp := mouseDown_hit_pending s intersects h
  refine ⟨mouseDown_hit_clickedObjects s intersects h, ?_, ?_, ?_,
    mouseDown_objectList s intersects⟩
  · intro hc; rw [hp, hc]; rfl
  · intro hc; rw [hp, hc]; rfl
  · rw [hp]
    cases hc : s.continueGame <;> simp

/-- C7 at a concrete state: the first hit after `createScene` (the floor,
while the ten loads are still in flight). -/
theorem mouseDown_hit_effect_witness :
    (onDocumentMouseDown (createScene id (fun _ => 0)) [floorRef]).clickedObjects = 1 ∧
    (onDocumentMouseDown (createScene id (fun _ => 0)) [floorRef]).pending =
      List.range 10 ++ [0] :=
  ⟨(mouseDown_hit_effect (createScene id (fun _ => 0)) [floorRef] (by decide)).1,
   (mouseDown_hit_effect (createScene id (fun _ => 0)) [floorRef] (by decide)).2.1 rfl⟩

/-! ### Hover state machine -/

theorem restore_hover (s0 s : State) (h : HoverInv s0 s) :
    (restoreEmissive s s.INTERSECTED).emissive = s0.emissive := by
  obtain ⟨_, hother, hhov⟩ := h
  cases hi : s.INTERSECTED with
  | none =>
    funext m
    exact hother m (fun o ho => by rw [hi] at ho; exact Option.noConfusion ho)
  | some i =>
    funext m
    by_cases hm : m = s.material i
    · subst hm
      simp [restoreEmissive, setHex, (hhov i hi).2]
    · simp only [restoreEmissive, setHex, Function.update_noteq hm]
      refine hother m (fun o ho => ?_)
      rw [hi] at ho
      cases ho
      exact fun heq => hm heq.symm

theorem mouseMove_hoverInv (s0 s : State) (xs : List Ref) (h : HoverInv s0 s) :
    HoverInv s0 (onDocumentMouseMove s xs) := by
  have he := restore_hover s0 s h
  unfold onDocumentMouseMove
  by_cases hx : xs.length > 0
  · simp only [hx, if_true, get?_length_pred xs hx]
    by_cases ht : s.INTERSECTED = some (xs.getLast (List.ne_nil_of_length_pos hx))
    · simpa [ht] using h
    · simp only [ne_eq, ht, not_false_eq_true, if_true]
      refine ⟨?_, ?_, ?_⟩
      · simp only [highlight, setHex, restoreEmissive_material]; exact h.1
      · intro m hm
        have hne : s.material (xs.getLast (List.ne_nil_of_length_pos hx)) ≠ m := by
          have := hm (xs.getLast (List.ne_nil_of_length_pos hx)) rfl
          simpa [highlight, setHex] using this
        simp only [highlight, setHex, restoreEmissive_material,
          Function.update_noteq (Ne.symm hne), he]
      · intro o ho
        have ho' : xs.getLast (List.ne_nil_of_length_pos hx) = o := by
          simpa [highlight, setHex] using ho
        subst ho'
        simp [highlight, setHex, he]
  · simp only [hx, if_false]
    refine ⟨by simpa using h.1, ?_, ?_⟩
    · intro m _
      simp only [he]
    · intro o ho
      exact Option.noConfusion ho

theorem foldl_mouseMove_hoverInv (moves : List (List Ref)) (s0 s : State)
    (h : HoverInv s0 s) : HoverInv s0 (moves.foldl onDocumentMouseMove s) := by
  induction moves generalizing s with
  | nil => exact h
  | cons xs moves ih => exact ih _ (mouseMove_hoverInv s0 s xs h)

/-- C6: starting with no hovered object, after any finite sequence of
pointer-move events over objects that own their material, every object
other than the hovered one shows its baseline emissive, and the hovered
object (if any) has emissive `0xff0000` with `currentHex` equal to its own
baseline. -/
theorem hover_invariant (s0 : State) (moves : List (List Ref))
    (hown : Function.Injective s0.material) (hstart : s0.INTERSECTED = none) :
    (∀ o, (moves.foldl onDocumentMouseMove s0).INTERSECTED ≠ some o →
      (moves.foldl onDocumentMouseMove s0).emissive
        ((moves.foldl onDocumentMouseMove s0).material o) = s0.emissive (s0.material o)) ∧
    (∀ o, (moves.foldl onDocumentMouseMove s0).INTERSECTED = some o →
      (moves.foldl onDocumentMouseMove s0).emissive
        ((moves.foldl onDocumentMouseMove s0).material o) = 0xff0000 ∧
      (moves.foldl onDocumentMouseMove s0).currentHex o =
        some (s0.emissive (s0.material o))) := by
  have h0 : HoverInv s0 s0 :=
    ⟨rfl, fun _ _ => rfl, fun o ho => by rw [hstart] at ho; exact Option.noConfusion ho⟩
  obtain ⟨hm, hother, hhov⟩ := foldl_mouseMove_hoverInv moves s0 s0 h0
  refine ⟨fun o ho => ?_, fun o ho => ?_⟩
  · rw [hm]
    refine hother _ (fun o' ho' heq => ?_)
    rw [hm] at heq
    have := hown heq
    subst this
    exact ho ho'
  · have := hhov o ho
    rw [hm] at this
    rw [hm]
    exact this

/-- C6 on a concrete run: hover the floor, move to object 4, then off
everything; the floor is back at its baseline `0x111111`. -/
theorem hover_invariant_witness :
    ([[floorRef], [floorRef, 4], []].foldl onDocumentMouseMove
        (createScene id (fun _ => 0x111111))).emissive floorRef = 0x111111 :=
  (hover_invariant (createScene id (fun _ => 0x111111)) [[floorRef], [floorRef, 4], []]
    (fun _ _ h => h) rfl).1 floorRef (by decide)

/-! ### Pointer-down and the scene graph -/

theorem get?_of_getLast? {α : Type} (xs : List α) (c : α) (hc : xs.getLast? = some c) :
    xs.length > 0 ∧ xs.get? (xs.length - 1) = some c := by
  have hne : xs ≠ [] := by
    intro h; rw [h] at hc; exact Option.noConfusion hc
  refine ⟨List.length_pos.mpr hne, ?_⟩
  rw [List.get?_eq_getElem?, ← List.getLast?_eq_getElem?, hc]

theorem mouseDown_hit_scene (s : State) (xs : List Ref) (c : Ref)
    (hc : xs.getLast? = some c) :
    (onDocumentMouseDown s xs).sceneChildren = (sceneRemove s (s.parent c)).sceneChildren ∧
    (onDocumentMouseDown s xs).parent = (sceneRemove s (s.parent c)).parent := by
  obtain ⟨hx, hget⟩ := get?_of_getLast? xs c hc
  simp only [onDocumentMouseDown, hx, if_true, hget]
  have key : ∀ o : Option Ref,
      (sceneRemove { s with CLICKED := some c } o).sceneChildren =
        (sceneRemove s o).sceneChildren ∧
      (sceneRemove { s with CLICKED := some c } o).parent = (sceneRemove s o).parent := by
    intro o
    unfold sceneRemove
    cases o with
    | none => exact ⟨rfl, rfl⟩
    | some g => by_cases hg : g ∈ s.sceneChildren <;> simp [hg]
  split <;> simpa [loadObj] using key (s.parent c)

theorem topmostOwner_detached (s s' : State) (g : Ref)
    (hp : s'.parent = Function.update s.parent g none) (fuel : Nat) (r : Ref)
    (h : topmostOwner s fuel r = some g) : topmostOwner s' fuel r = none := by
  induction fuel generalizing r with
  | zero => rfl
  | succ fuel ih =>
    by_cases hr : r = g
    · subst hr
      simp [topmostOwner, hp]
    · have hpr : s'.parent r = s.parent r := by rw [hp, Function.update_noteq hr]
      simp only [topmostOwner, hpr]
      simp only [topmostOwner] at h
      cases hq : s.parent r with
      | none => rfl
      | some p =>
        rw [hq] at h
        by_cases hs : p = sceneRef
        · simp only [if_pos hs] at h
          exact absurd (Option.some.inj h) hr
        · simp only [if_neg hs] at h
          simp only [if_neg hs]
          exact ih p h

/-- C8, as stated, fails for a leaf below a nested group: the scene holds
the group 3, whose sub-group 4 holds the mesh 5; a pointer-down that picks
mesh 5 calls `scene.remove` on the sub-group, which is no child of the
scene, so group 3 stays in `scene.children` and mesh 5 stays reachable. -/
theorem mouseDown_nested_counterexample :
    3 ∈ nestedScene.sceneChildren ∧
    nestedScene.parent 3 = some sceneRef ∧ nestedScene.parent 4 = some 3 ∧
    nestedScene.parent 5 = some 4 ∧
    topmostOwner nestedScene 3 5 = some 3 ∧
    3 ∈ (onDocumentMouseDown nestedScene [5]).sceneChildren ∧
    (onDocumentMouseDown nestedScene [5]).sceneChildren = nestedScene.sceneChildren ∧
    inScene (onDocumentMouseDown nestedScene [5]) 3 5 = true := by
  decide

/-- C8 amended: a pointer-down whose chosen intersection `c` is a direct
child of a group `g` of `scene.children` (`c.parent = g`) removes `g` from
`scene.children` and clears `g.parent`, after which no part whose topmost
owning group was `g` is reachable from the scene; when `c.parent` is not a
child of the scene (a leaf nested deeper, or a direct child of the scene),
`scene.children` is left unchanged. -/
theorem mouseDown_removes_parent_group (s : State) (intersects : List Ref) (c : Ref)
    (hc : intersects.getLast? = some c) :
    (∀ g, s.parent c = some g → g ∈ s.sceneChildren →
      (onDocumentMouseDown s intersects).sceneChildren = s.sceneChildren.erase g ∧
      (onDocumentMouseDown s intersects).parent g = none ∧
      (s.sceneChildren.Nodup → g ∉ (onDocumentMouseDown s intersects).sceneChildren) ∧
      (∀ fuel r, topmostOwner s fuel r = some g →
        inScene (onDocumentMouseDown s intersects) fuel r = false)) ∧
    ((∀ g, s.parent c = some g → g ∉ s.sceneChildren) →
      (onDocumentMouseDown s intersects).sceneChildren = s.sceneChildren) := by
  obtain ⟨h1, h2⟩ := mouseDown_hit_scene s intersects c hc
  refine ⟨fun g hg hmem => ?_, fun hnot => ?_⟩
  · have e1 : (onDocumentMouseDown s intersects).sceneChildren = s.sceneChildren.erase g := by
      rw [h1, hg]; simp [sceneRemove, hmem]
    have e2 : (onDocumentMouseDown s intersects).parent = Function.update s.parent g none := by
      rw [h2, hg]; simp [sceneRemove, hmem]
    refine ⟨e1, by rw [e2]; simp, ?_, ?_⟩
    · intro hnd
      rw [e1]
      exact fun hin => (List.Nodup.mem_erase_iff hnd).mp hin |>.1 rfl
    · intro fuel r hr
      simp only [inScene, topmostOwner_detached s _ g e2 fuel r hr]
  · rw [h1]
    cases hp : s.parent c with
    | none => rfl
    | some g => simp [sceneRemove, hnot g hp]

/-- C8 amended, on a loaded group with two meshes directly below it:
picking mesh 5 removes group 3, and mesh 4 is no longer reachable. -/
theorem mouseDown_removes_parent_group_witness :
    (onDocumentMouseDown flatScene [5]).sceneChildren = [lightRef, floorRef] ∧
    inScene (onDocumentMouseDown flatScene [5]) 3 4 = false :=
  ⟨((mouseDown_removes_parent_group flatScene [5] 5 rfl).1 3 (by decide) (by decide)).1,
   ((mouseDown_removes_parent_group flatScene [5] 5 rfl).1 3 (by decide) (by decide)).2.2.2
      3 4 (by decide)⟩

/-! ### `update` and objects that left the scene -/

theorem updateObject_pos_other (s : State) (a o : Ref) (h : a ≠ o) :
    (updateObject s a).posX o = s.posX o ∧ (updateObject s a).posY o = s.posY o := by
  have hx : (updateObjectX s a).posX o = s.posX o ∧ (updateObjectX s a).posY o = s.posY o := by
    unfold updateObjectX
    split_ifs <;> simp [Function.update_noteq (Ne.symm h)]
  have hy : ∀ t : State, (updateObjectY t a).posX o = t.posX o ∧
      (updateObjectY t a).posY o = t.posY o := by
    intro t
    unfold updateObjectY
    split_ifs <;> simp [Function.update_noteq (Ne.symm h)]
  exact ⟨(hy _).1.trans hx.1, (hy _).2.trans hx.2⟩

theorem updateObject_pos_self (s : State) (o : Ref) :
    (updateObject s o).posX o = towardZero (s.posX o) ∧
    (updateObject s o).posY o = towardZeroY (s.posY o) := by
  have hx : (updateObjectX s o).posX o = towardZero (s.posX o) ∧
      (updateObjectX s o).posY o = s.posY o := by
    unfold updateObjectX towardZero
    split_ifs <;> simp
  have hy : ∀ t : State, (updateObjectY t o).posX o = t.posX o ∧
      (updateObjectY t o).posY o = towardZeroY (t.posY o) := by
    intro t
    unfold updateObjectY towardZeroY
    split_ifs <;> simp
  refine ⟨(hy _).1.trans hx.1, ?_⟩
  rw [updateObject, (hy _).2, hx.2]

theorem foldl_updateObject_pos_other (os : List Ref) (s : State) (o : Ref) (h : o ∉ os) :
    (os.foldl updateObject s).posX o = s.posX o ∧
    (os.foldl updateObject s).posY o = s.posY o := by
  induction os generalizing s with
  | nil => exact ⟨rfl, rfl⟩
  | cons a os ih =>
    have ha : a ≠ o := fun e => h (e ▸ List.mem_cons_self _ _)
    have ho : o ∉ os := fun e => h (List.mem_cons_of_mem _ e)
    obtain ⟨h1, h2⟩ := ih (updateObject s a) ho
    obtain ⟨g1, g2⟩ := updateObject_pos_other s a o ha
    exact ⟨h1.trans g1, h2.trans g2⟩

theorem foldl_updateObject_pos_self (os : List Ref) (s : State) (o : Ref)
    (hnd : os.Nodup) (h : o ∈ os) :
    (os.foldl updateObject s).posX o = towardZero (s.posX o) ∧
    (os.foldl updateObject s).posY o = towardZeroY (s.posY o) := by
  induction os generalizing s with
  | nil => exact absurd h (List.not_mem_nil _)
  | cons a os ih =>
    obtain ⟨hnot, hnd'⟩ := List.nodup_cons.mp hnd
    by_cases ha : a = o
    · subst ha
      obtain ⟨h1, h2⟩ := foldl_updateObject_pos_other os (updateObject s a) a hnot
      obtain ⟨g1, g2⟩ := updateObject_pos_self s a
      exact ⟨h1.trans g1, h2.trans g2⟩
    · have ho : o ∈ os := by
        rcases List.mem_cons.mp h with e | e
        · exact absurd e.symm ha
        · exact e
      obtain ⟨h1, h2⟩ := ih (updateObject s a) hnd' ho
      obtain ⟨g1, g2⟩ := updateObject_pos_other s a o ha
      exact ⟨h1.trans (by rw [g1]), h2.trans (by rw [g2])⟩

theorem sceneRemove_subset (s : State) (x : Option Ref) (o : Ref)
    (h : o ∈ (sceneRemove s x).sceneChildren) : o ∈ s.sceneChildren := by
  unfold sceneRemove at h
  cases x with
  | none => exact h
  | some g =>
    by_cases hg : g ∈ s.sceneChildren
    · simp only [hg, if_true] at h
      exact List.mem_of_mem_erase h
    · simpa [hg] using h

theorem updateObject_subset (s : State) (a o : Ref)
    (h : o ∈ (updateObject s a).sceneChildren) : o ∈ s.sceneChildren := by
  have hy : ∀ t : State, (updateObjectY t a).sceneChildren = t.sceneChildren := by
    intro t
    unfold updateObjectY
    split_ifs <;> rfl
  rw [updateObject, hy] at h
  unfold updateObjectX at h
  split_ifs at h
  · exact h
  · exact h
  · exact sceneRemove_subset s _ o h
  · exact h

theorem foldl_updateObject_subset (os : List Ref) (s : State) (o : Ref)
    (h : o ∈ (os.foldl updateObject s).sceneChildren) : o ∈ s.sceneChildren := by
  induction os generalizing s with
  | nil => exact h
  | cons a os ih => exact updateObject_subset s a o (ih (updateObject s a) h)


/-! ### Object identities in the registry -/

@[simp]
theorem sceneRemove_nextRef (s : State) (o : Option Ref) :
    (sceneRemove s o).nextRef = s.nextRef := by
  unfold sceneRemove; split
  · rfl
  · split <;> rfl

@[simp]
theorem restoreEmissive_nextRef (s : State) (x : Option Ref) :
    (restoreEmissive s x).nextRef = s.nextRef := by rw [restoreEmissive_eq]

theorem mouseDown_nextRef (s : State) (xs : List Ref) :
    (onDocumentMouseDown s xs).nextRef = s.nextRef := by
  unfold onDocumentMouseDown
  by_cases h : xs.length > 0
  · simp only [h, if_true, get?_length_pred xs h]
    split <;> simp [loadObj]
  · simp [h]

theorem mouseMove_nextRef (s : State) (xs : List Ref) :
    (onDocumentMouseMove s xs).nextRef = s.nextRef := by
  unfold onDocumentMouseMove
  by_cases h : xs.length > 0
  · simp only [h, if_true, get?_length_pred xs h]
    split
    · simp [highlight, setHex]
    · rfl
  · simp [h]

theorem updateObject_nextRef (s : State) (o : Ref) :
    (updateObject s o).nextRef = s.nextRef := by
  have hy : ∀ t : State, (updateObjectY t o).nextRef = t.nextRef := by
    intro t
    unfold updateObjectY
    split_ifs <;> rfl
  rw [updateObject, hy]
  unfold updateObjectX
  split_ifs <;> simp

theorem update_nextRef (s : State) : (update s).nextRef = s.nextRef := by
  have key : ∀ (os : List Ref) (t : State), (os.foldl updateObject t).nextRef = t.nextRef := by
    intro os
    induction os with
    | nil => intro t; rfl
    | cons a os ih => intro t; exact (ih _).trans (updateObject_nextRef t a)
  exact key _ s

theorem stopGameLoop_registry (s : State) :
    (stopGameLoop s).objectList = s.objectList ∧ (stopGameLoop s).nextRef = s.nextRef := by
  induction s using stopGameLoop.induct with
  | case1 s h ih =>
    rw [stopGameLoop, dif_pos h]
    exact ⟨ih.1.trans (sceneRemove_objectList _ _), ih.2.trans (sceneRemove_nextRef _ _)⟩
  | case2 s h =>
    rw [stopGameLoop, dif_neg h]
    exact ⟨rfl, rfl⟩

theorem sceneAdd_nextRef (s : State) (o : Ref) : (sceneAdd s o).nextRef = s.nextRef := by
  unfold sceneAdd
  split <;> simp

theorem loadObjResolve_registry (s : State) (k : Nat) (shape : List Nat) (neg : Bool) (y : ℚ) :
    ((loadObjResolve s k shape neg y).objectList = s.objectList ∧
      (loadObjResolve s k shape neg y).nextRef = s.nextRef) ∨
    ((loadObjResolve s k shape neg y).objectList = s.objectList ++ [s.nextRef] ∧
      (loadObjResolve s k shape neg y).nextRef = s.nextRef + shape.length + 1) := by
  unfold loadObjResolve
  cases hk : s.pending.get? k with
  | none => exact Or.inl ⟨rfl, rfl⟩
  | some index =>
    refine Or.inr ⟨by rw [(sceneAdd_fields _ _).1], ?_⟩
    rw [sceneAdd_nextRef]

theorem step_freshRefs (s : State) (e : Event) (h : FreshRefs s) : FreshRefs (step s e) := by
  have keep : ∀ t : State, t.objectList = s.objectList → t.nextRef = s.nextRef →
      FreshRefs t := by
    intro t h1 h2
    unfold FreshRefs
    rw [h1, h2]
    exact h
  cases e with
  | loaded k shape neg y =>
    rcases loadObjResolve_registry s k shape neg y with ⟨h1, h2⟩ | ⟨h1, h2⟩
    · exact keep _ h1 h2
    · obtain ⟨hnd, hlt⟩ := h
      refine ⟨?_, ?_⟩
      · simp only [step, h1]
        refine List.Nodup.append hnd (List.nodup_singleton _) ?_
        intro a ha hb
        have hlt' : a < s.nextRef := hlt a ha
        rw [List.mem_singleton] at hb
        rw [hb] at hlt'
        exact Nat.lt_irrefl _ hlt'
      · intro o ho
        simp only [step, h1, h2] at ho ⊢
        have hle : s.nextRef < s.nextRef + shape.length + 1 :=
          Nat.lt_succ_of_le (Nat.le_add_right _ _)
        rcases List.mem_append.mp ho with hm | hm
        · exact Nat.lt_trans (hlt o hm) hle
        · rw [List.mem_singleton] at hm
          rw [hm]
          exact hle
  | loadFailed k => exact keep _ rfl rfl
  | mouseMove xs => exact keep _ (mouseMove_fields s xs).1 (mouseMove_nextRef s xs)
  | mouseDown xs => exact keep _ (mouseDown_objectList s xs) (mouseDown_nextRef s xs)
  | frame => exact keep _ (foldl_updateObject_fields s.objectList s).1 (update_nextRef s)
  | score => exact keep _ rfl rfl
  | stop => exact keep _ (stopGameLoop_registry _).1 (stopGameLoop_registry _).2

theorem run_freshRefs (es : List Event) (s : State) (h : FreshRefs s) :
    FreshRefs (run s es) := by
  induction es generalizing s with
  | nil => exact h
  | cons e es ih => exact ih _ (step_freshRefs s e h)

theorem createScene_freshRefs (material : Ref → Ref) (emissive : Ref → Nat) :
    FreshRefs (createScene material emissive) :=
  ⟨List.nodup_nil, fun _ h => absurd h (List.not_mem_nil _)⟩

/-! ### The `y` step of `update` in double arithmetic -/

/-- The literal `0.05` denotes the double `3602879701896397 / 2 ^ 56`. -/
theorem toDouble_literal : toDouble (5 / 100) = 3602879701896397 / 72057594037927936 := by
  have h := roundBinary_of_near 53 (-1022) (5 / 100) (-5) 7205759403792794
    (by norm_num [zpow_neg, le_abs]) (by norm_num [zpow_neg, abs_lt])
    (by norm_num [zpow_neg, abs_lt])
  refine h.trans ?_
  norm_num [zpow_neg]

theorem towardZeroY_step0 :
    towardZeroY (1 / 2 : ℚ) =
      (8106479329266893 / 18014398509481984 : ℚ) := by
  rw [towardZeroY, if_pos (by norm_num), toDouble_literal]
  have h := roundBinary_of_near 53 (-1022)
    ((1 / 2 : ℚ) -
      3602879701896397 / 72057594037927936) (-2) (8106479329266893)
    (by norm_num [zpow_neg, le_abs]) (by norm_num [zpow_neg, abs_lt])
    (by norm_num [zpow_neg, abs_lt])
  refine h.trans ?_
  norm_num [zpow_neg]

theorem towardZeroY_step1 :
    towardZeroY (8106479329266893 / 18014398509481984 : ℚ) =
      (3602879701896397 / 9007199254740992 : ℚ) := by
  rw [towardZeroY, if_pos (by norm_num), toDouble_literal]
  have h := roundBinary_of_near 53 (-1022)
    ((8106479329266893 / 18014398509481984 : ℚ) -
      3602879701896397 / 72057594037927936) (-2) (7205759403792794)
    (by norm_num [zpow_neg, le_abs]) (by norm_num [zpow_neg, abs_lt])
    (by norm_num [zpow_neg, abs_lt])
  refine h.trans ?_
  norm_num [zpow_neg]

theorem towardZeroY_step2 :
    towardZeroY (3602879701896397 / 9007199254740992 : ℚ) =
      (6305039478318695 / 18014398509481984 : ℚ) := by
  rw [towardZeroY, if_pos (by norm_num), toDouble_literal]
  have h := roundBinary_of_near 53 (-1022)
    ((3602879701896397 / 9007199254740992 : ℚ) -
      3602879701896397 / 72057594037927936) (-2) (6305039478318695)
    (by norm_num [zpow_neg, le_abs]) (by norm_num [zpow_neg, abs_lt])
    (by norm_num [zpow_neg, abs_lt])
  refine h.trans ?_
  norm_num [zpow_neg]

theorem towardZeroY_step3 :
    towardZeroY (6305039478318695 / 18014398509481984 : ℚ) =
      (1351079888211149 / 4503599627370496 : ℚ) := by
  rw [towardZeroY, if_pos (by norm_num), toDouble_literal]
  have h := roundBinary_of_near 53 (-1022)
    ((6305039478318695 / 18014398509481984 : ℚ) -
      3602879701896397 / 72057594037927936) (-2) (5404319552844596)
    (by norm_num [zpow_neg, le_abs]) (by norm_num [zpow_neg, abs_lt])
    (by norm_num [zpow_neg, abs_lt])
  refine h.trans ?_
  norm_num [zpow_neg]

theorem towardZeroY_step4 :
    towardZeroY (1351079888211149 / 4503599627370496 : ℚ) =
      (4503599627370497 / 18014398509481984 : ℚ) := by
  rw [towardZeroY, if_pos (by norm_num), toDouble_literal]
  have h := roundBinary_of_near 53 (-1022)
    ((1351079888211149 / 4503599627370496 : ℚ) -
      3602879701896397 / 72057594037927936) (-2) (4503599627370497)
    (by norm_num [zpow_neg, le_abs]) (by norm_num [zpow_neg, abs_lt])
    (by norm_num [zpow_neg, abs_lt])
  refine h.trans ?_
  norm_num [zpow_neg]

theorem towardZeroY_step5 :
    towardZeroY (4503599627370497 / 18014398509481984 : ℚ) =
      (1801439850948199 / 9007199254740992 : ℚ) := by
  rw [towardZeroY, if_pos (by norm_num), toDouble_literal]
  have h := roundBinary_of_tie 53 (-1022)
    ((4503599627370497 / 18014398509481984 : ℚ) -
      3602879701896397 / 72057594037927936) (-3) (7205759403792795)
    (by norm_num [zpow_neg, le_abs]) (by norm_num [zpow_neg, abs_lt])
    (by norm_num [zpow_neg])
  refine h.trans ?_
  norm_num [zpow_neg]

theorem towardZeroY_step6 :
    towardZeroY (1801439850948199 / 9007199254740992 : ℚ) =
      (2702159776422299 / 18014398509481984 : ℚ) := by
  rw [towardZeroY, if_pos (by norm_num), toDouble_literal]
  have h := roundBinary_of_tie 53 (-1022)
    ((1801439850948199 / 9007199254740992 : ℚ) -
      3602879701896397 / 72057594037927936) (-3) (5404319552844597)
    (by norm_num [zpow_neg, le_abs]) (by norm_num [zpow_neg, abs_lt])
    (by norm_num [zpow_neg])
  refine h.trans ?_
  norm_num [zpow_neg]

theorem towardZeroY_step7 :
    towardZeroY (2702159776422299 / 18014398509481984 : ℚ) =
      (7205759403792799 / 72057594037927936 : ℚ) := by
  rw [towardZeroY, if_pos (by norm_num), toDouble_literal]
  have h := roundBinary_of_near 53 (-1022)
    ((2702159776422299 / 18014398509481984 : ℚ) -
      3602879701896397 / 72057594037927936) (-4) (7205759403792799)
    (by norm_num [zpow_neg, le_abs]) (by norm_num [zpow_neg, abs_lt])
    (by norm_num [zpow_neg, abs_lt])
  refine h.trans ?_
  norm_num [zpow_neg]

theorem towardZeroY_step8 :
    towardZeroY (7205759403792799 / 72057594037927936 : ℚ) =
      (1801439850948201 / 36028797018963968 : ℚ) := by
  rw [towardZeroY, if_pos (by norm_num), toDouble_literal]
  have h := roundBinary_of_near 53 (-1022)
    ((7205759403792799 / 72057594037927936 : ℚ) -
      3602879701896397 / 72057594037927936) (-5) (7205759403792804)
    (by norm_num [zpow_neg, le_abs]) (by norm_num [zpow_neg, abs_lt])
    (by norm_num [zpow_neg, abs_lt])
  refine h.trans ?_
  norm_num [zpow_neg]

theorem towardZeroY_step9 :
    towardZeroY (1801439850948201 / 36028797018963968 : ℚ) =
      (5 / 72057594037927936 : ℚ) := by
  rw [towardZeroY, if_pos (by norm_num), toDouble_literal]
  have h := roundBinary_of_near 53 (-1022)
    ((1801439850948201 / 36028797018963968 : ℚ) -
      3602879701896397 / 72057594037927936) (-54) (5629499534213120)
    (by norm_num [zpow_neg, le_abs]) (by norm_num [zpow_neg, abs_lt])
    (by norm_num [zpow_neg, abs_lt])
  refine h.trans ?_
  norm_num [zpow_neg]

theorem towardZeroY_step10 :
    towardZeroY (5 / 72057594037927936 : ℚ) =
      (-450359962737049 / 9007199254740992 : ℚ) := by
  rw [towardZeroY, if_pos (by norm_num), toDouble_literal]
  have h := roundBinary_of_near 53 (-1022)
    ((5 / 72057594037927936 : ℚ) -
      3602879701896397 / 72057594037927936) (-5) (-7205759403792784)
    (by norm_num [zpow_neg, le_abs]) (by norm_num [zpow_neg, abs_lt])
    (by norm_num [zpow_neg, abs_lt])
  refine h.trans ?_
  norm_num [zpow_neg]

theorem towardZeroY_step11 :
    towardZeroY (-450359962737049 / 9007199254740992 : ℚ) =
      (5 / 72057594037927936 : ℚ) := by
  rw [towardZeroY, if_neg (by norm_num), if_pos (by norm_num), toDouble_literal]
  have h := roundBinary_of_near 53 (-1022)
    ((-450359962737049 / 9007199254740992 : ℚ) +
      3602879701896397 / 72057594037927936) (-54) (5629499534213120)
    (by norm_num [zpow_neg, le_abs]) (by norm_num [zpow_neg, abs_lt])
    (by norm_num [zpow_neg, abs_lt])
  refine h.trans ?_
  norm_num [zpow_neg]

/-- The `y` step of `update` in double arithmetic does not come to rest:
from `y = 0.5` ten steps lead to `5 / 2 ^ 56` (about `6.9e-17`), not `0`, and
from there `y` alternates between that number and
`-450359962737049 / 2 ^ 53` (about `-0.05`). -/
theorem towardZeroY_from_half :
    towardZeroY^[10] (1 / 2) = (5 / 72057594037927936 : ℚ) ∧
    towardZeroY^[11] (1 / 2) = (-450359962737049 / 9007199254740992 : ℚ) ∧
    towardZeroY^[12] (1 / 2) = (5 / 72057594037927936 : ℚ) := by
  have h10 : towardZeroY^[10] (1 / 2) = (5 / 72057594037927936 : ℚ) := by
    show towardZeroY (towardZeroY (towardZeroY (towardZeroY (towardZeroY
      (towardZeroY (towardZeroY (towardZeroY (towardZeroY (towardZeroY
        ((1 / 2 : ℚ))))))))))) = _
    rw [towardZeroY_step0, towardZeroY_step1, towardZeroY_step2, towardZeroY_step3,
      towardZeroY_step4, towardZeroY_step5, towardZeroY_step6, towardZeroY_step7,
      towardZeroY_step8, towardZeroY_step9]
  have h11 : towardZeroY^[11] (1 / 2) = (-450359962737049 / 9007199254740992 : ℚ) := by
    rw [Function.iterate_succ_apply', h10, towardZeroY_step10]
  have h12 : towardZeroY^[12] (1 / 2) = (5 / 72057594037927936 : ℚ) := by
    rw [Function.iterate_succ_apply', h11, towardZeroY_step11]
  exact ⟨h10, h11, h12⟩

/-- C9, as stated, fails: after a pointer-down has removed object 3 from
the scene (it was loaded at `x = 250`), the next `update()` still visits it
through `objectList` and moves it to `x = 249`. -/
theorem update_removed_counterexample :
    3 ∈ (run (createScene id (fun _ => 0)) [.loaded 0 [0] false 0]).sceneChildren ∧
    3 ∉ (run (createScene id (fun _ => 0)) clickedAwayTrace).sceneChildren ∧
    3 ∈ (run (createScene id (fun _ => 0)) clickedAwayTrace).objectList ∧
    (run (createScene id (fun _ => 0)) clickedAwayTrace).posX 3 = 250 ∧
    (update (run (createScene id (fun _ => 0)) clickedAwayTrace)).posX 3 = 249 := by
  decide

/-- C9 amended: removal from the scene does not unregister an object.  In
every state reached from `createScene`, an object of `objectList` that is no
longer a child of the scene stays in `objectList` and out of the scene
across `update()`, and `update()` still moves it: `x` by one unit towards
`0`, and a non-zero `y` to the double nearest to `y` minus (for `y > 0`) or
plus (for `y < 0`) the double `0.05`; its `x` is left unchanged only when it
is `0` already. -/
theorem update_moves_removed (material : Ref → Ref) (emissive : Ref → Nat)
    (es : List Event) (o : Ref)
    (hreg : o ∈ (run (createScene material emissive) es).objectList)
    (hgone : o ∉ (run (createScene material emissive) es).sceneChildren) :
    o ∈ (update (run (createScene material emissive) es)).objectList ∧
    o ∉ (update (run (createScene material emissive) es)).sceneChildren ∧
    (update (run (createScene material emissive) es)).posX o =
      towardZero ((run (createScene material emissive) es).posX o) ∧
    (update (run (createScene material emissive) es)).posY o =
      towardZeroY ((run (createScene material emissive) es).posY o) ∧
    ((update (run (createScene material emissive) es)).posX o =
        (run (createScene material emissive) es).posX o ↔
      (run (createScene material emissive) es).posX o = 0) := by
  have hfresh := run_freshRefs es _ (createScene_freshRefs material emissive)
  obtain ⟨hx, hy⟩ := foldl_updateObject_pos_self _
    (run (createScene material emissive) es) o hfresh.1 hreg
  refine ⟨?_, ?_, hx, hy, ?_⟩
  · rw [update, (foldl_updateObject_fields _ _).1]; exact hreg
  · exact fun hin => hgone (foldl_updateObject_subset _ _ o hin)
  · rw [update, hx]
    unfold towardZero
    split_ifs <;> omega

/-- C9 amended, at the state of the counterexample: object 3, clicked away
at `x = 250`, is moved by `update()`. -/
theorem update_moves_removed_witness :
    (update (run (createScene id (fun _ => 0)) clickedAwayTrace)).posX 3 =
      towardZero ((run (createScene id (fun _ => 0)) clickedAwayTrace).posX 3) :=
  (update_moves_removed id (fun _ => 0) clickedAwayTrace 3 (by decide) (by decide)).2.2.1

/-- C10: the code at the failing input.  After the ten initial loads, two
pointer-downs hit before either replacement load resumes; both calls of
`loadObj` captured `index = objectList.length = 10`, so the registry ends
with two different objects (23 and 25) that are both named `Object10`:
the names in `objectList` are not pairwise distinct. -/
theorem objectList_names_clash :
    (run (createScene id (fun _ => 0)) doubleClickTrace).objectList.length = 12 ∧
    (run (createScene id (fun _ => 0)) doubleClickTrace).objectList.get? 10 = some 23 ∧
    (run (createScene id (fun _ => 0)) doubleClickTrace).objectList.get? 11 = some 25 ∧
    (run (createScene id (fun _ => 0)) doubleClickTrace).name 23 = "Object10" ∧
    (run (createScene id (fun _ => 0)) doubleClickTrace).name 25 = "Object10" ∧
    ¬ ((run (createScene id (fun _ => 0)) doubleClickTrace).objectList.map
        (run (createScene id (fun _ => 0)) doubleClickTrace).name).Nodup := by
  decide

/-! ### Pointer coordinates -/

theorem ndc_bounds {α : Type} [LinearOrderedField α] (c w : α) (hw : 0 < w) (h0 : 0 ≤ c)
    (h1 : c ≤ w) : 0 ≤ c / w ∧ c / w ≤ 1 :=
  ⟨div_nonneg h0 hw.le, (div_le_one hw).mpr h1⟩

/-- C11: for a viewport with `innerWidth > 0`, `innerHeight > 0` and a
pointer with `0 ≤ clientX ≤ innerWidth`, `0 ≤ clientY ≤ innerHeight`, both
pointer handlers compute `mouse.x = 2·clientX/innerWidth - 1` and
`mouse.y = 1 - 2·clientY/innerHeight`, both within `[-1, 1]`; the top-left
pixel maps to `(-1, +1)` and the bottom-right one to `(+1, -1)`. -/
theorem mouse_coords_normalized {α : Type} [LinearOrderedField α]
    (clientX clientY innerWidth innerHeight : α)
    (hw : 0 < innerWidth) (hh : 0 < innerHeight)
    (hx0 : 0 ≤ clientX) (hx1 : clientX ≤ innerWidth)
    (hy0 : 0 ≤ clientY) (hy1 : clientY ≤ innerHeight) :
    mouseDownCoords clientX clientY innerWidth innerHeight =
      mouseMoveCoords clientX clientY innerWidth innerHeight ∧
    (mouseMoveCoords clientX clientY innerWidth innerHeight).1 =
      2 * clientX / innerWidth - 1 ∧
    (mouseMoveCoords clientX clientY innerWidth innerHeight).2 =
      1 - 2 * clientY / innerHeight ∧
    -1 ≤ (mouseMoveCoords clientX clientY innerWidth innerHeight).1 ∧
    (mouseMoveCoords clientX clientY innerWidth innerHeight).1 ≤ 1 ∧
    -1 ≤ (mouseMoveCoords clientX clientY innerWidth innerHeight).2 ∧
    (mouseMoveCoords clientX clientY innerWidth innerHeight).2 ≤ 1 ∧
    mouseMoveCoords 0 0 innerWidth innerHeight = (-1, 1) ∧
    mouseMoveCoords innerWidth innerHeight innerWidth innerHeight = (1, -1) := by
  obtain ⟨ax, bx⟩ := ndc_bounds clientX innerWidth hw hx0 hx1
  obtain ⟨ay, yb⟩ := ndc_bounds clientY innerHeight hh hy0 hy1
  have hw' : innerWidth ≠ 0 := ne_of_gt hw
  have hh' : innerHeight ≠ 0 := ne_of_gt hh
  refine ⟨rfl, ?_, ?_, ?_, ?_, ?_, ?_, ?_, ?_⟩
  · simp only [mouseMoveCoords]; ring
  · simp only [mouseMoveCoords]; ring
  · simp only [mouseMoveCoords]; linarith
  · simp only [mouseMoveCoords]; linarith
  · simp only [mouseMoveCoords]; linarith
  · simp only [mouseMoveCoords]; linarith
  · simp [mouseMoveCoords]
  · simp only [mouseMoveCoords, div_self hw', div_self hh']
    norm_num

/-- C11 on a 800 × 600 viewport: the pointer at pixel `(200, 150)` maps to
`(-1/2, 1/2)`. -/
theorem mouse_coords_normalized_witness :
    (mouseMoveCoords (200 : ℚ) 150 800 600).1 = 2 * 200 / 800 - 1 ∧
    (mouseMoveCoords (200 : ℚ) 150 800 600).1 ≤ 1 :=
  ⟨(mouse_coords_normalized (200 : ℚ) 150 800 600 (by norm_num) (by norm_num) (by norm_num)
      (by norm_num) (by norm_num) (by norm_num)).2.1,
   (mouse_coords_normalized (200 : ℚ) 150 800 600 (by norm_num) (by norm_num) (by norm_num)
      (by norm_num) (by norm_num) (by norm_num)).2.2.2.2.1⟩

/-! ### Empty intersection lists -/

/-- C16: for an empty intersection list, pointer-move restores the
previously hovered object's emissive to its saved `currentHex` and sets
`INTERSECTED` to null, pointer-down sets `CLICKED` to null, and both leave
`scene.children`, `objectList`, `clickedObjects` and the pending spawn
requests unchanged. -/
theorem empty_intersections (s : State) :
    (onDocumentMouseMove s []).INTERSECTED = none ∧
    (∀ i, s.INTERSECTED = some i →
      (onDocumentMouseMove s []).emissive (s.material i) = (s.currentHex i).getD 0) ∧
    (s.INTERSECTED = none → (onDocumentMouseMove s []).emissive = s.emissive) ∧
    (onDocumentMouseMove s []).sceneChildren = s.sceneChildren ∧
    (onDocumentMouseMove s []).objectList = s.objectList ∧
    (onDocumentMouseMove s []).clickedObjects = s.clickedObjects ∧
    (onDocumentMouseMove s []).pending = s.pending ∧
    (onDocumentMouseDown s []).CLICKED = none ∧
    (onDocumentMouseDown s []).sceneChildren = s.sceneChildren ∧
    (onDocumentMouseDown s []).objectList = s.objectList ∧
    (onDocumentMouseDown s []).clickedObjects = s.clickedObjects ∧
    (onDocumentMouseDown s []).pending = s.pending := by
  refine ⟨rfl, ?_, ?_, ?_, ?_, ?_, ?_, rfl, ?_, ?_, ?_, ?_⟩
  · intro i hi
    simp [onDocumentMouseMove, hi, restoreEmissive, setHex]
  · intro hi
    simp [onDocumentMouseMove, hi, restoreEmissive]
  all_goals simp [onDocumentMouseMove, onDocumentMouseDown]

/-! ### Which intersection the handlers choose -/

theorem mouseMove_hit (s : State) (xs : List Ref) (t : Ref) (hlast : xs.getLast? = some t) :
    onDocumentMouseMove s xs =
      if s.INTERSECTED ≠ some t then highlight (restoreEmissive s s.INTERSECTED) t else s := by
  obtain ⟨hx, hget⟩ := get?_of_getLast? xs t hlast
  simp only [onDocumentMouseMove, hx, if_true, hget]

/-- C18, as stated, fails in two ways.  First, after the floor is hovered,
pressed, and the pointer pressed where the ray meets nothing (which writes
the floor's `currentHex` back into its emissive), a pointer-move whose last
entry is the floor leaves `INTERSECTED` at the floor with emissive
`0x111111`, not `0xff0000`.  Second, when the newly chosen mesh 6 shares its
material with the hovered mesh 4, its emissive before the event is
`0xff0000` but its `currentHex` afterwards is `0x111111`. -/
theorem hover_picks_last_counterexample :
    (run (createScene id (fun _ => 0x111111)) staleHoverTrace).INTERSECTED = some floorRef ∧
    (run (createScene id (fun _ => 0x111111)) staleHoverTrace).emissive floorRef = 0x111111 ∧
    (run (createScene id (fun _ => 0x111111)) staleHoverTrace).emissive floorRef ≠ 0xff0000 ∧
    sharedMaterialScene.INTERSECTED = some 4 ∧
    sharedMaterialScene.emissive (sharedMaterialScene.material 6) = 0xff0000 ∧
    (onDocumentMouseMove sharedMaterialScene [3, 6]).INTERSECTED = some 6 ∧
    (onDocumentMouseMove sharedMaterialScene [3, 6]).currentHex 6 = some 0x111111 ∧
    (onDocumentMouseMove sharedMaterialScene [3, 6]).currentHex 6 ≠
      some (sharedMaterialScene.emissive (sharedMaterialScene.material 6)) := by
  decide

/-- C18 amended: for a non-empty intersection list whose last entry is the
object `t`, a pointer-move leaves `INTERSECTED = t` and a pointer-down
leaves `CLICKED = t`.  If `t` was not already hovered, its emissive becomes
`0xff0000` and its `currentHex` holds the emissive its material has once the
previously hovered object has been restored, which is the emissive it had
before the event whenever the previously hovered object uses another
material; if `t` was already hovered, the pointer-move changes nothing. -/
theorem hover_picks_last (s : State) (intersects : List Ref) (t : Ref)
    (hlast : intersects.getLast? = some t) :
    intersects.get? (intersects.length - 1) = some t ∧
    (onDocumentMouseMove s intersects).INTERSECTED = some t ∧
    (onDocumentMouseDown s intersects).CLICKED = some t ∧
    (s.INTERSECTED ≠ some t →
      (onDocumentMouseMove s intersects).emissive
        ((onDocumentMouseMove s intersects).material t) = 0xff0000 ∧
      (onDocumentMouseMove s intersects).currentHex t =
        some ((restoreEmissive s s.INTERSECTED).emissive (s.material t)) ∧
      ((∀ i, s.INTERSECTED = some i → s.material i ≠ s.material t) →
        (onDocumentMouseMove s intersects).currentHex t = some (s.emissive (s.material t)))) ∧
    (s.INTERSECTED = some t → onDocumentMouseMove s intersects = s) := by
  obtain ⟨hx, hget⟩ := get?_of_getLast? intersects t hlast
  have hmove := mouseMove_hit s intersects t hlast
  have hcur : s.INTERSECTED ≠ some t →
      (onDocumentMouseMove s intersects).currentHex t =
        some ((restoreEmissive s s.INTERSECTED).emissive (s.material t)) := by
    intro hne
    rw [hmove, if_pos hne]
    simp [highlight, setHex]
  refine ⟨hget, ?_, ?_, fun hne => ⟨?_, hcur hne, fun hown => ?_⟩, fun heq => ?_⟩
  · rw [hmove]
    by_cases hne : s.INTERSECTED = some t
    · rw [if_neg (not_not.mpr hne)]; exact hne
    · rw [if_pos hne]; rfl
  · simp only [onDocumentMouseDown, hx, if_true, hget]
    have key : ∀ o : Option Ref,
        (sceneRemove { s with CLICKED := some t } o).CLICKED = some t := by
      intro o
      unfold sceneRemove
      cases o with
      | none => rfl
      | some g => by_cases hg : g ∈ s.sceneChildren <;> simp [hg]
    split <;> simpa [loadObj] using key (s.parent t)
  · rw [hmove, if_pos hne]
    simp [highlight, setHex]
  · rw [hcur hne]
    cases hi : s.INTERSECTED with
    | none => rfl
    | some i =>
      have hm : s.material t ≠ s.material i := fun e => hown i hi e.symm
      simp [restoreEmissive, setHex, Function.update_noteq hm]
  · rw [hmove, if_neg (not_not.mpr heq)]

/-- C18 amended, on the fresh scene: a pointer-move over `[4, floor]`
chooses the floor, the last entry. -/
theorem hover_picks_last_witness :
    (onDocumentMouseMove (createScene id (fun _ => 0x111111)) [4, floorRef]).INTERSECTED =
      some floorRef :=
  (hover_picks_last (createScene id (fun _ => 0x111111)) [4, floorRef] floorRef rfl).2.1

/-! ### The picking step -/

/-- C12: the intersection list the pointer handlers obtain from the picking
step is sorted ascending by hit distance, and holds exactly the hits
collected; three objects at distances 5, 2 and 8 along the ray come back in
the order `[2, 5, 8]`. -/
theorem intersections_sorted (raycast : Ref → List ℚ) (objects : List Ref) :
    List.Sorted (· ≤ ·) ((intersectObjects raycast objects).map Intersection.distance) ∧
    List.Perm (intersectObjects raycast objects)
      (objects.flatMap fun o =>
        (raycast o).map fun d => ({ distance := d, object := o } : Intersection)) ∧
    (intersectObjects probeRay [3, 5, 7]).map Intersection.distance = [2, 5, 8] ∧
    (intersectObjects probeRay [3, 5, 7]).map Intersection.object = [5, 3, 7] := by
  refine ⟨?_, List.perm_insertionSort _ _, by decide, by decide⟩
  have htotal : IsTotal Intersection (fun a b => a.distance ≤ b.distance) :=
    ⟨fun a b => le_total a.distance b.distance⟩
  have htrans : IsTrans Intersection (fun a b => a.distance ≤ b.distance) :=
    ⟨fun _ _ _ hab hbc => le_trans hab hbc⟩
  have hs := @List.sorted_insertionSort Intersection (fun a b => a.distance ≤ b.distance)
    _ htotal htrans
    (objects.flatMap fun o =>
      (raycast o).map fun d => ({ distance := d, object := o } : Intersection))
  unfold intersectObjects
  exact (List.pairwise_map.mpr hs)

/-! ### The children of the scene -/

theorem sceneRemove_sceneChildren (s : State) (a : Ref) :
    (sceneRemove s (some a)).sceneChildren = s.sceneChildren.erase a := by
  unfold sceneRemove
  by_cases h : a ∈ s.sceneChildren
  · simp [h]
  · simp [h, List.erase_of_not_mem h]

theorem sceneRemove_sublist (s : State) (x : Option Ref) :
    (sceneRemove s x).sceneChildren.Sublist s.sceneChildren := by
  cases x with
  | none => exact List.Sublist.refl _
  | some a =>
    rw [sceneRemove_sceneChildren]
    exact List.erase_sublist a _

theorem updateObject_sceneChildren (s : State) (a : Ref) :
    (updateObject s a).sceneChildren =
      if s.posX a = 0 then s.sceneChildren.erase a else s.sceneChildren := by
  have hy : ∀ t : State, (updateObjectY t a).sceneChildren = t.sceneChildren := by
    intro t
    unfold updateObjectY
    split_ifs <;> rfl
  rw [updateObject, hy]
  unfold updateObjectX
  by_cases h0 : s.posX a = 0
  · simp [h0, sceneRemove_sceneChildren]
  · by_cases hp : s.posX a > 0
    · simp [hp, h0]
    · have hn : s.posX a < 0 := by omega
      simp [hp, hn, h0]

theorem updateObject_sublist (s : State) (a : Ref) :
    (updateObject s a).sceneChildren.Sublist s.sceneChildren := by
  rw [updateObject_sceneChildren]
  split
  · exact List.erase_sublist a _
  · exact List.Sublist.refl _

theorem foldl_updateObject_sublist (os : List Ref) (s : State) :
    (os.foldl updateObject s).sceneChildren.Sublist s.sceneChildren := by
  induction os generalizing s with
  | nil => exact List.Sublist.refl _
  | cons a os ih => exact (ih (updateObject s a)).trans (updateObject_sublist s a)

theorem stopGameLoop_sublist (s : State) :
    (stopGameLoop s).sceneChildren.Sublist s.sceneChildren := by
  induction s using stopGameLoop.induct with
  | case1 s h ih =>
    rw [stopGameLoop, dif_pos h]
    exact ih.trans (sceneRemove_sublist _ _)
  | case2 s h =>
    rw [stopGameLoop, dif_neg h]

theorem mouseMove_sceneChildren (s : State) (xs : List Ref) :
    (onDocumentMouseMove s xs).sceneChildren = s.sceneChildren := by
  unfold onDocumentMouseMove
  by_cases h : xs.length > 0
  · simp only [h, if_true, get?_length_pred xs h]
    split
    · simp [highlight, setHex]
    · rfl
  · simp [h]

theorem mouseDown_sublist (s : State) (xs : List Ref) :
    (onDocumentMouseDown s xs).sceneChildren.Sublist s.sceneChildren := by
  by_cases h : xs.length > 0
  · have hlast : xs.getLast? = some (xs.getLast (List.ne_nil_of_length_pos h)) :=
      List.getLast?_eq_getLast _ _
    rw [(mouseDown_hit_scene s xs _ hlast).1]
    exact sceneRemove_sublist _ _
  · have : (onDocumentMouseDown s xs).sceneChildren = s.sceneChildren := by
      simp [onDocumentMouseDown, h]
    rw [this]

theorem loadObjResolve_scene (s : State) (k : Nat) (shape : List Nat) (neg : Bool) (y : ℚ)
    (index : Nat) (hk : s.pending.get? k = some index) :
    (loadObjResolve s k shape neg y).sceneChildren = s.sceneChildren ++ [s.nextRef] ∧
    (loadObjResolve s k shape neg y).objectList = s.objectList ++ [s.nextRef] ∧
    (loadObjResolve s k shape neg y).nextRef = s.nextRef + shape.length + 1 ∧
    (loadObjResolve s k shape neg y).posX s.nextRef = (if neg then -250 else 250) := by
  simp only [loadObjResolve, hk]
  simp [sceneAdd]

theorem step_sceneFresh (s : State) (e : Event) (h : SceneFresh s) :
    SceneFresh (step s e) := by
  have keep : ∀ t : State, t.sceneChildren.Sublist s.sceneChildren → t.nextRef = s.nextRef →
      SceneFresh t := by
    intro t h1 h2
    refine ⟨h.1.sublist h1, fun o ho => ?_⟩
    rw [h2]
    exact h.2 o (h1.subset ho)
  cases e with
  | loaded k shape neg y =>
    cases hk : s.pending.get? k with
    | none =>
      have : step s (.loaded k shape neg y) = s := by simp only [step, loadObjResolve, hk]
      rw [this]; exact h
    | some index =>
      obtain ⟨h1, _, h3, _⟩ := loadObjResolve_scene s k shape neg y index hk
      have hle : s.nextRef < s.nextRef + shape.length + 1 :=
        Nat.lt_succ_of_le (Nat.le_add_right _ _)
      refine ⟨?_, ?_⟩
      · simp only [step, h1]
        refine List.Nodup.append h.1 (List.nodup_singleton _) ?_
        intro a ha hb
        have hlt : a < s.nextRef := h.2 a ha
        rw [List.mem_singleton] at hb
        rw [hb] at hlt
        exact Nat.lt_irrefl _ hlt
      · intro o ho
        simp only [step, h1, h3] at ho ⊢
        rcases List.mem_append.mp ho with hm | hm
        · exact Nat.lt_trans (h.2 o hm) hle
        · rw [List.mem_singleton] at hm
          rw [hm]
          exact hle
  | loadFailed k => exact keep _ (List.Sublist.refl _) rfl
  | mouseMove xs =>
    exact keep _ (by rw [show (step s (.mouseMove xs)).sceneChildren = s.sceneChildren from
      mouseMove_sceneChildren s xs]) (mouseMove_nextRef s xs)
  | mouseDown xs => exact keep _ (mouseDown_sublist s xs) (mouseDown_nextRef s xs)
  | frame => exact keep _ (foldl_updateObject_sublist _ s) (update_nextRef s)
  | score => exact keep _ (List.Sublist.refl _) rfl
  | stop => exact keep _ (stopGameLoop_sublist _) (stopGameLoop_registry _).2

theorem run_sceneFresh (es : List Event) (s : State) (h : SceneFresh s) :
    SceneFresh (run s es) := by
  induction es generalizing s with
  | nil => exact h
  | cons e es ih => exact ih _ (step_sceneFresh s e h)

theorem createScene_sceneFresh (material : Ref → Ref) (emissive : Ref → Nat) :
    SceneFresh (createScene material emissive) := by
  refine ⟨?_, ?_⟩
  · show ([lightRef, floorRef] : List Ref).Nodup
    decide
  · intro o ho
    simp only [createScene, List.mem_cons, List.mem_singleton, List.not_mem_nil, or_false] at ho
    rcases ho with h | h
    · rw [h]; show lightRef < 3; decide
    · rw [h]; show floorRef < 3; decide

/-! ### The lifetime of a spawned object under `update` -/

theorem foldl_updateObject_scene (o : Ref) (os : List Ref) (s : State) (hos : os.Nodup)
    (hsc : s.sceneChildren.Nodup) :
    (os.foldl updateObject s).sceneChildren.Nodup ∧
    (o ∉ os → (o ∈ (os.foldl updateObject s).sceneChildren ↔ o ∈ s.sceneChildren)) ∧
    (o ∈ os → s.posX o ≠ 0 →
      (o ∈ (os.foldl updateObject s).sceneChildren ↔ o ∈ s.sceneChildren)) ∧
    (o ∈ os → s.posX o = 0 → o ∉ (os.foldl updateObject s).sceneChildren) := by
  induction os generalizing s with
  | nil =>
    exact ⟨hsc, fun _ => Iff.rfl, fun h => absurd h (List.not_mem_nil _),
      fun h => absurd h (List.not_mem_nil _)⟩
  | cons a os ih =>
    obtain ⟨hnot, hos'⟩ := List.nodup_cons.mp hos
    have hsc' : (updateObject s a).sceneChildren.Nodup := hsc.sublist (updateObject_sublist s a)
    obtain ⟨i1, i2, i3, i4⟩ := ih (updateObject s a) hos' hsc'
    have hother : a ≠ o → (o ∈ (updateObject s a).sceneChildren ↔ o ∈ s.sceneChildren) := by
      intro hne
      rw [updateObject_sceneChildren]
      split
      · exact List.mem_erase_of_ne (Ne.symm hne)
      · exact Iff.rfl
    refine ⟨i1, ?_, ?_, ?_⟩
    · intro hmem
      have ha : a ≠ o := fun e => hmem (e ▸ List.mem_cons_self _ _)
      have ho : o ∉ os := fun e => hmem (List.mem_cons_of_mem _ e)
      exact (i2 ho).trans (hother ha)
    · intro hmem hx
      by_cases ha : a = o
      · subst ha
        have hsame : (updateObject s a).sceneChildren = s.sceneChildren := by
          rw [updateObject_sceneChildren, if_neg hx]
        exact (i2 hnot).trans (by rw [hsame])
      · have ho : o ∈ os := by
          rcases List.mem_cons.mp hmem with e | e
          · exact absurd e.symm ha
          · exact e
        have hx' : (updateObject s a).posX o ≠ 0 := by
          rw [(updateObject_pos_other s a o ha).1]; exact hx
        exact (i3 ho hx').trans (hother ha)
    · intro hmem hx
      by_cases ha : a = o
      · subst ha
        intro hin
        have hin' := foldl_updateObject_subset os (updateObject s a) a hin
        rw [updateObject_sceneChildren, if_pos hx] at hin'
        exact List.Nodup.not_mem_erase hsc hin'
      · have ho : o ∈ os := by
          rcases List.mem_cons.mp hmem with e | e
          · exact absurd e.symm ha
          · exact e
        have hx' : (updateObject s a).posX o = 0 := by
          rw [(updateObject_pos_other s a o ha).1]; exact hx
        exact i4 ho hx'

theorem update_tick (o : Ref) (s : State) (hos : s.objectList.Nodup)
    (hsc : s.sceneChildren.Nodup) (ho : o ∈ s.objectList) :
    (update s).objectList = s.objectList ∧
    (update s).sceneChildren.Nodup ∧
    (update s).posX o = towardZero (s.posX o) ∧
    (s.posX o ≠ 0 → (o ∈ (update s).sceneChildren ↔ o ∈ s.sceneChildren)) ∧
    (s.posX o = 0 → o ∉ (update s).sceneChildren) := by
  obtain ⟨h1, _, h3, h4⟩ := foldl_updateObject_scene o s.objectList s hos hsc
  exact ⟨(foldl_updateObject_fields _ _).1, h1,
    (foldl_updateObject_pos_self _ s o hos ho).1, h3 ho, h4 ho⟩

theorem towardZero_iterate_pos (n : Nat) (x : Int) (h : (n : Int) ≤ x) :
    towardZero^[n] x = x - n := by
  induction n with
  | zero => simp
  | succ n ih =>
    rw [Function.iterate_succ_apply', ih (by push_cast at h; omega)]
    unfold towardZero
    push_cast at h ⊢
    split_ifs <;> omega

theorem towardZero_iterate_neg (n : Nat) (x : Int) (h : x ≤ -(n : Int)) :
    towardZero^[n] x = x + n := by
  induction n with
  | zero => simp
  | succ n ih =>
    rw [Function.iterate_succ_apply', ih (by push_cast at h; omega)]
    unfold towardZero
    push_cast at h ⊢
    split_ifs <;> omega

theorem update_iterate (o : Ref) (s : State) (hos : s.objectList.Nodup)
    (hsc : s.sceneChildren.Nodup) (ho : o ∈ s.objectList) (n : Nat) :
    (update^[n] s).objectList = s.objectList ∧
    (update^[n] s).sceneChildren.Nodup ∧
    (update^[n] s).posX o = towardZero^[n] (s.posX o) ∧
    ((∀ m, m < n → towardZero^[m] (s.posX o) ≠ 0) →
      (o ∈ (update^[n] s).sceneChildren ↔ o ∈ s.sceneChildren)) := by
  induction n with
  | zero => exact ⟨rfl, hsc, rfl, fun _ => Iff.rfl⟩
  | succ n ih =>
    obtain ⟨i1, i2, i3, i4⟩ := ih
    obtain ⟨t1, t2, t3, t4, _⟩ := update_tick o (update^[n] s) (by rw [i1]; exact hos) i2
      (by rw [i1]; exact ho)
    rw [Function.iterate_succ_apply']
    refine ⟨t1.trans i1, t2, ?_, ?_⟩
    · rw [t3, i3, Function.iterate_succ_apply']
    · intro hall
      have hprev := i4 (fun m hm => hall m (Nat.lt_succ_of_lt hm))
      have hx : (update^[n] s).posX o ≠ 0 := by
        rw [i3]; exact hall n (Nat.lt_succ_self n)
      exact (t4 hx).trans hprev

theorem reachable_fresh (s : State) (hs : Reachable s) : FreshRefs s ∧ SceneFresh s := by
  obtain ⟨material, emissive, es, rfl⟩ := hs
  exact ⟨run_freshRefs es _ (createScene_freshRefs material emissive),
    run_sceneFresh es _ (createScene_sceneFresh material emissive)⟩

/-- C20: an object spawned by `loadObj` starts at `x = +250` or `x = -250`;
under `update()` its `|x|` decreases by exactly 1 per tick without `x`
changing sign, so `x` is `0` after exactly 250 ticks; it is still a child
of the scene after each of the first 250 ticks and is removed from the
scene by the 251st tick, the first one that sees `x == 0`. -/
theorem spawned_object_lifetime (s : State) (hs : Reachable s) (k index : Nat)
    (shape : List Nat) (chosenNegative : Bool) (y : ℚ)
    (hk : s.pending.get? k = some index) (n : Nat) (hn : n ≤ 250) :
    (loadObjResolve s k shape chosenNegative y).posX s.nextRef =
      (if chosenNegative then -250 else 250) ∧
    s.nextRef ∈ (loadObjResolve s k shape chosenNegative y).objectList ∧
    (update^[n] (loadObjResolve s k shape chosenNegative y)).posX s.nextRef =
      (if chosenNegative then -(250 - (n : Int)) else 250 - (n : Int)) ∧
    ((update^[n] (loadObjResolve s k shape chosenNegative y)).posX s.nextRef).natAbs =
      250 - n ∧
    ((update^[n] (loadObjResolve s k shape chosenNegative y)).posX s.nextRef = 0 ↔
      n = 250) ∧
    s.nextRef ∈ (update^[n] (loadObjResolve s k shape chosenNegative y)).sceneChildren ∧
    s.nextRef ∉ (update^[251] (loadObjResolve s k shape chosenNegative y)).sceneChildren := by
  obtain ⟨hf, hsf⟩ := reachable_fresh s hs
  have hf1 : FreshRefs (loadObjResolve s k shape chosenNegative y) :=
    step_freshRefs s (.loaded k shape chosenNegative y) hf
  have hsf1 : SceneFresh (loadObjResolve s k shape chosenNegative y) :=
    step_sceneFresh s (.loaded k shape chosenNegative y) hsf
  obtain ⟨hsc, hol, _, hx0⟩ := loadObjResolve_scene s k shape chosenNegative y index hk
  have hreg : s.nextRef ∈ (loadObjResolve s k shape chosenNegative y).objectList := by
    rw [hol]; exact List.mem_append_right _ (List.mem_singleton_self _)
  have hin : s.nextRef ∈ (loadObjResolve s k shape chosenNegative y).sceneChildren := by
    rw [hsc]; exact List.mem_append_right _ (List.mem_singleton_self _)
  have hiter : ∀ m : Nat, m ≤ 250 →
      towardZero^[m] ((loadObjResolve s k shape chosenNegative y).posX s.nextRef) =
        (if chosenNegative then -(250 - (m : Int)) else 250 - (m : Int)) := by
    intro m hm
    rw [hx0]
    cases chosenNegative with
    | true =>
      simp only [if_true]
      rw [towardZero_iterate_neg m (-250) (by omega)]
      ring
    | false =>
      simp only [Bool.false_eq_true, if_false]
      rw [towardZero_iterate_pos m 250 (by omega)]
  have hnz : ∀ m : Nat, m < 250 →
      towardZero^[m] ((loadObjResolve s k shape chosenNegative y).posX s.nextRef) ≠ 0 := by
    intro m hm
    rw [hiter m (Nat.le_of_lt hm)]
    split <;> omega
  obtain ⟨_, _, hp, hmem⟩ := update_iterate s.nextRef _ hf1.1 hsf1.1 hreg n
  obtain ⟨ho250, hs250, hp250, hmem250⟩ := update_iterate s.nextRef _ hf1.1 hsf1.1 hreg 250
  have hxn : (update^[n] (loadObjResolve s k shape chosenNegative y)).posX s.nextRef =
      (if chosenNegative then -(250 - (n : Int)) else 250 - (n : Int)) := by
    rw [hp, hiter n hn]
  refine ⟨hx0, hreg, hxn, ?_, ?_, ?_, ?_⟩
  · rw [hxn]
    split <;> omega
  · rw [hxn]
    split <;> omega
  · exact (hmem (fun m hm => hnz m (Nat.lt_of_lt_of_le hm hn))).mpr hin
  · have hzero : (update^[250] (loadObjResolve s k shape chosenNegative y)).posX s.nextRef
        = 0 := by
      rw [hp250, hiter 250 (Nat.le_refl _)]
      split <;> norm_num
    have htick := update_tick s.nextRef
      (update^[250] (loadObjResolve s k shape chosenNegative y))
      (by rw [ho250]; exact hf1.1) hs250 (by rw [ho250]; exact hreg)
    rw [Function.iterate_succ_apply']
    exact htick.2.2.2.2 hzero

/-- C20 on the first load that completes after `createScene`: object 3,
spawned at `x = 250`, is at `x = 240` after ten ticks. -/
theorem spawned_object_lifetime_witness :
    (update^[10] (loadObjResolve (createScene id (fun _ => 0)) 0 [0] false 0)).posX 3 = 240 :=
  (spawned_object_lifetime (createScene id (fun _ => 0)) ⟨id, fun _ => 0, [], rfl⟩ 0 0 [0]
    false 0 rfl 10 (by decide)).2.2.1

/-! ### `stopGame` -/

theorem sceneRemove_head (s : State) (c : Ref) (cs : List Ref)
    (h : s.sceneChildren = c :: cs) :
    (sceneRemove s s.sceneChildren.head?).sceneChildren = cs := by
  rw [h, List.head?_cons, sceneRemove_sceneChildren, h, List.erase_cons_head]

theorem sceneRemove_head_length (s : State) (h : s.sceneChildren.length > 0) :
    (sceneRemove s s.sceneChildren.head?).sceneChildren.length + 1 =
      s.sceneChildren.length := by
  cases hc : s.sceneChildren with
  | nil => rw [hc] at h; exact absurd h (Nat.lt_irrefl 0)
  | cons c cs =>
    have := sceneRemove_head s c cs hc
    rw [hc] at this
    rw [this, List.length_cons]

theorem stopGameLoop_done (s : State) :
    (stopGameLoop s).sceneChildren = [] ∧
    (stopGameLoop s).continueGame = s.continueGame ∧
    (stopGameLoop s).clickedObjects = s.clickedObjects := by
  induction s using stopGameLoop.induct with
  | case1 s h ih =>
    rw [stopGameLoop, dif_pos h]
    exact ⟨ih.1, ih.2.1.trans (sceneRemove_continueGame _ _),
      ih.2.2.trans (sceneRemove_clickedObjects _ _)⟩
  | case2 s h =>
    rw [stopGameLoop, dif_neg h]
    refine ⟨?_, rfl, rfl⟩
    cases hc : s.sceneChildren with
    | nil => rfl
    | cons c cs => rw [hc] at h; exact absurd (Nat.succ_pos _) h

theorem stopGameLoopFuel_enough (fuel : Nat) (s : State)
    (h : s.sceneChildren.length ≤ fuel) :
    stopGameLoopFuel fuel s = some (stopGameLoop s) := by
  induction fuel generalizing s with
  | zero =>
    have h0 : ¬ s.sceneChildren.length > 0 := by omega
    rw [stopGameLoopFuel, if_neg h0, stopGameLoop, dif_neg h0]
  | succ fuel ih =>
    by_cases hpos : s.sceneChildren.length > 0
    · have hlen := sceneRemove_head_length s hpos
      rw [stopGameLoopFuel, if_pos hpos, stopGameLoop, dif_pos hpos]
      exact ih _ (by omega)
    · rw [stopGameLoopFuel, if_neg hpos, stopGameLoop, dif_neg hpos]

theorem stopGameLoopFuel_short (fuel : Nat) (s : State)
    (h : fuel < s.sceneChildren.length) : stopGameLoopFuel fuel s = none := by
  induction fuel generalizing s with
  | zero =>
    rw [stopGameLoopFuel, if_pos h]
  | succ fuel ih =>
    have hpos : s.sceneChildren.length > 0 := by omega
    have hlen := sceneRemove_head_length s hpos
    rw [stopGameLoopFuel, if_pos hpos]
    exact ih _ (by omega)

/-- C21: for every scene (its children form a finite list) `stopGame`
terminates: every iteration of its loop removes the first child and shortens
`scene.children` by one, so the loop stops after exactly
`scene.children.length` iterations; it leaves `scene.children` empty and
`continueGame = false`, and changes neither `objectList` nor
`clickedObjects`. -/
theorem stopGame_terminates (s : State) :
    stopGameLoopFuel s.sceneChildren.length { s with continueGame := false } =
      some (stopGame s) ∧
    (∀ fuel, fuel < s.sceneChildren.length →
      stopGameLoopFuel fuel { s with continueGame := false } = none) ∧
    (∀ c cs, s.sceneChildren = c :: cs →
      (sceneRemove s s.sceneChildren.head?).sceneChildren = cs ∧
      (sceneRemove s s.sceneChildren.head?).sceneChildren.length + 1 =
        s.sceneChildren.length) ∧
    (stopGame s).sceneChildren = [] ∧
    (stopGame s).continueGame = false ∧
    (stopGame s).objectList = s.objectList ∧
    (stopGame s).clickedObjects = s.clickedObjects := by
  obtain ⟨h1, h2, h3⟩ := stopGameLoop_done { s with continueGame := false }
  refine ⟨stopGameLoopFuel_enough _ _ (Nat.le_refl _),
    fun fuel hf => stopGameLoopFuel_short fuel _ hf, fun c cs hc => ?_, h1, h2,
    (stopGameLoop_registry _).1, h3⟩
  refine ⟨sceneRemove_head s c cs hc, sceneRemove_head_length s ?_⟩
  rw [hc]
  exact Nat.succ_pos _

theorem stopGame_stoppingScene :
    stoppingScene.sceneChildren = [lightRef, floorRef, 3, 5] ∧
    (stopGameLoopFuel 3 { stoppingScene with continueGame := false }).isNone = true ∧
    ((stopGameLoopFuel 4 { stoppingScene with continueGame := false }).map
      State.sceneChildren) = some [] ∧
    ((stopGameLoopFuel 4 { stoppingScene with continueGame := false }).map
      State.objectList) = some [3, 5] ∧
    ((stopGameLoopFuel 4 { stoppingScene with continueGame := false }).map
      State.clickedObjects) = some 1 := by
  decide

end Game

namespace Cube3D

variable {α : Type} [LinearOrderedField α]

/-! ### Rotation angle -/

theorem rotationAngle_elapsed (M : JsMath α) (t e : α) :
    rotationAngle M t (t + e) = M.PI * 2 * (e / duration) := by
  simp [rotationAngle, deltat]

theorem cubeUpdate_currentTime (M : JsMath α) (axis : Vec3 α) (cube : Shape α) (now : α) :
    (cubeUpdate M axis cube now).currentTime = now := rfl

theorem appliedAngles_sum (M : JsMath α) (axis : Vec3 α) (cube : Shape α) (es : List α) :
    (appliedAngles M axis cube es).sum = M.PI * 2 * (es.sum / duration) := by
  induction es generalizing cube with
  | nil => simp [appliedAngles]
  | cons e es ih =>
    simp only [appliedAngles, List.sum_cons, ih, rotationAngle_elapsed]
    ring

theorem rotationAngle_eq (M : JsMath α) (t now : α) :
    rotationAngle M t now = 2 * M.PI * ((now - t) / 10000) := by
  simp only [rotationAngle, deltat, duration]; ring

theorem appliedAngles_eq (M : JsMath α) (axis : Vec3 α) (cube : Shape α) (es : List α) :
    appliedAngles M axis cube es = es.map fun e => 2 * M.PI * (e / 10000) := by
  induction es generalizing cube with
  | nil => rfl
  | cons e es ih =>
    simp only [appliedAngles, List.map_cons, ih, rotationAngle_eq]
    congr 2
    ring

theorem cubeTicks_modelViewMatrix (M : JsMath α) (axis : Vec3 α) (cube : Shape α)
    (es : List α) :
    (cubeTicks M axis cube es).modelViewMatrix =
      (appliedAngles M axis cube es).foldl (fun m a => rotateInPlace M m a axis)
        cube.modelViewMatrix := by
  induction es generalizing cube with
  | nil => rfl
  | cons e es ih =>
    simp only [cubeTicks, appliedAngles, List.foldl_cons]
    exact ih _

theorem cubeTicks_currentTime (M : JsMath α) (axis : Vec3 α) (cube : Shape α) (es : List α) :
    (cubeTicks M axis cube es).currentTime = cube.currentTime + es.sum := by
  induction es generalizing cube with
  | nil => simp [cubeTicks]
  | cons e es ih =>
    simp only [cubeTicks, List.sum_cons]
    rw [ih, cubeUpdate_currentTime]
    ring

/-- C3: on a tick every shape's `update` rotates its `modelViewMatrix` by
the angle `2π · (elapsed / duration)` with `duration = 10000` and
`elapsed = now - currentTime` (the dodecahedron twice, about its two axes;
the octahedron after its bobbing step has changed element 13).  So the
matrix a cube holds after a run of ticks is its initial matrix rotated
successively by the angles `2π · (elapsed_i / 10000)`; over the reals,
`N ≥ 1` successive ticks each with `elapsed = duration / N` apply angles that
sum to exactly `2π`, and the angles of any tick sequence sum to
`2π · (total elapsed) / duration`.  `M.PI` is the value of `Math.PI`. -/
theorem rotation_linear_in_elapsed (M : JsMath ℝ) (axis axis1 : Vec3 ℝ) (cube : Shape ℝ)
    (o : Octaedro ℝ) (N : ℕ) (hN : 1 ≤ N) (elapsed : List ℝ) :
    (∀ now : ℝ,
      (cubeUpdate M axis cube now).modelViewMatrix =
        rotateInPlace M cube.modelViewMatrix
          (2 * M.PI * ((now - cube.currentTime) / 10000)) axis ∧
      (pyramidUpdate M axis cube now).modelViewMatrix =
        rotateInPlace M cube.modelViewMatrix
          (2 * M.PI * ((now - cube.currentTime) / 10000)) axis ∧
      (phUpdate M axis cube now).modelViewMatrix =
        rotateInPlace M cube.modelViewMatrix
          (2 * M.PI * ((now - cube.currentTime) / 10000)) axis ∧
      (dodecaedroUpdate M axis axis1 cube now).modelViewMatrix =
        rotateInPlace M
          (rotateInPlace M cube.modelViewMatrix
            (2 * M.PI * ((now - cube.currentTime) / 10000)) axis)
          (2 * M.PI * ((now - cube.currentTime) / 10000)) axis1 ∧
      ∃ m13 : ℝ, (octaedroUpdate M axis o now).modelViewMatrix =
        rotateInPlace M { o.modelViewMatrix with m13 := m13 }
          (2 * M.PI * ((now - o.currentTime) / 10000)) axis) ∧
    (∀ now : ℝ, rotationAngle M cube.currentTime now =
      2 * M.PI * ((now - cube.currentTime) / 10000)) ∧
    (cubeTicks M axis cube elapsed).modelViewMatrix =
      (appliedAngles M axis cube elapsed).foldl (fun m a => rotateInPlace M m a axis)
        cube.modelViewMatrix ∧
    (cubeTicks M axis cube elapsed).currentTime = cube.currentTime + elapsed.sum ∧
    appliedAngles M axis cube elapsed = elapsed.map (fun e => 2 * M.PI * (e / 10000)) ∧
    (appliedAngles M axis cube (List.replicate N (duration / (N : ℝ)))).sum = 2 * M.PI ∧
    (appliedAngles M axis cube elapsed).sum = 2 * M.PI * elapsed.sum / duration := by
  refine ⟨fun now => ⟨?_, ?_, ?_, ?_,
      ⟨(match (octaedroUpdate M axis o now).flag with
        | Flag.bottom => o.modelViewMatrix.m13 + 1 / 4
        | Flag.top => o.modelViewMatrix.m13 - 1 / 4), ?_⟩⟩,
    fun now => rotationAngle_eq M _ now,
    cubeTicks_modelViewMatrix M axis cube elapsed, cubeTicks_currentTime M axis cube elapsed,
    appliedAngles_eq M axis cube elapsed, ?_, ?_⟩
  · rw [← rotationAngle_eq]; rfl
  · rw [← rotationAngle_eq]; rfl
  · rw [← rotationAngle_eq]; rfl
  · rw [← rotationAngle_eq]; rfl
  · rw [← rotationAngle_eq]; rfl
  · rw [appliedAngles_sum, List.sum_replicate, nsmul_eq_mul]
    have hN' : (N : ℝ) ≠ 0 := Nat.cast_ne_zero.mpr (by omega)
    have hd : (duration : ℝ) ≠ 0 := by norm_num [duration]
    field_simp
    ring
  · rw [appliedAngles_sum]; ring

/-- C3 with the real `Math`: a tick of 2500 ms rotates the cube by
`2π · (2500 / 10000)`, and four ticks of 2500 ms each apply rotations whose
angles sum to exactly `2π`. -/
theorem rotation_linear_in_elapsed_witness :
    (cubeUpdate
        ({ PI := Real.pi, sin := Real.sin, cos := Real.cos,
           hypot := fun x y z => Real.sqrt (x * x + y * y + z * z) } : JsMath ℝ)
        ⟨0, 1, 0⟩ (createCube ⟨0, 0, 0⟩ 0) 2500).modelViewMatrix =
      rotateInPlace
        ({ PI := Real.pi, sin := Real.sin, cos := Real.cos,
           hypot := fun x y z => Real.sqrt (x * x + y * y + z * z) } : JsMath ℝ)
        (createCube ⟨0, 0, 0⟩ 0).modelViewMatrix
        (2 * Real.pi * ((2500 - (createCube (⟨0, 0, 0⟩ : Vec3 ℝ) 0).currentTime) / 10000))
        ⟨0, 1, 0⟩ ∧
    (appliedAngles
        ({ PI := Real.pi, sin := Real.sin, cos := Real.cos,
           hypot := fun x y z => Real.sqrt (x * x + y * y + z * z) } : JsMath ℝ)
        ⟨0, 1, 0⟩ (createCube ⟨0, 0, 0⟩ 0)
        (List.replicate 4 (duration / ((4 : ℕ) : ℝ)))).sum = 2 * Real.pi :=
  ⟨((rotation_linear_in_elapsed
      ({ PI := Real.pi, sin := Real.sin, cos := Real.cos,
           hypot := fun x y z => Real.sqrt (x * x + y * y + z * z) } : JsMath ℝ)
      ⟨0, 1, 0⟩ ⟨1, 0, 0⟩ (createCube ⟨0, 0, 0⟩ 0) (createOctaedro ⟨0, 0, 0⟩ 0) 4
      (by decide) []).1 2500).1,
   (rotation_linear_in_elapsed
      ({ PI := Real.pi, sin := Real.sin, cos := Real.cos,
           hypot := fun x y z => Real.sqrt (x * x + y * y + z * z) } : JsMath ℝ)
      ⟨0, 1, 0⟩ ⟨1, 0, 0⟩ (createCube ⟨0, 0, 0⟩ 0) (createOctaedro ⟨0, 0, 0⟩ 0) 4
      (by decide) []).2.2.2.2.2.1⟩

/-! ### Ticks with no elapsed time -/

theorem rotationAngle_self (M : JsMath α) (t : α) : rotationAngle M t t = 0 := by
  simp [rotationAngle, deltat]

theorem rotateInPlace_zero (M : JsMath α) (hsin : M.sin 0 = 0) (hcos : M.cos 0 = 1)
    (a : Mat4 α) (axis : Vec3 α) : rotateInPlace M a 0 axis = a := by
  unfold rotateInPlace mat4_rotate
  by_cases h : M.hypot axis.x axis.y axis.z < EPSILON
  · simp [h]
  · simp only [h, if_false, Option.getD_some, hsin, hcos]
    ext <;> simp

theorem rotateInPlace_m13 (M : JsMath α) (a : Mat4 α) (rad : α) (axis : Vec3 α) :
    (rotateInPlace M a rad axis).m13 = a.m13 := by
  unfold rotateInPlace mat4_rotate
  by_cases h : M.hypot axis.x axis.y axis.z < EPSILON
  · simp [h]
  · simp [h]

/-! ### The octahedron's bobbing -/

theorem octaedroUpdate_flag_top (M : JsMath α) (axis : Vec3 α) (o : Octaedro α) (now : α)
    (h : o.translation.y = 12) : (octaedroUpdate M axis o now).flag = Flag.top := by
  simp [octaedroUpdate, h]

theorem octaedroUpdate_flag_bottom (M : JsMath α) (axis : Vec3 α) (o : Octaedro α) (now : α)
    (h : o.translation.y = -12) : (octaedroUpdate M axis o now).flag = Flag.bottom := by
  have hne : (-12 : α) ≠ 12 := by norm_num
  simp [octaedroUpdate, h, hne]

theorem octaedroUpdate_flag_keep (M : JsMath α) (axis : Vec3 α) (o : Octaedro α) (now : α)
    (h : o.translation.y ≠ 12) (h' : o.translation.y ≠ -12) :
    (octaedroUpdate M axis o now).flag = o.flag := by
  simp [octaedroUpdate, h, h']

theorem octaedroUpdate_y_bottom (M : JsMath α) (axis : Vec3 α) (o : Octaedro α) (now : α)
    (h : (octaedroUpdate M axis o now).flag = Flag.bottom) :
    (octaedroUpdate M axis o now).translation.y = o.translation.y + 1 / 2 := by
  have hy : (octaedroUpdate M axis o now).translation.y =
      match (octaedroUpdate M axis o now).flag with
      | Flag.bottom => o.translation.y + 1 / 2
      | Flag.top => o.translation.y - 1 / 2 := rfl
  rw [h] at hy
  exact hy

theorem octaedroUpdate_y_top (M : JsMath α) (axis : Vec3 α) (o : Octaedro α) (now : α)
    (h : (octaedroUpdate M axis o now).flag = Flag.top) :
    (octaedroUpdate M axis o now).translation.y = o.translation.y - 1 / 2 := by
  have hy : (octaedroUpdate M axis o now).translation.y =
      match (octaedroUpdate M axis o now).flag with
      | Flag.bottom => o.translation.y + 1 / 2
      | Flag.top => o.translation.y - 1 / 2 := rfl
  rw [h] at hy
  exact hy

theorem grid_step_up (y : α) (k : ℤ) (hk : y = (k : α) / 2) (hhi : y ≤ 12) (hne : y ≠ 12) :
    y + 1 / 2 ≤ 12 := by
  have h1 : (k : α) ≤ 24 := by rw [hk] at hhi; linarith
  have h2 : k ≤ 24 := by exact_mod_cast h1
  have h3 : k ≠ 24 := by
    rintro rfl
    apply hne
    rw [hk]
    norm_num
  have h4 : k ≤ 23 := by omega
  have h5 : (k : α) ≤ 23 := by exact_mod_cast h4
  rw [hk]
  linarith

theorem grid_step_down (y : α) (k : ℤ) (hk : y = (k : α) / 2) (hlo : -12 ≤ y)
    (hne : y ≠ -12) : -12 ≤ y - 1 / 2 := by
  have h1 : (-24 : α) ≤ (k : α) := by rw [hk] at hlo; linarith
  have h2 : -24 ≤ k := by exact_mod_cast h1
  have h3 : k ≠ -24 := by
    rintro rfl
    apply hne
    rw [hk]
    norm_num
  have h4 : -23 ≤ k := by omega
  have h5 : (-23 : α) ≤ (k : α) := by exact_mod_cast h4
  rw [hk]
  linarith

/-- The bobbing invariant: the position is a multiple of `0.5` inside
`[-12, 12]`. -/
theorem octaedroUpdate_bounds (M : JsMath α) (axis : Vec3 α) (o : Octaedro α) (now : α)
    (h : (∃ k : ℤ, o.translation.y = (k : α) / 2) ∧
      -12 ≤ o.translation.y ∧ o.translation.y ≤ 12) :
    (∃ k : ℤ, (octaedroUpdate M axis o now).translation.y = (k : α) / 2) ∧
    -12 ≤ (octaedroUpdate M axis o now).translation.y ∧
    (octaedroUpdate M axis o now).translation.y ≤ 12 := by
  obtain ⟨⟨k, hk⟩, hlo, hhi⟩ := h
  cases hf : (octaedroUpdate M axis o now).flag with
  | bottom =>
    rw [octaedroUpdate_y_bottom M axis o now hf]
    have h12 : o.translation.y ≠ 12 := by
      intro h12
      rw [octaedroUpdate_flag_top M axis o now h12] at hf
      exact Flag.noConfusion hf
    exact ⟨⟨k + 1, by rw [hk]; push_cast; ring⟩, by linarith, grid_step_up _ k hk hhi h12⟩
  | top =>
    rw [octaedroUpdate_y_top M axis o now hf]
    have h12 : o.translation.y ≠ -12 := by
      intro h12
      rw [octaedroUpdate_flag_bottom M axis o now h12] at hf
      exact Flag.noConfusion hf
    exact ⟨⟨k - 1, by rw [hk]; push_cast; ring⟩, grid_step_down _ k hk hlo h12, by linarith⟩

theorem octaedroRun_bounds (M : JsMath α) (axis : Vec3 α) (nows : List α) (o : Octaedro α)
    (h : (∃ k : ℤ, o.translation.y = (k : α) / 2) ∧
      -12 ≤ o.translation.y ∧ o.translation.y ≤ 12) :
    (∃ k : ℤ, (octaedroRun M axis o nows).translation.y = (k : α) / 2) ∧
    -12 ≤ (octaedroRun M axis o nows).translation.y ∧
    (octaedroRun M axis o nows).translation.y ≤ 12 := by
  induction nows generalizing o with
  | nil => exact h
  | cons now nows ih => exact ih _ (octaedroUpdate_bounds M axis o now h)

theorem octaedroUpdate_reversal (M : JsMath α) (axis : Vec3 α) (o : Octaedro α)
    (now now' : α) (hlo : -12 ≤ o.translation.y) (hhi : o.translation.y ≤ 12) :
    ((octaedroUpdate M axis (octaedroUpdate M axis o now) now').translation.y -
        (octaedroUpdate M axis o now).translation.y =
      -((octaedroUpdate M axis o now).translation.y - o.translation.y)) ↔
    ((octaedroUpdate M axis o now).translation.y = 12 ∨
      (octaedroUpdate M axis o now).translation.y = -12) := by
  have keep : (octaedroUpdate M axis (octaedroUpdate M axis o now) now').flag ≠
      (octaedroUpdate M axis o now).flag →
      ((octaedroUpdate M axis o now).translation.y = 12 ∨
        (octaedroUpdate M axis o now).translation.y = -12) := by
    intro hne
    by_contra hcon
    push_neg at hcon
    exact hne (octaedroUpdate_flag_keep M axis _ now' hcon.1 hcon.2)
  cases hf1 : (octaedroUpdate M axis o now).flag with
  | bottom =>
    have hy1 := octaedroUpdate_y_bottom M axis o now hf1
    cases hf2 : (octaedroUpdate M axis (octaedroUpdate M axis o now) now').flag with
    | bottom =>
      have hy2 := octaedroUpdate_y_bottom M axis _ now' hf2
      constructor
      · intro h; exfalso; rw [hy2, hy1] at h; linarith
      · rintro (h | h)
        · rw [octaedroUpdate_flag_top M axis _ now' h] at hf2
          exact Flag.noConfusion hf2
        · exfalso; rw [hy1] at h; linarith
    | top =>
      have hy2 := octaedroUpdate_y_top M axis _ now' hf2
      constructor
      · intro _
        exact keep (by rw [hf1, hf2]; exact fun h => Flag.noConfusion h)
      · intro _; rw [hy2, hy1]; ring
  | top =>
    have hy1 := octaedroUpdate_y_top M axis o now hf1
    cases hf2 : (octaedroUpdate M axis (octaedroUpdate M axis o now) now').flag with
    | bottom =>
      have hy2 := octaedroUpdate_y_bottom M axis _ now' hf2
      constructor
      · intro _
        exact keep (by rw [hf1, hf2]; exact fun h => Flag.noConfusion h)
      · intro _; rw [hy2, hy1]; ring
    | top =>
      have hy2 := octaedroUpdate_y_top M axis _ now' hf2
      constructor
      · intro h; exfalso; rw [hy2, hy1] at h; linarith
      · rintro (h | h)
        · exfalso; rw [hy1] at h; linarith
        · rw [octaedroUpdate_flag_bottom M axis _ now' h] at hf2
          exact Flag.noConfusion hf2

/-- C4, as stated, fails for a start inside `[-12, 12]` that is not a
multiple of the step: from `translation[1] = 11.75` the first tick moves
the position to `12.25 > 12`, and since it never equals `12` the direction
never reverses (`12.75` after the second tick). -/
theorem octaedro_bobbing_counterexample :
    (-12 : ℚ) ≤ 47 / 4 ∧ (47 / 4 : ℚ) ≤ 12 ∧
    (octaedroRun ratMath ⟨0, 1, 0⟩ (createOctaedro ⟨0, 47 / 4, 0⟩ 0) [16]).translation.y
      = 49 / 4 ∧
    (12 : ℚ) <
      (octaedroRun ratMath ⟨0, 1, 0⟩ (createOctaedro ⟨0, 47 / 4, 0⟩ 0) [16]).translation.y ∧
    (octaedroRun ratMath ⟨0, 1, 0⟩ (createOctaedro ⟨0, 47 / 4, 0⟩ 0) [16, 33]).translation.y
      = 51 / 4 := by
  norm_num [octaedroRun, octaedroUpdate, createOctaedro]

/-- C4 amended: for every initial `translation[1]` in `[-12, 12]` that is a
multiple of the step `0.5`, after any number of ticks of the octahedron's
`update` the position is still within `[-12, 12]`; every tick moves it by
`+0.5` or `-0.5`, and between two consecutive ticks the direction of travel
reverses exactly when the position at the start of the later tick equals
`+12` or `-12` (a triangle wave with `L = 12` and step `0.5`). -/
theorem octaedro_bobbing (M : JsMath α) (axis translation : Vec3 α) (t0 : α) (k : ℤ)
    (hgrid : translation.y = (k : α) / 2)
    (hlo : -12 ≤ translation.y) (hhi : translation.y ≤ 12)
    (nows : List α) (now now' : α) :
    -12 ≤ (octaedroRun M axis (createOctaedro translation t0) nows).translation.y ∧
    (octaedroRun M axis (createOctaedro translation t0) nows).translation.y ≤ 12 ∧
    ((octaedroUpdate M axis (octaedroRun M axis (createOctaedro translation t0) nows)
          now).translation.y -
        (octaedroRun M axis (createOctaedro translation t0) nows).translation.y = 1 / 2 ∨
      (octaedroUpdate M axis (octaedroRun M axis (createOctaedro translation t0) nows)
          now).translation.y -
        (octaedroRun M axis (createOctaedro translation t0) nows).translation.y = -(1 / 2)) ∧
    (((octaedroUpdate M axis
          (octaedroUpdate M axis (octaedroRun M axis (createOctaedro translation t0) nows) now)
          now').translation.y -
        (octaedroUpdate M axis (octaedroRun M axis (createOctaedro translation t0) nows)
          now).translation.y =
      -((octaedroUpdate M axis (octaedroRun M axis (createOctaedro translation t0) nows)
          now).translation.y -
        (octaedroRun M axis (createOctaedro translation t0) nows).translation.y)) ↔
    ((octaedroUpdate M axis (octaedroRun M axis (createOctaedro translation t0) nows)
        now).translation.y = 12 ∨
      (octaedroUpdate M axis (octaedroRun M axis (createOctaedro translation t0) nows)
        now).translation.y = -12)) := by
  have h0 : (∃ j : ℤ, (createOctaedro translation t0).translation.y = (j : α) / 2) ∧
      -12 ≤ (createOctaedro translation t0).translation.y ∧
      (createOctaedro translation t0).translation.y ≤ 12 := ⟨⟨k, hgrid⟩, hlo, hhi⟩
  obtain ⟨_, h1, h2⟩ := octaedroRun_bounds M axis nows _ h0
  refine ⟨h1, h2, ?_, octaedroUpdate_reversal M axis _ now now' h1 h2⟩
  cases hf : (octaedroUpdate M axis (octaedroRun M axis (createOctaedro translation t0) nows)
    now).flag with
  | bottom => left; rw [octaedroUpdate_y_bottom M axis _ now hf]; ring
  | top => right; rw [octaedroUpdate_y_top M axis _ now hf]; ring

/-- C4 amended, over the rationals from the start `translation[1] = 11.5`:
after three ticks (`12`, `11.5`, `11`) the position is within bounds. -/
theorem octaedro_bobbing_witness :
    (octaedroRun ratMath ⟨0, 1, 0⟩ (createOctaedro ⟨0, 23 / 2, 0⟩ 0)
      [16, 33, 50]).translation.y ≤ 12 :=
  (octaedro_bobbing ratMath ⟨0, 1, 0⟩ ⟨0, 23 / 2, 0⟩ 0 23 (by norm_num) (by norm_num)
    (by norm_num) [16, 33, 50] 66 83).2.1

/-- C5, as stated, fails for `createOctaedro`: with the real `Math`, a tick
at the very clock value stored in `currentTime` (elapsed `0`) moves
`modelViewMatrix[13]` of a fresh octahedron from `0` to `0.25`. -/
theorem octaedro_zero_elapsed_counterexample :
    (createOctaedro (⟨0, 0, 0⟩ : Vec3 ℝ) 0).modelViewMatrix.m13 = 0 ∧
    (octaedroUpdate
        ({ PI := Real.pi, sin := Real.sin, cos := Real.cos,
           hypot := fun x y z => Real.sqrt (x * x + y * y + z * z) } : JsMath ℝ)
        ⟨0, 1, 0⟩ (createOctaedro ⟨0, 0, 0⟩ 0)
        (createOctaedro (⟨0, 0, 0⟩ : Vec3 ℝ) 0).currentTime).modelViewMatrix.m13 = 1 / 4 ∧
    (octaedroUpdate
        ({ PI := Real.pi, sin := Real.sin, cos := Real.cos,
           hypot := fun x y z => Real.sqrt (x * x + y * y + z * z) } : JsMath ℝ)
        ⟨0, 1, 0⟩ (createOctaedro ⟨0, 0, 0⟩ 0)
        (createOctaedro (⟨0, 0, 0⟩ : Vec3 ℝ) 0).currentTime).modelViewMatrix ≠
      (createOctaedro (⟨0, 0, 0⟩ : Vec3 ℝ) 0).modelViewMatrix := by
  have h0 : (createOctaedro (⟨0, 0, 0⟩ : Vec3 ℝ) 0).modelViewMatrix.m13 = 0 := by
    simp [createOctaedro, mat4_translate, mat4_create]
  have h1 : (octaedroUpdate
        ({ PI := Real.pi, sin := Real.sin, cos := Real.cos,
           hypot := fun x y z => Real.sqrt (x * x + y * y + z * z) } : JsMath ℝ)
        ⟨0, 1, 0⟩ (createOctaedro ⟨0, 0, 0⟩ 0)
        (createOctaedro (⟨0, 0, 0⟩ : Vec3 ℝ) 0).currentTime).modelViewMatrix.m13 = 1 / 4 := by
    simp only [octaedroUpdate, rotateInPlace_m13]
    norm_num [createOctaedro, mat4_translate, mat4_create]
  refine ⟨h0, h1, fun heq => ?_⟩
  rw [heq, h0] at h1
  norm_num at h1

/-- C5 amended: for the objects built by `createCube`, `createPyramid`,
`createPyramidPentagon` and `createDodecaedro`, a tick with elapsed `0`
(`update` called when the clock equals `currentTime`) leaves the record, and
so its `modelViewMatrix`, unchanged, and any number of such ticks is
idempotent; for `createOctaedro` a tick with elapsed `0` applies no rotation
but still performs the bobbing step, which moves `modelViewMatrix[13]` by
`+0.25` or `-0.25`.  `Math.sin(0) = 0` and `Math.cos(0) = 1` are the facts
about `Math` used. -/
theorem zero_elapsed_tick (M : JsMath α) (hsin : M.sin 0 = 0) (hcos : M.cos 0 = 1)
    (axis axis1 : Vec3 α) (s : Shape α) (o : Octaedro α) (n : ℕ) :
    cubeUpdate M axis s s.currentTime = s ∧
    pyramidUpdate M axis s s.currentTime = s ∧
    phUpdate M axis s s.currentTime = s ∧
    dodecaedroUpdate M axis axis1 s s.currentTime = s ∧
    (fun t => cubeUpdate M axis t t.currentTime)^[n] s = s ∧
    (fun t => pyramidUpdate M axis t t.currentTime)^[n] s = s ∧
    (fun t => phUpdate M axis t t.currentTime)^[n] s = s ∧
    (fun t => dodecaedroUpdate M axis axis1 t t.currentTime)^[n] s = s ∧
    ((octaedroUpdate M axis o o.currentTime).modelViewMatrix =
        { o.modelViewMatrix with m13 := o.modelViewMatrix.m13 + 1 / 4 } ∨
      (octaedroUpdate M axis o o.currentTime).modelViewMatrix =
        { o.modelViewMatrix with m13 := o.modelViewMatrix.m13 - 1 / 4 }) := by
  have hc : ∀ t : Shape α, cubeUpdate M axis t t.currentTime = t := by
    intro t
    simp [cubeUpdate, rotationAngle_self, rotateInPlace_zero M hsin hcos]
  have hp : ∀ t : Shape α, pyramidUpdate M axis t t.currentTime = t := by
    intro t
    simp [pyramidUpdate, rotationAngle_self, rotateInPlace_zero M hsin hcos]
  have hh : ∀ t : Shape α, phUpdate M axis t t.currentTime = t := by
    intro t
    simp [phUpdate, rotationAngle_self, rotateInPlace_zero M hsin hcos]
  have hd : ∀ t : Shape α, dodecaedroUpdate M axis axis1 t t.currentTime = t := by
    intro t
    simp [dodecaedroUpdate, rotationAngle_self, rotateInPlace_zero M hsin hcos]
  refine ⟨hc s, hp s, hh s, hd s, Function.iterate_fixed (hc s) n,
    Function.iterate_fixed (hp s) n, Function.iterate_fixed (hh s) n,
    Function.iterate_fixed (hd s) n, ?_⟩
  simp only [octaedroUpdate, rotationAngle_self, rotateInPlace_zero M hsin hcos]
  by_cases h12 : o.translation.y = 12
  · right; simp [h12]
  · by_cases h12' : o.translation.y = -12
    · have hne : (-12 : α) ≠ 12 := by norm_num
      left; simp [h12', hne]
    · cases hf : o.flag
      · left; simp [h12, h12', hf]
      · right; simp [h12, h12', hf]

/-- C5 amended, with the real `Math`: a zero-elapsed tick leaves a fresh
cube as it is. -/
theorem zero_elapsed_tick_witness :
    cubeUpdate
        ({ PI := Real.pi, sin := Real.sin, cos := Real.cos,
           hypot := fun x y z => Real.sqrt (x * x + y * y + z * z) } : JsMath ℝ)
        ⟨0, 1, 0⟩ (createCube ⟨1, 2, 3⟩ 5) (createCube (⟨1, 2, 3⟩ : Vec3 ℝ) 5).currentTime =
      createCube ⟨1, 2, 3⟩ 5 :=
  (zero_elapsed_tick
    { PI := Real.pi, sin := Real.sin, cos := Real.cos,
      hypot := fun x y z => Real.sqrt (x * x + y * y + z * z) }
    Real.sin_zero Real.cos_zero ⟨0, 1, 0⟩ ⟨1, 0, 0⟩ (createCube ⟨1, 2, 3⟩ 5)
    (createOctaedro ⟨0, 0, 0⟩ 0) 1).1

/-! ### Elapsed time -/

theorem rotationAngle_deltat (M : JsMath α) (currentTime now : α) :
    rotationAngle M currentTime now = M.PI * 2 * (deltat currentTime now / duration) := rfl

theorem duration_pos : (0 : α) < duration := by
  norm_num [duration]

theorem rotateInPlace_real_y (a : Mat4 ℝ) (rad : ℝ) :
    rotateInPlace
      ({ PI := Real.pi, sin := Real.sin, cos := Real.cos,
         hypot := fun x y z => Real.sqrt (x * x + y * y + z * z) } : JsMath ℝ)
      a rad ⟨0, 1, 0⟩ =
      { a with
        m0 := a.m0 * Real.cos rad - a.m8 * Real.sin rad
        m1 := a.m1 * Real.cos rad - a.m9 * Real.sin rad
        m2 := a.m2 * Real.cos rad - a.m10 * Real.sin rad
        m3 := a.m3 * Real.cos rad - a.m11 * Real.sin rad
        m8 := a.m0 * Real.sin rad + a.m8 * Real.cos rad
        m9 := a.m1 * Real.sin rad + a.m9 * Real.cos rad
        m10 := a.m2 * Real.sin rad + a.m10 * Real.cos rad
        m11 := a.m3 * Real.sin rad + a.m11 * Real.cos rad } := by
  have h : ¬ ((1 : ℝ) < EPSILON) := by norm_num [EPSILON]
  simp only [rotateInPlace, mat4_rotate, mul_zero, zero_mul, mul_one, add_zero, zero_add,
    Real.sqrt_one, h, if_false, Option.getD_some]
  ext <;> simp <;> ring

theorem cubeUpdate_quarter_back :
    (cubeUpdate
        ({ PI := Real.pi, sin := Real.sin, cos := Real.cos,
           hypot := fun x y z => Real.sqrt (x * x + y * y + z * z) } : JsMath ℝ)
        ⟨0, 1, 0⟩ (createCube ⟨0, 0, 0⟩ 2500) 0).modelViewMatrix =
      rotateInPlace
        ({ PI := Real.pi, sin := Real.sin, cos := Real.cos,
           hypot := fun x y z => Real.sqrt (x * x + y * y + z * z) } : JsMath ℝ)
        (createCube ⟨0, 0, 0⟩ 2500).modelViewMatrix (-(Real.pi / 2)) ⟨0, 1, 0⟩ := by
  have hangle : rotationAngle
        ({ PI := Real.pi, sin := Real.sin, cos := Real.cos,
           hypot := fun x y z => Real.sqrt (x * x + y * y + z * z) } : JsMath ℝ)
        2500 0 = -(Real.pi / 2) := by
    simp only [rotationAngle, deltat, duration]; ring
  show rotateInPlace _ _ (rotationAngle _ 2500 0) _ = _
  rw [hangle]

/-- C14, as stated, fails: with the real `Math`, a cube whose last tick was
at `currentTime = 2500` and whose `update` reads the clock at `0` is rotated
by `-π/2` about its axis (elements 0 and 2 of the identity matrix become `0`
and `1`); a rotation by the angle of the clamped elapsed time
`max(0, 0 - 2500) = 0` would have left the matrix as it was. -/
theorem negative_elapsed_counterexample :
    (0 : ℝ) < (createCube (⟨0, 0, 0⟩ : Vec3 ℝ) 2500).currentTime ∧
    (cubeUpdate
        ({ PI := Real.pi, sin := Real.sin, cos := Real.cos,
           hypot := fun x y z => Real.sqrt (x * x + y * y + z * z) } : JsMath ℝ)
        ⟨0, 1, 0⟩ (createCube ⟨0, 0, 0⟩ 2500) 0).modelViewMatrix =
      rotateInPlace
        ({ PI := Real.pi, sin := Real.sin, cos := Real.cos,
           hypot := fun x y z => Real.sqrt (x * x + y * y + z * z) } : JsMath ℝ)
        (createCube ⟨0, 0, 0⟩ 2500).modelViewMatrix (-(Real.pi / 2)) ⟨0, 1, 0⟩ ∧
    (cubeUpdate
        ({ PI := Real.pi, sin := Real.sin, cos := Real.cos,
           hypot := fun x y z => Real.sqrt (x * x + y * y + z * z) } : JsMath ℝ)
        ⟨0, 1, 0⟩ (createCube ⟨0, 0, 0⟩ 2500) 0).modelViewMatrix.m0 = 0 ∧
    (cubeUpdate
        ({ PI := Real.pi, sin := Real.sin, cos := Real.cos,
           hypot := fun x y z => Real.sqrt (x * x + y * y + z * z) } : JsMath ℝ)
        ⟨0, 1, 0⟩ (createCube ⟨0, 0, 0⟩ 2500) 0).modelViewMatrix.m2 = 1 ∧
    rotateInPlace
        ({ PI := Real.pi, sin := Real.sin, cos := Real.cos,
           hypot := fun x y z => Real.sqrt (x * x + y * y + z * z) } : JsMath ℝ)
        (createCube ⟨0, 0, 0⟩ 2500).modelViewMatrix
        (Real.pi * 2 * (max 0 (0 - 2500) / duration)) ⟨0, 1, 0⟩ =
      (createCube ⟨0, 0, 0⟩ 2500).modelViewMatrix ∧
    (cubeUpdate
        ({ PI := Real.pi, sin := Real.sin, cos := Real.cos,
           hypot := fun x y z => Real.sqrt (x * x + y * y + z * z) } : JsMath ℝ)
        ⟨0, 1, 0⟩ (createCube ⟨0, 0, 0⟩ 2500) 0).modelViewMatrix ≠
      rotateInPlace
        ({ PI := Real.pi, sin := Real.sin, cos := Real.cos,
           hypot := fun x y z => Real.sqrt (x * x + y * y + z * z) } : JsMath ℝ)
        (createCube ⟨0, 0, 0⟩ 2500).modelViewMatrix
        (Real.pi * 2 * (max 0 (0 - 2500) / duration)) ⟨0, 1, 0⟩ := by
  have hclamp : Real.pi * 2 * (max 0 ((0 : ℝ) - 2500) / duration) = 0 := by
    rw [max_eq_left (by norm_num)]; simp
  have hm0 : (cubeUpdate
        ({ PI := Real.pi, sin := Real.sin, cos := Real.cos,
           hypot := fun x y z => Real.sqrt (x * x + y * y + z * z) } : JsMath ℝ)
        ⟨0, 1, 0⟩ (createCube ⟨0, 0, 0⟩ 2500) 0).modelViewMatrix.m0 = 0 := by
    rw [cubeUpdate_quarter_back, rotateInPlace_real_y]
    simp [createCube, mat4_translate, mat4_create]
  have hm2 : (cubeUpdate
        ({ PI := Real.pi, sin := Real.sin, cos := Real.cos,
           hypot := fun x y z => Real.sqrt (x * x + y * y + z * z) } : JsMath ℝ)
        ⟨0, 1, 0⟩ (createCube ⟨0, 0, 0⟩ 2500) 0).modelViewMatrix.m2 = 1 := by
    rw [cubeUpdate_quarter_back, rotateInPlace_real_y]
    simp [createCube, mat4_translate, mat4_create]
  have hsame : rotateInPlace
        ({ PI := Real.pi, sin := Real.sin, cos := Real.cos,
           hypot := fun x y z => Real.sqrt (x * x + y * y + z * z) } : JsMath ℝ)
        (createCube ⟨0, 0, 0⟩ 2500).modelViewMatrix
        (Real.pi * 2 * (max 0 (0 - 2500) / duration)) ⟨0, 1, 0⟩ =
      (createCube ⟨0, 0, 0⟩ 2500).modelViewMatrix := by
    rw [hclamp]
    exact rotateInPlace_zero _ Real.sin_zero Real.cos_zero _ _
  refine ⟨by norm_num [createCube], cubeUpdate_quarter_back, hm0, hm2, hsame, ?_⟩
  intro heq
  rw [hsame] at heq
  have h0 := congrArg Mat4.m0 heq
  rw [hm0] at h0
  norm_num [createCube, mat4_translate, mat4_create] at h0

/-- C14 amended: every shape's `update` rotates its `modelViewMatrix` by the
angle `2π · (now - currentTime) / duration` computed from the elapsed time
`now - currentTime`, with no clamping (the dodecahedron twice, the octahedron
after its bobbing step has changed element 13).  When the clock reads
earlier than the last tick (`now < currentTime`) the elapsed time is
negative, differs from `max(0, now - currentTime)`, and the angle applied is
negative (a rotation backwards); the elapsed time equals
`max(0, now - currentTime)` exactly for the readings with
`currentTime ≤ now`. -/
theorem negative_elapsed_not_clamped (M : JsMath α) (axis axis1 : Vec3 α) (s : Shape α)
    (o : Octaedro α) (now : α) (hpi : 0 < M.PI) (h : now < s.currentTime)
    (ho : now < o.currentTime) :
    ((cubeUpdate M axis s now).modelViewMatrix =
        rotateInPlace M s.modelViewMatrix
          (M.PI * 2 * ((now - s.currentTime) / duration)) axis ∧
      (pyramidUpdate M axis s now).modelViewMatrix =
        rotateInPlace M s.modelViewMatrix
          (M.PI * 2 * ((now - s.currentTime) / duration)) axis ∧
      (phUpdate M axis s now).modelViewMatrix =
        rotateInPlace M s.modelViewMatrix
          (M.PI * 2 * ((now - s.currentTime) / duration)) axis ∧
      (dodecaedroUpdate M axis axis1 s now).modelViewMatrix =
        rotateInPlace M
          (rotateInPlace M s.modelViewMatrix
            (M.PI * 2 * ((now - s.currentTime) / duration)) axis)
          (M.PI * 2 * ((now - s.currentTime) / duration)) axis1 ∧
      ∃ m13 : α, (octaedroUpdate M axis o now).modelViewMatrix =
        rotateInPlace M { o.modelViewMatrix with m13 := m13 }
          (M.PI * 2 * ((now - o.currentTime) / duration)) axis) ∧
    (M.PI * 2 * ((now - s.currentTime) / duration) < 0 ∧
      M.PI * 2 * ((now - o.currentTime) / duration) < 0) ∧
    (elapsedValues Shape.currentTime (cubeUpdate M axis) s [now] = [now - s.currentTime] ∧
      elapsedValues Shape.currentTime (pyramidUpdate M axis) s [now] = [now - s.currentTime] ∧
      elapsedValues Shape.currentTime (phUpdate M axis) s [now] = [now - s.currentTime] ∧
      elapsedValues Shape.currentTime (dodecaedroUpdate M axis axis1) s [now] =
        [now - s.currentTime] ∧
      elapsedValues Octaedro.currentTime (octaedroUpdate M axis) o [now] =
        [now - o.currentTime]) ∧
    deltat s.currentTime now = now - s.currentTime ∧
    deltat s.currentTime now < 0 ∧
    deltat s.currentTime now ≠ max 0 (now - s.currentTime) ∧
    rotationAngle M s.currentTime now = M.PI * 2 * ((now - s.currentTime) / duration) ∧
    rotationAngle M s.currentTime now < 0 ∧
    (∀ t : α, deltat s.currentTime t = max 0 (t - s.currentTime) ↔ s.currentTime ≤ t) := by
  have hneg : now - s.currentTime < 0 := by linarith
  have hnego : now - o.currentTime < 0 := by linarith
  have hd : (0 : α) < duration := duration_pos
  have h2 : (0 : α) < M.PI * 2 := by linarith
  have hang : M.PI * 2 * ((now - s.currentTime) / duration) < 0 :=
    mul_neg_of_pos_of_neg h2 (div_neg_of_neg_of_pos hneg hd)
  have hango : M.PI * 2 * ((now - o.currentTime) / duration) < 0 :=
    mul_neg_of_pos_of_neg h2 (div_neg_of_neg_of_pos hnego hd)
  refine ⟨⟨rfl, rfl, rfl, rfl,
      ⟨(match (octaedroUpdate M axis o now).flag with
        | Flag.bottom => o.modelViewMatrix.m13 + 1 / 4
        | Flag.top => o.modelViewMatrix.m13 - 1 / 4), rfl⟩⟩,
    ⟨hang, hango⟩, ⟨rfl, rfl, rfl, rfl, rfl⟩, rfl, hneg, ?_, rfl, hang, fun t => ?_⟩
  · intro heq
    have h0 : (0 : α) ≤ max 0 (now - s.currentTime) := le_max_left _ _
    rw [← heq] at h0
    exact absurd hneg (not_lt.mpr h0)
  · unfold deltat
    constructor
    · intro heq
      have h0 : (0 : α) ≤ max 0 (t - s.currentTime) := le_max_left _ _
      rw [← heq] at h0
      linarith
    · intro hle
      rw [max_eq_right (by linarith)]

/-- C14 amended, with the real `Math` at the cube of the counterexample: the
cube is rotated by `2π · (0 - 2500) / 10000`, a negative angle. -/
theorem negative_elapsed_not_clamped_witness :
    (cubeUpdate
        ({ PI := Real.pi, sin := Real.sin, cos := Real.cos,
           hypot := fun x y z => Real.sqrt (x * x + y * y + z * z) } : JsMath ℝ)
        ⟨0, 1, 0⟩ (createCube ⟨0, 0, 0⟩ 2500) 0).modelViewMatrix =
      rotateInPlace
        ({ PI := Real.pi, sin := Real.sin, cos := Real.cos,
           hypot := fun x y z => Real.sqrt (x * x + y * y + z * z) } : JsMath ℝ)
        (createCube ⟨0, 0, 0⟩ 2500).modelViewMatrix
        (Real.pi * 2 * ((0 - 2500) / duration)) ⟨0, 1, 0⟩ ∧
    Real.pi * 2 * (((0 : ℝ) - 2500) / duration) < 0 :=
  ⟨(negative_elapsed_not_clamped
      ({ PI := Real.pi, sin := Real.sin, cos := Real.cos,
           hypot := fun x y z => Real.sqrt (x * x + y * y + z * z) } : JsMath ℝ)
      ⟨0, 1, 0⟩ ⟨1, 0, 0⟩ (createCube ⟨0, 0, 0⟩ 2500) (createOctaedro ⟨0, 0, 0⟩ 2500) 0
      Real.pi_pos (by norm_num [createCube]) (by norm_num [createOctaedro])).1.1,
   (negative_elapsed_not_clamped
      ({ PI := Real.pi, sin := Real.sin, cos := Real.cos,
           hypot := fun x y z => Real.sqrt (x * x + y * y + z * z) } : JsMath ℝ)
      ⟨0, 1, 0⟩ ⟨1, 0, 0⟩ (createCube ⟨0, 0, 0⟩ 2500) (createOctaedro ⟨0, 0, 0⟩ 2500) 0
      Real.pi_pos (by norm_num [createCube]) (by norm_num [createOctaedro])).2.1.1⟩

theorem elapsedValues_eq {σ : Type} (currentTime : σ → α) (update : σ → α → σ)
    (hstore : ∀ s now, currentTime (update s now) = now) (shape : σ) (nows : List α) :
    elapsedValues currentTime update shape nows =
      List.zipWith (fun previous now => now - previous) (currentTime shape :: nows) nows := by
  induction nows generalizing shape with
  | nil => rfl
  | cons now rest ih =>
    simp only [elapsedValues, List.zipWith_cons_cons, deltat]
    rw [ih (update shape now), hstore]

theorem elapsedValues_sum {σ : Type} (currentTime : σ → α) (update : σ → α → σ)
    (hstore : ∀ s now, currentTime (update s now) = now) (shape : σ) (nows : List α) :
    (elapsedValues currentTime update shape nows).sum =
      nows.getLast?.getD (currentTime shape) - currentTime shape := by
  induction nows generalizing shape with
  | nil => simp [elapsedValues]
  | cons now rest ih =>
    simp only [elapsedValues, List.sum_cons, deltat]
    rw [ih (update shape now), hstore]
    cases rest with
    | nil => simp
    | cons b rest' =>
      simp only [List.getLast?_cons_cons]
      have hb : (b :: rest').getLast? = some ((b :: rest').getLast (List.cons_ne_nil _ _)) :=
        List.getLast?_eq_getLast _ _
      rw [hb]
      simp only [Option.getD_some]
      ring

/-- C15: every shape is created with `currentTime` equal to the clock at
creation, every `update` stores the clock value it read into `currentTime`,
and so for creation at `t0` and ticks at `t1, ..., tn` the elapsed values
are `t_i - t_(i-1)` (the first tick gets `t1 - t0`) and sum to `tn - t0`. -/
theorem elapsed_since_previous_tick (M : JsMath α) (axis axis1 translation : Vec3 α)
    (t0 now : α) (s : Shape α) (o : Octaedro α) (nows : List α) :
    ((createCube translation t0).currentTime = t0 ∧
      (createPyramid translation t0).currentTime = t0 ∧
      (createPyramidPentagon translation t0).currentTime = t0 ∧
      (createOctaedro translation t0).currentTime = t0 ∧
      (createDodecaedro translation t0).currentTime = t0) ∧
    ((cubeUpdate M axis s now).currentTime = now ∧
      (pyramidUpdate M axis s now).currentTime = now ∧
      (phUpdate M axis s now).currentTime = now ∧
      (octaedroUpdate M axis o now).currentTime = now ∧
      (dodecaedroUpdate M axis axis1 s now).currentTime = now) ∧
    (elapsedValues Shape.currentTime (cubeUpdate M axis) (createCube translation t0) nows =
        List.zipWith (fun previous now => now - previous) (t0 :: nows) nows ∧
      elapsedValues Shape.currentTime (pyramidUpdate M axis)
          (createPyramid translation t0) nows =
        List.zipWith (fun previous now => now - previous) (t0 :: nows) nows ∧
      elapsedValues Shape.currentTime (phUpdate M axis)
          (createPyramidPentagon translation t0) nows =
        List.zipWith (fun previous now => now - previous) (t0 :: nows) nows ∧
      elapsedValues Octaedro.currentTime (octaedroUpdate M axis)
          (createOctaedro translation t0) nows =
        List.zipWith (fun previous now => now - previous) (t0 :: nows) nows ∧
      elapsedValues Shape.currentTime (dodecaedroUpdate M axis axis1)
          (createDodecaedro translation t0) nows =
        List.zipWith (fun previous now => now - previous) (t0 :: nows) nows) ∧
    ((elapsedValues Shape.currentTime (cubeUpdate M axis)
          (createCube translation t0) nows).sum = nows.getLast?.getD t0 - t0 ∧
      (elapsedValues Shape.currentTime (pyramidUpdate M axis)
          (createPyramid translation t0) nows).sum = nows.getLast?.getD t0 - t0 ∧
      (elapsedValues Shape.currentTime (phUpdate M axis)
          (createPyramidPentagon translation t0) nows).sum = nows.getLast?.getD t0 - t0 ∧
      (elapsedValues Octaedro.currentTime (octaedroUpdate M axis)
          (createOctaedro translation t0) nows).sum = nows.getLast?.getD t0 - t0 ∧
      (elapsedValues Shape.currentTime (dodecaedroUpdate M axis axis1)
          (createDodecaedro translation t0) nows).sum = nows.getLast?.getD t0 - t0) := by
  refine ⟨⟨rfl, rfl, rfl, rfl, rfl⟩, ⟨rfl, rfl, rfl, rfl, rfl⟩, ⟨?_, ?_, ?_, ?_, ?_⟩,
    ⟨?_, ?_, ?_, ?_, ?_⟩⟩
  · exact elapsedValues_eq _ _ (fun _ _ => rfl) _ nows
  · exact elapsedValues_eq _ _ (fun _ _ => rfl) _ nows
  · exact elapsedValues_eq _ _ (fun _ _ => rfl) _ nows
  · exact elapsedValues_eq _ _ (fun _ _ => rfl) _ nows
  · exact elapsedValues_eq _ _ (fun _ _ => rfl) _ nows
  · exact elapsedValues_sum _ _ (fun _ _ => rfl) _ nows
  · exact elapsedValues_sum _ _ (fun _ _ => rfl) _ nows
  · exact elapsedValues_sum _ _ (fun _ _ => rfl) _ nows
  · exact elapsedValues_sum _ _ (fun _ _ => rfl) _ nows
  · exact elapsedValues_sum _ _ (fun _ _ => rfl) _ nows

/-! ### The ratio between the bobbing position and the matrix offset -/

theorem octaedroUpdate_m13_bottom (M : JsMath α) (axis : Vec3 α) (o : Octaedro α) (now : α)
    (h : (octaedroUpdate M axis o now).flag = Flag.bottom) :
    (octaedroUpdate M axis o now).modelViewMatrix.m13 = o.modelViewMatrix.m13 + 1 / 4 := by
  have hm : (octaedroUpdate M axis o now).modelViewMatrix.m13 =
      match (octaedroUpdate M axis o now).flag with
      | Flag.bottom => o.modelViewMatrix.m13 + 1 / 4
      | Flag.top => o.modelViewMatrix.m13 - 1 / 4 := by
    simp only [octaedroUpdate, rotateInPlace_m13]
  rw [h] at hm
  exact hm

theorem octaedroUpdate_m13_top (M : JsMath α) (axis : Vec3 α) (o : Octaedro α) (now : α)
    (h : (octaedroUpdate M axis o now).flag = Flag.top) :
    (octaedroUpdate M axis o now).modelViewMatrix.m13 = o.modelViewMatrix.m13 - 1 / 4 := by
  have hm : (octaedroUpdate M axis o now).modelViewMatrix.m13 =
      match (octaedroUpdate M axis o now).flag with
      | Flag.bottom => o.modelViewMatrix.m13 + 1 / 4
      | Flag.top => o.modelViewMatrix.m13 - 1 / 4 := by
    simp only [octaedroUpdate, rotateInPlace_m13]
  rw [h] at hm
  exact hm

theorem octaedroUpdate_ratio (M : JsMath α) (axis : Vec3 α) (o : Octaedro α) (now : α) :
    ((octaedroUpdate M axis o now).translation.y - o.translation.y = 1 / 2 ∧
      (octaedroUpdate M axis o now).modelViewMatrix.m13 - o.modelViewMatrix.m13 = 1 / 4) ∨
    ((octaedroUpdate M axis o now).translation.y - o.translation.y = -(1 / 2) ∧
      (octaedroUpdate M axis o now).modelViewMatrix.m13 - o.modelViewMatrix.m13 = -(1 / 4)) := by
  cases hf : (octaedroUpdate M axis o now).flag with
  | bottom =>
    left
    rw [octaedroUpdate_y_bottom M axis o now hf, octaedroUpdate_m13_bottom M axis o now hf]
    exact ⟨by ring, by ring⟩
  | top =>
    right
    rw [octaedroUpdate_y_top M axis o now hf, octaedroUpdate_m13_top M axis o now hf]
    exact ⟨by ring, by ring⟩

theorem octaedroRun_ratio (M : JsMath α) (axis : Vec3 α) (nows : List α) (o : Octaedro α) :
    (octaedroRun M axis o nows).modelViewMatrix.m13 - o.modelViewMatrix.m13 =
      1 / 2 * ((octaedroRun M axis o nows).translation.y - o.translation.y) := by
  induction nows generalizing o with
  | nil => simp [octaedroRun]
  | cons now nows ih =>
    have h1 := ih (octaedroUpdate M axis o now)
    have h2 : octaedroRun M axis o (now :: nows) =
        octaedroRun M axis (octaedroUpdate M axis o now) nows := rfl
    rw [h2]
    rcases octaedroUpdate_ratio M axis o now with ⟨hy, hm⟩ | ⟨hy, hm⟩
    · linear_combination h1 + hm - (1 / 2 : α) * hy
    · linear_combination h1 + hm - (1 / 2 : α) * hy

/-! ### Rounding of the stored numbers -/

theorem toDouble_half (z : ℤ) (h : |z| < 2 ^ 53) : toDouble ((z : ℚ) / 2) = (z : ℚ) / 2 := by
  have e : (z : ℚ) / 2 = (z : ℚ) * (2 : ℚ) ^ (-1 : ℤ) := by
    rw [zpow_neg_one]; ring
  rw [e]
  exact roundBinary_exact 53 (-1022) z (-1) h (by norm_num)

theorem toDouble_quarter (z : ℤ) (h : |z| < 2 ^ 53) :
    toDouble ((z : ℚ) / 4) = (z : ℚ) / 4 := by
  have e : (z : ℚ) / 4 = (z : ℚ) * (2 : ℚ) ^ (-2 : ℤ) := by
    norm_num [zpow_neg]; ring
  rw [e]
  exact roundBinary_exact 53 (-1022) z (-2) h (by norm_num)

theorem fround_quarter (z : ℤ) (h : |z| < 2 ^ 24) : fround ((z : ℚ) / 4) = (z : ℚ) / 4 := by
  have e : (z : ℚ) / 4 = (z : ℚ) * (2 : ℚ) ^ (-2 : ℤ) := by
    norm_num [zpow_neg]; ring
  rw [e]
  exact roundBinary_exact 24 (-126) z (-2) h (by norm_num)

/-- The number `13421773 / 2 ^ 27` is a float: the one nearest to `0.1`. -/
theorem fround_tenth : fround ((13421773 : ℚ) / 134217728) = 13421773 / 134217728 := by
  have e : ((13421773 : ℚ) / 134217728) = ((13421773 : ℤ) : ℚ) * (2 : ℚ) ^ (-27 : ℤ) := by
    norm_num [zpow_neg]
  rw [e]
  exact roundBinary_exact 24 (-126) 13421773 (-27) (by norm_num) (by norm_num)

/-- Storing `float(0.1) + 0.25` into a `Float32Array` keeps
`11744051 / 2 ^ 25`: the sum `46976205 / 2 ^ 27` needs 26 bits. -/
theorem store_tenth_plus_quarter :
    fround (toDouble ((13421773 : ℚ) / 134217728 + 1 / 4)) = 11744051 / 33554432 := by
  have e : ((13421773 : ℚ) / 134217728 + 1 / 4) =
      ((46976205 : ℤ) : ℚ) * (2 : ℚ) ^ (-27 : ℤ) := by
    norm_num [zpow_neg]
  have hd : toDouble ((13421773 : ℚ) / 134217728 + 1 / 4) = 46976205 / 134217728 := by
    rw [e]
    refine (roundBinary_exact 53 (-1022) 46976205 (-27) (by norm_num) (by norm_num)).trans ?_
    norm_num [zpow_neg]
  rw [hd]
  have h := roundBinary_of_near 24 (-126) (46976205 / 134217728) (-2) 11744051
    (by norm_num [zpow_neg, abs_of_pos]) (by norm_num [zpow_neg, abs_of_pos])
    (by norm_num [zpow_neg, abs_lt])
  refine h.trans ?_
  norm_num [zpow_neg]

/-- The literal `0.1` denotes the double `3602879701896397 / 2 ^ 55`. -/
theorem toDouble_tenth : toDouble (1 / 10) = 3602879701896397 / 36028797018963968 := by
  have h := roundBinary_of_near 53 (-1022) (1 / 10) (-4) 7205759403792794
    (by norm_num [zpow_neg, le_abs]) (by norm_num [zpow_neg, abs_lt])
    (by norm_num [zpow_neg, abs_lt])
  refine h.trans ?_
  norm_num [zpow_neg]

/-- The float nearest to the double `0.1` is `13421773 / 2 ^ 27`. -/
theorem fround_double_tenth :
    fround (3602879701896397 / 36028797018963968) = 13421773 / 134217728 := by
  have h := roundBinary_of_near 24 (-126) (3602879701896397 / 36028797018963968) (-4) 13421773
    (by norm_num [zpow_neg, le_abs]) (by norm_num [zpow_neg, abs_lt])
    (by norm_num [zpow_neg, abs_lt])
  refine h.trans ?_
  norm_num [zpow_neg]

/-- In doubles `0.1 + 0.5` is `5404319552844595 / 2 ^ 53`. -/
theorem toDouble_tenth_plus_half :
    toDouble (3602879701896397 / 36028797018963968 + 1 / 2) =
      5404319552844595 / 9007199254740992 := by
  have h := roundBinary_of_near 53 (-1022) (3602879701896397 / 36028797018963968 + 1 / 2)
    (-1) 5404319552844595
    (by norm_num [zpow_neg, le_abs]) (by norm_num [zpow_neg, abs_lt])
    (by norm_num [zpow_neg, abs_lt])
  refine h.trans ?_
  norm_num [zpow_neg]

theorem fround_two_pow_22 : fround 4194304 = 4194304 := by
  have h := roundBinary_exact 24 (-126) 4194304 0 (by norm_num) (by norm_num)
  simpa [fround] using h

theorem toDouble_two_pow_22_plus_half :
    toDouble ((4194304 : ℚ) + 1 / 2) = 4194304 + 1 / 2 := by
  have e : ((4194304 : ℚ) + 1 / 2) = ((8388609 : ℤ) : ℚ) * (2 : ℚ) ^ (-1 : ℤ) := by
    norm_num [zpow_neg]
  rw [e]
  exact roundBinary_exact 53 (-1022) 8388609 (-1) (by norm_num) (by norm_num)

/-- Storing `4194304 + 0.25` into a `Float32Array` keeps `4194304`: floats
of that size are `0.5` apart and the tie goes to the even neighbour. -/
theorem store_two_pow_22 : fround (toDouble ((4194304 : ℚ) + 1 / 4)) = 4194304 := by
  have e : ((4194304 : ℚ) + 1 / 4) = ((16777217 : ℤ) : ℚ) * (2 : ℚ) ^ (-2 : ℤ) := by
    norm_num [zpow_neg]
  have hd : toDouble ((4194304 : ℚ) + 1 / 4) = 16777217 / 4 := by
    rw [e]
    refine (roundBinary_exact 53 (-1022) 16777217 (-2) (by norm_num) (by norm_num)).trans ?_
    norm_num [zpow_neg]
  rw [hd]
  have h := roundBinary_of_tie 24 (-126) (16777217 / 4) 22 8388608
    (by norm_num [le_abs]) (by norm_num [abs_lt]) (by norm_num [zpow_neg])
  refine h.trans ?_
  norm_num [zpow_neg]

/-! ### The bobbing step on the stored numbers -/

theorem octaedroBobbing_flag (b : Bobbing) :
    (octaedroBobbing b).flag =
      if b.translation1 = 12 then Flag.top
      else if b.translation1 = -12 then Flag.bottom
      else b.flag := rfl

theorem octaedroBobbing_bottom (b : Bobbing) (h : (octaedroBobbing b).flag = Flag.bottom) :
    (octaedroBobbing b).translation1 = toDouble (b.translation1 + 1 / 2) ∧
    (octaedroBobbing b).m13 = fround (toDouble (b.m13 + 1 / 4)) := by
  rw [octaedroBobbing_flag] at h
  simp only [octaedroBobbing, h, and_self]

theorem octaedroBobbing_top (b : Bobbing) (h : (octaedroBobbing b).flag = Flag.top) :
    (octaedroBobbing b).translation1 = toDouble (b.translation1 - 1 / 2) ∧
    (octaedroBobbing b).m13 = fround (toDouble (b.m13 - 1 / 4)) := by
  rw [octaedroBobbing_flag] at h
  simp only [octaedroBobbing, h, and_self]

/-- On the grid the stores are exact: the stored numbers move by `0.5` and
`0.25` in the direction of the flag. -/
theorem octaedroBobbing_grid (b : Bobbing) (j k : ℤ) (hy : b.translation1 = (j : ℚ) / 2)
    (hm : b.m13 = (k : ℚ) / 4) (hj : |j| + 1 < 2 ^ 53) (hk : |k| + 1 < 2 ^ 24) :
    ((octaedroBobbing b).flag = Flag.bottom →
      (octaedroBobbing b).translation1 = b.translation1 + 1 / 2 ∧
      (octaedroBobbing b).m13 = b.m13 + 1 / 4) ∧
    ((octaedroBobbing b).flag = Flag.top →
      (octaedroBobbing b).translation1 = b.translation1 - 1 / 2 ∧
      (octaedroBobbing b).m13 = b.m13 - 1 / 4) := by
  have hj1 : |j + 1| ≤ |j| + 1 := (abs_add j 1).trans (by simp)
  have hj2 : |j + -1| ≤ |j| + 1 := (abs_add j (-1)).trans (by simp)
  have hk1 : |k + 1| ≤ |k| + 1 := (abs_add k 1).trans (by simp)
  have hk2 : |k + -1| ≤ |k| + 1 := (abs_add k (-1)).trans (by simp)
  have hk53 : (2 : ℤ) ^ 24 < 2 ^ 53 := by norm_num
  constructor
  · intro hf
    obtain ⟨g1, g2⟩ := octaedroBobbing_bottom b hf
    constructor
    · rw [g1, hy, show (j : ℚ) / 2 + 1 / 2 = ((j + 1 : ℤ) : ℚ) / 2 by push_cast; ring]
      exact toDouble_half _ (by omega)
    · rw [g2, hm, show (k : ℚ) / 4 + 1 / 4 = ((k + 1 : ℤ) : ℚ) / 4 by push_cast; ring,
        toDouble_quarter _ (by omega)]
      exact fround_quarter _ (by omega)
  · intro hf
    obtain ⟨g1, g2⟩ := octaedroBobbing_top b hf
    constructor
    · rw [g1, hy, show (j : ℚ) / 2 - 1 / 2 = ((j + -1 : ℤ) : ℚ) / 2 by push_cast; ring]
      exact toDouble_half _ (by omega)
    · rw [g2, hm, show (k : ℚ) / 4 - 1 / 4 = ((k + -1 : ℤ) : ℚ) / 4 by push_cast; ring,
        toDouble_quarter _ (by omega)]
      exact fround_quarter _ (by omega)

theorem octaedroBobbing_step (b : Bobbing) (j k : ℤ) (hy : b.translation1 = (j : ℚ) / 2)
    (hm : b.m13 = (k : ℚ) / 4) (hj : |j| + 1 < 2 ^ 53) (hk : |k| + 1 < 2 ^ 24) :
    ∃ d : ℤ, (d = 1 ∨ d = -1) ∧
      (octaedroBobbing b).translation1 = ((j + d : ℤ) : ℚ) / 2 ∧
      (octaedroBobbing b).m13 = ((k + d : ℤ) : ℚ) / 4 := by
  obtain ⟨hb, ht⟩ := octaedroBobbing_grid b j k hy hm hj hk
  cases hf : (octaedroBobbing b).flag with
  | bottom =>
    obtain ⟨g1, g2⟩ := hb hf
    exact ⟨1, Or.inl rfl, by rw [g1, hy]; push_cast; ring, by rw [g2, hm]; push_cast; ring⟩
  | top =>
    obtain ⟨g1, g2⟩ := ht hf
    exact ⟨-1, Or.inr rfl, by rw [g1, hy]; push_cast; ring, by rw [g2, hm]; push_cast; ring⟩

theorem octaedroBobbing_iterate (b : Bobbing) (j k : ℤ) (n : ℕ)
    (hy : b.translation1 = (j : ℚ) / 2) (hm : b.m13 = (k : ℚ) / 4)
    (hj : |j| + n < 2 ^ 53) (hk : |k| + n < 2 ^ 24) (i : ℕ) (hi : i ≤ n) :
    ∃ d : ℤ, |d| ≤ i ∧
      (octaedroBobbing^[i] b).translation1 = ((j + d : ℤ) : ℚ) / 2 ∧
      (octaedroBobbing^[i] b).m13 = ((k + d : ℤ) : ℚ) / 4 := by
  induction i with
  | zero => exact ⟨0, by simp, by simpa using hy, by simpa using hm⟩
  | succ i ih =>
    obtain ⟨d, hd, g1, g2⟩ := ih (by omega)
    have a1 := abs_add j d
    have a2 := abs_add k d
    obtain ⟨e, he, f1, f2⟩ := octaedroBobbing_step (octaedroBobbing^[i] b) (j + d) (k + d)
      g1 g2 (by omega) (by omega)
    refine ⟨d + e, ?_, ?_, ?_⟩
    · have a3 := abs_add d e
      have a4 : |e| = 1 := by rcases he with h | h <;> rw [h] <;> rfl
      push_cast; omega
    · rw [Function.iterate_succ_apply', f1, add_assoc]
    · rw [Function.iterate_succ_apply', f2, add_assoc]

theorem octaedroBobbing_iterate_bounded (b : Bobbing) (j k : ℤ)
    (hy : b.translation1 = (j : ℚ) / 2) (hm : b.m13 = (k : ℚ) / 4)
    (hj : |j| ≤ 24) (hk : |k| ≤ 2 ^ 23) (i : ℕ) :
    ∃ d : ℤ, |j + d| ≤ 24 ∧
      (octaedroBobbing^[i] b).translation1 = ((j + d : ℤ) : ℚ) / 2 ∧
      (octaedroBobbing^[i] b).m13 = ((k + d : ℤ) : ℚ) / 4 := by
  induction i with
  | zero => exact ⟨0, by simpa using hj, by simpa using hy, by simpa using hm⟩
  | succ i ih =>
    obtain ⟨d, hd, g1, g2⟩ := ih
    have b1 := abs_le.mp hj
    have b2 := abs_le.mp hd
    have b3 := abs_le.mp hk
    have hk' : |k + d| + 1 < 2 ^ 24 := by
      have : |k + d| ≤ 2 ^ 23 + 48 := abs_le.mpr ⟨by omega, by omega⟩
      omega
    have hj' : |j + d| + 1 < 2 ^ 53 := by omega
    obtain ⟨hb, ht⟩ := octaedroBobbing_grid (octaedroBobbing^[i] b) (j + d) (k + d) g1 g2 hj' hk'
    have hflag := octaedroBobbing_flag (octaedroBobbing^[i] b)
    rw [g1] at hflag
    cases hf : (octaedroBobbing (octaedroBobbing^[i] b)).flag with
    | bottom =>
      obtain ⟨f1, f2⟩ := hb hf
      have hne : j + d ≠ 24 := by
        intro h24
        rw [hf, h24] at hflag
        norm_num at hflag
        cases hflag
      refine ⟨d + 1, abs_le.mpr ⟨by omega, by omega⟩, ?_, ?_⟩
      · rw [Function.iterate_succ_apply', f1, g1]; push_cast; ring
      · rw [Function.iterate_succ_apply', f2, g2]; push_cast; ring
    | top =>
      obtain ⟨f1, f2⟩ := ht hf
      have hne : j + d ≠ -24 := by
        intro h24
        rw [hf, h24] at hflag
        norm_num at hflag
        cases hflag
      refine ⟨d + -1, abs_le.mpr ⟨by omega, by omega⟩, ?_, ?_⟩
      · rw [Function.iterate_succ_apply', f1, g1]; push_cast; ring
      · rw [Function.iterate_succ_apply', f2, g2]; push_cast; ring

/-- Under either size condition every state of the run is on the grid, with
room for one more exact step. -/
theorem octaedroBobbing_onGrid (b : Bobbing) (j k : ℤ) (n : ℕ)
    (hy : b.translation1 = (j : ℚ) / 2) (hm : b.m13 = (k : ℚ) / 4)
    (hb : (|j| ≤ 24 ∧ |k| ≤ 2 ^ 23) ∨ (|j| + n < 2 ^ 53 ∧ |k| + n < 2 ^ 24))
    (i : ℕ) (hi : i ≤ n) :
    ∃ d : ℤ,
      (octaedroBobbing^[i] b).translation1 = ((j + d : ℤ) : ℚ) / 2 ∧
      (octaedroBobbing^[i] b).m13 = ((k + d : ℤ) : ℚ) / 4 ∧
      (i < n → |j + d| + 1 < 2 ^ 53 ∧ |k + d| + 1 < 2 ^ 24) := by
  rcases hb with ⟨hj, hk⟩ | ⟨hj, hk⟩
  · obtain ⟨d, hd, g1, g2⟩ := octaedroBobbing_iterate_bounded b j k hy hm hj hk i
    refine ⟨d, g1, g2, fun _ => ?_⟩
    have b1 := abs_le.mp hj
    have b2 := abs_le.mp hd
    have b3 := abs_le.mp hk
    have : |k + d| ≤ 2 ^ 23 + 48 := abs_le.mpr ⟨by omega, by omega⟩
    constructor <;> omega
  · obtain ⟨d, hd, g1, g2⟩ := octaedroBobbing_iterate b j k n hy hm hj hk i hi
    refine ⟨d, g1, g2, fun hlt => ?_⟩
    have a1 := abs_add j d
    have a2 := abs_add k d
    constructor <;> omega

/-- C17, as stated, fails on the numbers the program stores.  An octahedron
created with `translation[1] = 0.1` holds the float nearest to `0.1` in
`modelViewMatrix[13]`; its first tick moves `translation[1]` by
`18014398509481983 / 2 ^ 55` and the `Float32Array` store moves
`modelViewMatrix[13]` by `33554431 / 2 ^ 27`: neither `0.5` nor `0.25`, and
the second is not half the first.  An octahedron created with
`translation[1] = 4194304` (`2 ^ 22`, on the grid) has `translation[1]` moved
by exactly `0.5` while `modelViewMatrix[13]` stays where it was. -/
theorem bobbing_ratio_counterexample :
    (createOctaedroBobbing (toDouble (1 / 10))).translation1 =
      3602879701896397 / 36028797018963968 ∧
    (createOctaedroBobbing (toDouble (1 / 10))).m13 = 13421773 / 134217728 ∧
    (octaedroBobbing (createOctaedroBobbing (toDouble (1 / 10)))).translation1 -
        (createOctaedroBobbing (toDouble (1 / 10))).translation1 =
      18014398509481983 / 36028797018963968 ∧
    (octaedroBobbing (createOctaedroBobbing (toDouble (1 / 10)))).m13 -
        (createOctaedroBobbing (toDouble (1 / 10))).m13 = 33554431 / 134217728 ∧
    (octaedroBobbing (createOctaedroBobbing (toDouble (1 / 10)))).m13 -
        (createOctaedroBobbing (toDouble (1 / 10))).m13 ≠ 1 / 4 ∧
    (octaedroBobbing (createOctaedroBobbing (toDouble (1 / 10)))).m13 -
        (createOctaedroBobbing (toDouble (1 / 10))).m13 ≠ -(1 / 4) ∧
    (octaedroBobbing (createOctaedroBobbing (toDouble (1 / 10)))).m13 -
        (createOctaedroBobbing (toDouble (1 / 10))).m13 ≠
      1 / 2 * ((octaedroBobbing (createOctaedroBobbing (toDouble (1 / 10)))).translation1 -
        (createOctaedroBobbing (toDouble (1 / 10))).translation1) ∧
    (createOctaedroBobbing 4194304).m13 = 4194304 ∧
    (octaedroBobbing (createOctaedroBobbing 4194304)).translation1 -
        (createOctaedroBobbing 4194304).translation1 = 1 / 2 ∧
    (octaedroBobbing (createOctaedroBobbing 4194304)).m13 -
        (createOctaedroBobbing 4194304).m13 = 0 ∧
    (octaedroBobbing (createOctaedroBobbing 4194304)).m13 -
        (createOctaedroBobbing 4194304).m13 ≠
      1 / 2 * ((octaedroBobbing (createOctaedroBobbing 4194304)).translation1 -
        (createOctaedroBobbing 4194304).translation1) := by
  have hc : createOctaedroBobbing (toDouble (1 / 10)) =
      ⟨3602879701896397 / 36028797018963968, 13421773 / 134217728, Flag.bottom⟩ := by
    rw [createOctaedroBobbing, toDouble_tenth, fround_double_tenth]
  have hc' : createOctaedroBobbing 4194304 = ⟨4194304, 4194304, Flag.bottom⟩ := by
    rw [createOctaedroBobbing, fround_two_pow_22]
  rw [hc, hc']
  have hf : (octaedroBobbing
      ⟨3602879701896397 / 36028797018963968, 13421773 / 134217728, Flag.bottom⟩).flag =
      Flag.bottom := by
    rw [octaedroBobbing_flag]; norm_num
  obtain ⟨g1, g2⟩ := octaedroBobbing_bottom _ hf
  have h1 : (octaedroBobbing
      ⟨3602879701896397 / 36028797018963968, 13421773 / 134217728, Flag.bottom⟩).translation1 =
      5404319552844595 / 9007199254740992 := g1.trans toDouble_tenth_plus_half
  have h2 : (octaedroBobbing
      ⟨3602879701896397 / 36028797018963968, 13421773 / 134217728, Flag.bottom⟩).m13 =
      11744051 / 33554432 := g2.trans store_tenth_plus_quarter
  have hf' : (octaedroBobbing ⟨4194304, 4194304, Flag.bottom⟩).flag = Flag.bottom := by
    rw [octaedroBobbing_flag]; norm_num
  obtain ⟨g3, g4⟩ := octaedroBobbing_bottom _ hf'
  have h3 : (octaedroBobbing ⟨4194304, 4194304, Flag.bottom⟩).translation1 =
      4194304 + 1 / 2 := g3.trans toDouble_two_pow_22_plus_half
  have h4 : (octaedroBobbing ⟨4194304, 4194304, Flag.bottom⟩).m13 = 4194304 :=
    g4.trans store_two_pow_22
  rw [h1, h2, h3, h4]
  refine ⟨rfl, rfl, ?_, ?_, ?_, ?_, ?_, rfl, ?_, ?_, ?_⟩ <;> norm_num

/-- C17 amended: for stored numbers on the grid — `translation[1]` a multiple
`j / 2` of `0.5` and `modelViewMatrix[13]` a multiple `k / 4` of `0.25` — that
are small enough for the stores to stay exact over a run of `n` ticks
(`translation[1]` in `[-12, 12]` and `|modelViewMatrix[13]| ≤ 2 ^ 21`, for any
`n`; or `|j| + n < 2 ^ 53` and `|k| + n < 2 ^ 24`), every tick of the run
changes `translation[1]` by `+0.5` or `-0.5` and `modelViewMatrix[13]` by
`+0.25` or `-0.25` with the same sign, the rotation applied afterwards leaves
element 13 untouched, and after the `n` ticks `modelViewMatrix[13]` minus its
initial value is `0.5` times `translation[1]` minus its initial value.  On
such numbers the exact-valued `octaedroUpdate` computes what is stored. -/
theorem bobbing_ratio (M : JsMath ℚ) (axis : Vec3 ℚ) (a : Mat4 ℚ) (rad now : ℚ)
    (o : Octaedro ℚ) (b : Bobbing) (j k : ℤ) (n : ℕ)
    (hy : b.translation1 = (j : ℚ) / 2) (hm : b.m13 = (k : ℚ) / 4)
    (hb : (|j| ≤ 24 ∧ |k| ≤ 2 ^ 23) ∨ (|j| + n < 2 ^ 53 ∧ |k| + n < 2 ^ 24)) :
    (∀ i : ℕ, i < n →
      ((octaedroBobbing (octaedroBobbing^[i] b)).translation1 -
            (octaedroBobbing^[i] b).translation1 = 1 / 2 ∧
        (octaedroBobbing (octaedroBobbing^[i] b)).m13 - (octaedroBobbing^[i] b).m13 = 1 / 4) ∨
      ((octaedroBobbing (octaedroBobbing^[i] b)).translation1 -
            (octaedroBobbing^[i] b).translation1 = -(1 / 2) ∧
        (octaedroBobbing (octaedroBobbing^[i] b)).m13 - (octaedroBobbing^[i] b).m13 =
          -(1 / 4))) ∧
    (rotateInPlace M a rad axis).m13 = a.m13 ∧
    (octaedroBobbing^[n] b).m13 - b.m13 =
      1 / 2 * ((octaedroBobbing^[n] b).translation1 - b.translation1) ∧
    (0 < n → o.translation.y = b.translation1 → o.modelViewMatrix.m13 = b.m13 →
      o.flag = b.flag →
      (octaedroUpdate M axis o now).translation.y = (octaedroBobbing b).translation1 ∧
      (octaedroUpdate M axis o now).modelViewMatrix.m13 = (octaedroBobbing b).m13 ∧
      (octaedroUpdate M axis o now).flag = (octaedroBobbing b).flag) := by
  refine ⟨fun i hi => ?_, rotateInPlace_m13 M a rad axis, ?_, ?_⟩
  · obtain ⟨d, g1, g2, hroom⟩ := octaedroBobbing_onGrid b j k n hy hm hb i (by omega)
    obtain ⟨hb, ht⟩ := octaedroBobbing_grid (octaedroBobbing^[i] b) (j + d) (k + d) g1 g2
      (hroom hi).1 (hroom hi).2
    cases hf : (octaedroBobbing (octaedroBobbing^[i] b)).flag with
    | bottom =>
      obtain ⟨f1, f2⟩ := hb hf
      exact Or.inl ⟨by rw [f1]; ring, by rw [f2]; ring⟩
    | top =>
      obtain ⟨f1, f2⟩ := ht hf
      exact Or.inr ⟨by rw [f1]; ring, by rw [f2]; ring⟩
  · obtain ⟨d, g1, g2, _⟩ := octaedroBobbing_onGrid b j k n hy hm hb n le_rfl
    rw [g1, g2, hy, hm]
    push_cast
    ring
  · intro hn hoy hom hof
    obtain ⟨d, g1, g2, hroom⟩ := octaedroBobbing_onGrid b j k n hy hm hb 0 (by omega)
    have hd : ((j + d : ℤ) : ℚ) = (j : ℚ) := by
      have h := g1
      rw [Function.iterate_zero_apply, hy] at h
      linarith
    have hd0 : d = 0 := by
      have : (j + d : ℤ) = j := by exact_mod_cast hd
      omega
    subst hd0
    obtain ⟨hb, ht⟩ := octaedroBobbing_grid b j k hy hm
      (by simpa using (hroom hn).1) (by simpa using (hroom hn).2)
    have hflag : (octaedroUpdate M axis o now).flag = (octaedroBobbing b).flag := by
      show (if o.translation.y = 12 then Flag.top
        else if o.translation.y = -12 then Flag.bottom else o.flag) = _
      rw [hoy, hof, octaedroBobbing_flag]
    cases hf : (octaedroBobbing b).flag with
    | bottom =>
      obtain ⟨f1, f2⟩ := hb hf
      rw [hf] at hflag
      rw [octaedroUpdate_y_bottom M axis o now hflag, octaedroUpdate_m13_bottom M axis o now hflag,
        f1, f2, hoy, hom]
      exact ⟨rfl, rfl, hflag⟩
    | top =>
      obtain ⟨f1, f2⟩ := ht hf
      rw [hf] at hflag
      rw [octaedroUpdate_y_top M axis o now hflag, octaedroUpdate_m13_top M axis o now hflag,
        f1, f2, hoy, hom]
      exact ⟨rfl, rfl, hflag⟩

theorem createOctaedroBobbing_zero : createOctaedroBobbing 0 = ⟨0, 0, Flag.bottom⟩ := by
  have h := roundBinary_exact 24 (-126) 0 0 (by norm_num) (by norm_num)
  have h0 : fround 0 = 0 := by simpa [fround] using h
  rw [createOctaedroBobbing, h0]

/-- C17 amended, at an octahedron created with `translation[1] = 0`: after a
thousand ticks the stored `modelViewMatrix[13]` has moved by half of what the
stored `translation[1]` has moved. -/
theorem bobbing_ratio_witness :
    (octaedroBobbing^[1000] (createOctaedroBobbing 0)).m13 - (createOctaedroBobbing 0).m13 =
      1 / 2 * ((octaedroBobbing^[1000] (createOctaedroBobbing 0)).translation1 -
        (createOctaedroBobbing 0).translation1) :=
  (bobbing_ratio ratMath ⟨0, 1, 0⟩ mat4_create 0 0 (createOctaedro ⟨0, 0, 0⟩ 0)
    (createOctaedroBobbing 0) 0 0 1000
    (by rw [createOctaedroBobbing_zero]; norm_num)
    (by rw [createOctaedroBobbing_zero]; norm_num)
    (Or.inl ⟨by norm_num, by norm_num⟩)).2.2.1

/-! ### The frame loop -/

/-- C13, as stated, fails: in the game the first step of `run` is the
re-registration, not the update; in `3d_cube.js` the re-registration also
comes first, and the render (`draw`) comes before the updates, so that a
cube created at time `0` is drawn unrotated in the frame whose update turns
it. -/
theorem frame_order_counterexample :
    (Game.runFrame (Game.createScene id (fun _ => 0))).steps =
      [Game.FrameStep.reregister, Game.FrameStep.update, Game.FrameStep.render] ∧
    (Game.runFrame (Game.createScene id (fun _ => 0))).steps ≠
      [Game.FrameStep.update, Game.FrameStep.render, Game.FrameStep.reregister] ∧
    (run ratMath [Obj.cube ⟨0, 1, 0⟩ (createCube ⟨0, 0, 0⟩ 0)] (fun _ => 16)).steps =
      [FrameStep.reregister, FrameStep.render, FrameStep.update] ∧
    (run ratMath [Obj.cube ⟨0, 1, 0⟩ (createCube ⟨0, 0, 0⟩ 0)] (fun _ => 16)).steps ≠
      [FrameStep.update, FrameStep.render, FrameStep.reregister] ∧
    (run ratMath [Obj.cube ⟨0, 1, 0⟩ (createCube ⟨0, 0, 0⟩ 0)] (fun _ => 16)).drawn =
      [(createCube (⟨0, 0, 0⟩ : Vec3 ℚ) 0).modelViewMatrix] := by
  refine ⟨rfl, by decide, rfl, by decide, rfl⟩

/-- C13 amended: every invocation of `run` first re-registers itself for
the next display tick; the game then runs `update()` and afterwards
`render()`, which draws the state the update produced; `3d_cube.js` then
calls `draw`, which uploads the matrices as they were before this
invocation's updates, and afterwards calls `update` on every object in
order. -/
theorem frame_order (s : Game.State) (M : JsMath α) (objs : List (Obj α)) (now : Nat → α) :
    (Game.runFrame s).steps =
      [Game.FrameStep.reregister, Game.FrameStep.update, Game.FrameStep.render] ∧
    (Game.runFrame s).state = Game.update s ∧
    (Game.runFrame s).rendered =
      (Game.update s).sceneChildren.map (fun o => (o, (Game.update s).posX o)) ∧
    (run M objs now).steps =
      [FrameStep.reregister, FrameStep.render] ++ List.replicate objs.length FrameStep.update ∧
    (run M objs now).drawn = objs.map Obj.modelViewMatrix ∧
    (run M objs now).objs = objs.enum.map (fun io => io.2.update M (now io.1)) := by
  refine ⟨rfl, rfl, rfl, ?_, rfl, rfl⟩
  simp only [run, List.map_const', List.singleton_append, List.cons_append, List.nil_append]

/-! ### Colours per vertex -/

theorem createCube_colours :
    ColourPerVertex createCube_verts createCube_vertexColors createCube_faceColors
      createCube_counts createCube_faceOfVertex := by
  refine ⟨rfl, rfl, rfl, fun v hv => ?_⟩
  have hv' : v < 24 := hv
  interval_cases v <;> rfl

set_option maxRecDepth 8000 in
theorem createDodecaedro_colours :
    ColourPerVertex createDodecaedro_verts createDodecaedro_vertexColors
      createDodecaedro_faceColors createDodecaedro_counts createDodecaedro_faceOfVertex := by
  refine ⟨rfl, rfl, rfl, fun v hv => ?_⟩
  have hv' : v < 60 := hv
  interval_cases v <;> rfl

theorem createOctaedro_colours (v : Nat) (hv : v < createOctaedro_counts.nVerts) :
    some (vertexColor createOctaedro_vertexColors v) =
      createOctaedro_faceColors.get? (createOctaedro_faceOfVertex v) := by
  have hv' : v < 24 := hv
  interval_cases v <;> rfl

theorem createPyramid_vertex3 :
    some (vertexColor createPyramid_vertexColors 3) ≠ createPyramid_faceColors.get? 1 := by
  have h3 : vertexColor createPyramid_vertexColors 3 = [1.0, 0.0, 0.0, 1.0] := rfl
  have h1 : createPyramid_faceColors.get? 1 = some [0.0, 1.0, 0.0, 1.0] := rfl
  rw [h3, h1]
  norm_num

theorem createPyramidPentagon_vertex5 :
    some (vertexColor createPyramidPentagon_vertexColors 5) ≠
      createPyramidPentagon_faceColors.get? 1 := by
  have h5 : vertexColor createPyramidPentagon_vertexColors 5 = [1.0, 0.0, 0.0, 1.0] := rfl
  have h1 : createPyramidPentagon_faceColors.get? 1 = some [0.0, 1.0, 0.0, 1.0] := rfl
  rw [h5, h1]
  norm_num

/-- C19: the code at the failing inputs.  `createCube` and
`createDodecaedro` upload one colour per vertex, face by face.
`createPyramid` pushes every face colour four times for faces of three
vertices: 16 colours (64 numbers) for 12 vertices, and vertex 3, the first
of the right face, is given the front face's colour.  `createPyramidPentagon`
pushes `faceColors[0]` for the base and again for the first side face: 23
colours (92 numbers) for 20 vertices, and vertex 5, of the front face, is
given the base's colour.  `createOctaedro` colours its vertices face by face
but declares `nColors = 36` for 24 vertices. -/
theorem vertex_colours_mismatch :
    ColourPerVertex createCube_verts createCube_vertexColors createCube_faceColors
      createCube_counts createCube_faceOfVertex ∧
    ColourPerVertex createDodecaedro_verts createDodecaedro_vertexColors
      createDodecaedro_faceColors createDodecaedro_counts createDodecaedro_faceOfVertex ∧
    (createPyramid_vertexColors.length = 64 ∧ 4 * createPyramid_counts.nVerts = 48 ∧
      createPyramid_faceOfVertex 3 = 1 ∧
      some (vertexColor createPyramid_vertexColors 3) = createPyramid_faceColors.get? 0 ∧
      some (vertexColor createPyramid_vertexColors 3) ≠ createPyramid_faceColors.get? 1) ∧
    (createPyramidPentagon_vertexColors.length = 92 ∧
      4 * createPyramidPentagon_counts.nVerts = 80 ∧
      createPyramidPentagon_faceOfVertex 5 = 1 ∧
      some (vertexColor createPyramidPentagon_vertexColors 5) =
        createPyramidPentagon_faceColors.get? 0 ∧
      some (vertexColor createPyramidPentagon_vertexColors 5) ≠
        createPyramidPentagon_faceColors.get? 1) ∧
    (createOctaedro_counts.nColors = 36 ∧ createOctaedro_counts.nVerts = 24 ∧
      createOctaedro_vertexColors.length = 4 * createOctaedro_counts.nVerts ∧
      3 * createOctaedro_counts.nVerts = createOctaedro_verts.length ∧
      ∀ v, v < createOctaedro_counts.nVerts →
        some (vertexColor createOctaedro_vertexColors v) =
          createOctaedro_faceColors.get? (createOctaedro_faceOfVertex v)) ∧
    ¬ ColourPerVertex createPyramid_verts createPyramid_vertexColors createPyramid_faceColors
      createPyramid_counts createPyramid_faceOfVertex ∧
    ¬ ColourPerVertex createPyramidPentagon_verts createPyramidPentagon_vertexColors
      createPyramidPentagon_faceColors createPyramidPentagon_counts
      createPyramidPentagon_faceOfVertex ∧
    ¬ ColourPerVertex createOctaedro_verts createOctaedro_vertexColors
      createOctaedro_faceColors createOctaedro_counts createOctaedro_faceOfVertex := by
  refine ⟨createCube_colours, createDodecaedro_colours,
    ⟨rfl, rfl, rfl, rfl, createPyramid_vertex3⟩,
    ⟨rfl, rfl, rfl, rfl, createPyramidPentagon_vertex5⟩,
    ⟨rfl, rfl, rfl, rfl, createOctaedro_colours⟩, ?_, ?_, ?_⟩
  · exact fun h => absurd h.1 (by decide)
  · exact fun h => absurd h.1 (by decide)
  · exact fun h => absurd h.2.1 (by decide)

/-! ### Index tables -/

theorem fetchVertex_isSome (verts vertexColors : List ℚ) (nVerts i : Nat)
    (hv : 3 * nVerts ≤ verts.length) (hc : 4 * nVerts ≤ vertexColors.length)
    (hi : i < nVerts) : (fetchVertex verts vertexColors i).isSome = true := by
  have h : 3 * i + 3 ≤ verts.length ∧ 4 * i + 4 ≤ vertexColors.length := by
    constructor <;> omega
  simp [fetchVertex, h]

theorem drawElements_in_range (verts vertexColors : List ℚ) (indexBuffer : List Nat)
    (nIndices nVerts : Nat) (hn : nIndices ≤ indexBuffer.length)
    (hi : ∀ i ∈ indexBuffer, i < nVerts) (hv : 3 * nVerts ≤ verts.length)
    (hc : 4 * nVerts ≤ vertexColors.length) :
    ∀ x ∈ drawElements verts vertexColors indexBuffer nIndices, x.isSome = true := by
  intro x hx
  obtain ⟨k, hk, rfl⟩ := List.mem_map.mp hx
  have hlt : k < indexBuffer.length := Nat.lt_of_lt_of_le (List.mem_range.mp hk) hn
  rw [List.getElem?_eq_getElem hlt, Option.some_bind]
  exact fetchVertex_isSome verts vertexColors nVerts _ hv hc (hi _ (List.getElem_mem hlt))

theorem createCube_indices :
    IndexConsistent createCube_verts createCube_cubeIndices createCube_counts
      createCube_faceOfVertex := by
  refine ⟨rfl, rfl, rfl, by decide, by decide⟩

theorem createPyramid_indices :
    IndexConsistent createPyramid_verts createPyramid_pyramidIndices createPyramid_counts
      createPyramid_faceOfVertex := by
  refine ⟨rfl, rfl, rfl, by decide, by decide⟩

theorem createPyramidPentagon_indices :
    IndexConsistent createPyramidPentagon_verts createPyramidPentagon_phIndices
      createPyramidPentagon_counts createPyramidPentagon_faceOfVertex := by
  refine ⟨rfl, rfl, rfl, by decide, by decide⟩

theorem createOctaedro_indices :
    IndexConsistent createOctaedro_verts createOctaedro_octIndices createOctaedro_counts
      createOctaedro_faceOfVertex := by
  refine ⟨rfl, rfl, rfl, by decide, by decide⟩

set_option maxRecDepth 8000 in
theorem createDodecaedro_indices :
    IndexConsistent createDodecaedro_verts createDodecaedro_dodeIndices
      createDodecaedro_counts createDodecaedro_faceOfVertex := by
  refine ⟨rfl, rfl, rfl, by decide, by decide⟩

set_option maxRecDepth 8000 in
theorem indexBuffers_exact :
    createCube_indexBuffer = createCube_cubeIndices ∧
    createPyramid_indexBuffer = createPyramid_pyramidIndices ∧
    createPyramidPentagon_indexBuffer = createPyramidPentagon_phIndices ∧
    createOctaedro_indexBuffer = createOctaedro_octIndices ∧
    createDodecaedro_indexBuffer = createDodecaedro_dodeIndices := by
  refine ⟨by decide, by decide, by decide, by decide, by decide⟩

set_option maxRecDepth 8000 in
theorem colourBuffers_long_enough :
    4 * createCube_counts.nVerts ≤ createCube_vertexColors.length ∧
    4 * createPyramid_counts.nVerts ≤ createPyramid_vertexColors.length ∧
    4 * createPyramidPentagon_counts.nVerts ≤ createPyramidPentagon_vertexColors.length ∧
    4 * createOctaedro_counts.nVerts ≤ createOctaedro_vertexColors.length ∧
    4 * createDodecaedro_counts.nVerts ≤ createDodecaedro_vertexColors.length := by
  refine ⟨by decide, by decide, by decide, by decide, by decide⟩

theorem drawElements_of_consistent (verts vertexColors : List ℚ) (indices indexBuffer : List Nat)
    (counts : Counts) (faceOfVertex : Nat → Nat)
    (h : IndexConsistent verts indices counts faceOfVertex) (hb : indexBuffer = indices)
    (hc : 4 * counts.nVerts ≤ vertexColors.length) :
    ∀ x ∈ drawElements verts vertexColors indexBuffer counts.nIndices, x.isSome = true := by
  subst hb
  exact drawElements_in_range verts vertexColors indexBuffer counts.nIndices counts.nVerts
    (Nat.le_of_eq h.1) h.2.2.2.1 (Nat.le_of_eq h.2.2.1) hc

/-- C22: for each of the five shape builders the declared `nIndices` is the
length of the index array and a multiple of 3, `nVerts` is the number of
vertex triples of `verts`, every index is smaller than `nVerts`, and the
three indices of every triangle lie in the vertex block of one face; the
`Uint16Array` holds the indices unchanged, so every vertex `draw` fetches
through `drawElements` lies inside the vertex and colour buffers. -/
theorem index_tables_consistent :
    (IndexConsistent createCube_verts createCube_cubeIndices createCube_counts
        createCube_faceOfVertex ∧
      IndexConsistent createPyramid_verts createPyramid_pyramidIndices createPyramid_counts
        createPyramid_faceOfVertex ∧
      IndexConsistent createPyramidPentagon_verts createPyramidPentagon_phIndices
        createPyramidPentagon_counts createPyramidPentagon_faceOfVertex ∧
      IndexConsistent createOctaedro_verts createOctaedro_octIndices createOctaedro_counts
        createOctaedro_faceOfVertex ∧
      IndexConsistent createDodecaedro_verts createDodecaedro_dodeIndices
        createDodecaedro_counts createDodecaedro_faceOfVertex) ∧
    (createCube_indexBuffer = createCube_cubeIndices ∧
      createPyramid_indexBuffer = createPyramid_pyramidIndices ∧
      createPyramidPentagon_indexBuffer = createPyramidPentagon_phIndices ∧
      createOctaedro_indexBuffer = createOctaedro_octIndices ∧
      createDodecaedro_indexBuffer = createDodecaedro_dodeIndices) ∧
    (∀ x ∈ drawElements createCube_verts createCube_vertexColors createCube_indexBuffer
        createCube_counts.nIndices, x.isSome = true) ∧
    (∀ x ∈ drawElements createPyramid_verts createPyramid_vertexColors
        createPyramid_indexBuffer createPyramid_counts.nIndices, x.isSome = true) ∧
    (∀ x ∈ drawElements createPyramidPentagon_verts createPyramidPentagon_vertexColors
        createPyramidPentagon_indexBuffer createPyramidPentagon_counts.nIndices,
        x.isSome = true) ∧
    (∀ x ∈ drawElements createOctaedro_verts createOctaedro_vertexColors
        createOctaedro_indexBuffer createOctaedro_counts.nIndices, x.isSome = true) ∧
    (∀ x ∈ drawElements createDodecaedro_verts createDodecaedro_vertexColors
        createDodecaedro_indexBuffer createDodecaedro_counts.nIndices, x.isSome = true) := by
  obtain ⟨b1, b2, b3, b4, b5⟩ := indexBuffers_exact
  obtain ⟨c1, c2, c3, c4, c5⟩ := colourBuffers_long_enough
  exact ⟨⟨createCube_indices, createPyramid_indices, createPyramidPentagon_indices,
      createOctaedro_indices, createDodecaedro_indices⟩, ⟨b1, b2, b3, b4, b5⟩,
    drawElements_of_consistent _ _ _ _ _ _ createCube_indices b1 c1,
    drawElements_of_consistent _ _ _ _ _ _ createPyramid_indices b2 c2,
    drawElements_of_consistent _ _ _ _ _ _ createPyramidPentagon_indices b3 c3,
    drawElements_of_consistent _ _ _ _ _ _ createOctaedro_indices b4 c4,
    drawElements_of_consistent _ _ _ _ _ _ createDodecaedro_indices b5 c5⟩

end Cube3D

end Graficas
